import Mathlib

/-!
# audio_hw.c (OMAP3 audio HAL): a shallow embedding

The definitions below follow `src/audio/audio_hw.c` function by function and
keep its names.  Conventions of the embedding:

* `size_t`, `unsigned int`, `uint32_t` and `unsigned long` are 32 bits wide on
  the target (ARM, OMAP3).  Their values are natural numbers and every
  arithmetic operation the source performs on them is reduced with `u32`.
* `int` values are integers; `toInt32` is the conversion of a 32-bit pattern
  to `int`.
* Byte counts handed to `write` and `read` are `size_t` values, natural numbers
  here.  The operations return `ssize_t`, a signed 32-bit type on the target, so
  the final `return bytes` converts the count with `size_t_to_ssize_t`.
* The failure path of `in_read` divides by the frame size and by the requested
  rate of the stream.  A division by zero has no defined result, and `in_read`
  returns `none` there.
  `out_get_buffer_size` and `out_get_latency` divide by the configured rate,
  44100 on every stream the factory creates, which the statements about them
  take to be positive; every other divisor is a non-zero constant.
* Calls into tinyalsa, libc and pthread are recorded as `Event`s, in program
  order, in the list every operation returns.  What the transport answers is
  an input of the operation (`OutAttempt`, `InAttempt`).
* Logging macros (`LOGFUNC`, `LOGE`) have no effect on the state and are left
  out.  The build flag `AM335XEVM` is taken as not defined.
-/

set_option linter.unusedVariables false

namespace AudioHw

/-! ## Machine integers -/

/-- Reduction of a natural number to an unsigned 32-bit value. -/
def u32 (n : Nat) : Nat := n % 2 ^ 32

/-- Conversion of an integer to the `int` with the same low 32 bits. -/
def toInt32 (z : Int) : Int :=
  let m := z % 2 ^ 32
  if m < 2 ^ 31 then m else m - 2 ^ 32

/-- Conversion of an `int` to `size_t`. -/
def int_to_size_t (z : Int) : Nat := (z % 2 ^ 32).toNat

/-- Conversion of a `size_t` to `ssize_t`, the signed type of the same 32 bits: what
`return bytes` does in a function declared to return `ssize_t`. -/
def size_t_to_ssize_t (n : Nat) : Int := toInt32 (n : Int)

/-! ## Constants of the source and of the headers it includes -/

def EINVAL : Int := 22
def ENOMEM : Int := 12
def EPIPE : Int := 32
def ENOSYS : Int := 38

/-- Value of `AUDIO_FORMAT_PCM_16_BIT` in `system/audio.h`. -/
def AUDIO_FORMAT_PCM_16_BIT : Int := 1
/-- Value of `AUDIO_CHANNEL_OUT_STEREO` in `system/audio.h` (front left and front right). -/
def AUDIO_CHANNEL_OUT_STEREO : Nat := 0x3
/-- Value of `AUDIO_CHANNEL_IN_MONO` in `system/audio.h`. -/
def AUDIO_CHANNEL_IN_MONO : Nat := 0x10
/-- Value of `AUDIO_CHANNEL_IN_STEREO` in `system/audio.h`. -/
def AUDIO_CHANNEL_IN_STEREO : Nat := 0xC
def AUDIO_DEVICE_OUT_SPEAKER : Nat := 0x2
def AUDIO_DEVICE_IN_BUILTIN_MIC : Nat := 0x40000
/-- Value of `PCM_FORMAT_S16_LE` in tinyalsa. -/
def PCM_FORMAT_S16_LE : Nat := 0
def PCM_OUT : Nat := 0x00000000
def PCM_IN : Nat := 0x10000000
def PCM_MMAP : Nat := 0x00000001

def CARD_OMAP3_DEFAULT : Nat := 0
def PORT_OMAP3 : Nat := 0

def ABE_BASE_FRAME_COUNT : Nat := 24
def SHORT_PERIOD_MULTIPLIER : Nat := 80
def SHORT_PERIOD_SIZE : Nat := ABE_BASE_FRAME_COUNT * SHORT_PERIOD_MULTIPLIER
def LONG_PERIOD_MULTIPLIER : Nat := 1
def LONG_PERIOD_SIZE : Nat := SHORT_PERIOD_SIZE * LONG_PERIOD_MULTIPLIER
def PLAYBACK_PERIOD_COUNT : Nat := 4
def CAPTURE_PERIOD_COUNT : Nat := 2
def MIN_WRITE_SLEEP_US : Nat := 5000
def RESAMPLER_BUFFER_FRAMES : Nat := SHORT_PERIOD_SIZE * 2
def RESAMPLER_BUFFER_SIZE : Nat := 4 * RESAMPLER_BUFFER_FRAMES
def DEFAULT_OUT_SAMPLING_RATE : Nat := 44100
def MM_LOW_POWER_SAMPLING_RATE : Nat := 44100
def MM_FULL_POWER_SAMPLING_RATE : Nat := 48000

/-! ## Transport configuration -/

/-- The fields of tinyalsa `struct pcm_config` the source reads or writes. -/
structure pcm_config where
  channels : Nat
  rate : Nat
  period_size : Nat
  period_count : Nat
  format : Nat
  start_threshold : Nat
  avail_min : Nat
  deriving DecidableEq, Repr

def pcm_config_mm : pcm_config :=
  { channels := 2
    rate := DEFAULT_OUT_SAMPLING_RATE
    period_size := LONG_PERIOD_SIZE
    period_count := PLAYBACK_PERIOD_COUNT
    format := PCM_FORMAT_S16_LE
    start_threshold := 0
    avail_min := 0 }

def pcm_config_mm_ul : pcm_config :=
  { channels := 2
    rate := 8000
    period_size := 1024
    period_count := 16
    format := PCM_FORMAT_S16_LE
    start_threshold := 0
    avail_min := 0 }

/-- Number of set bits of a channel mask (`popcount`). -/
def popcount (x : Nat) : Nat :=
  ((List.range 32).map (fun i => x / 2 ^ i % 2)).sum

/-- Modelled from the spec: `audio_stream_frame_size` lives in the platform header
`hardware/audio.h`, which is not among the sources; the frame byte size is the channel
count of the stream channel mask times the sample width (two bytes for 16-bit PCM,
one byte otherwise). -/
def audio_stream_frame_size (format : Int) (channels : Nat) : Nat :=
  popcount channels * (if format = AUDIO_FORMAT_PCM_16_BIT then 2 else 1)

/-! ## Input parameter validation and buffer sizes -/

def check_input_parameters (sample_rate : Nat) (format : Int) (channel_count : Int) : Int :=
  if format ≠ AUDIO_FORMAT_PCM_16_BIT then -EINVAL
  else if channel_count < 1 ∨ channel_count > 2 then -EINVAL
  else if sample_rate = 8000 ∨ sample_rate = 11025 ∨ sample_rate = 16000 ∨
      sample_rate = 22050 ∨ sample_rate = 24000 ∨ sample_rate = 32000 ∨
      sample_rate = 44100 ∨ sample_rate = 48000 then 0
  else -EINVAL

def get_input_buffer_size (sample_rate : Nat) (format : Int) (channel_count : Int) : Nat :=
  if check_input_parameters sample_rate format channel_count ≠ 0 then 0
  else
    let size := u32 (pcm_config_mm_ul.period_size * sample_rate) / pcm_config_mm_ul.rate
    let size := u32 (u32 (size + 15) / 16 * 16)
    u32 (u32 (size * int_to_size_t channel_count) * 2)

def adev_get_input_buffer_size (sample_rate : Nat) (format : Int) (channel_count : Int) : Nat :=
  if check_input_parameters sample_rate format channel_count ≠ 0 then 0
  else get_input_buffer_size sample_rate format channel_count

/-! ## Events, control surface, device and streams -/

inductive Mutex where
  | adev
  | stream_in (addr : Nat)
  | stream_out (addr : Nat)
  deriving DecidableEq, Repr

/-- A transport handle as returned by `pcm_open`: the flags and configuration it was
opened with and whether `pcm_is_ready` holds for it. -/
structure pcm where
  flags : Nat
  config : pcm_config
  ready : Bool
  deriving DecidableEq, Repr

/-- Calls that leave the module, in the order the source makes them. -/
inductive Event where
  | mutex_lock (m : Mutex)
  | mutex_unlock (m : Mutex)
  | mixer_ctl_set_value (ctl : String) (id : Nat) (value : Int)
  | mixer_ctl_set_enum_by_string (ctl : String) (value : String)
  | pcm_open (card : Nat) (device : Nat) (flags : Nat) (config : pcm_config)
  | pcm_close (p : Option pcm)
  | pcm_get_htimestamp (avail : Option Nat)
  | pcm_mmap_write (count : Nat) (ret : Int)
  | pcm_read (count : Nat) (ret : Int)
  | usleep (us : Nat)
  | calloc (res : Option Nat)
  | malloc (size : Nat) (res : Option Nat)
  | free (addr : Nat)
  deriving DecidableEq, Repr

/-- A control of the control surface: its name and the number of values it holds. -/
structure mixer_ctl where
  name : String
  num_values : Nat
  deriving DecidableEq, Repr

/-- The control surface: the controls `mixer_get_ctl_by_name` can find. -/
abbrev mixer := List mixer_ctl

def mixer_get_ctl_by_name (m : mixer) (name : String) : Option mixer_ctl :=
  m.find? (fun c => c.name == name)

structure route_setting where
  ctl_name : String
  intval : Int
  strval : Option String
  deriving DecidableEq, Repr

def MIXER_HEADSETR_AUDIO_R2 : String := "HeadsetR Mixer AudioR2"
def MIXER_HEADSETL_AUDIO_L2 : String := "HeadsetL Mixer AudioL2"
def MIXER_ANALOG_LEFT_AUXL_CAPTURE_SWITCH : String := "Analog Left AUXL Capture Switch"
def MIXER_ANALOG_RIGHT_AUXL_CAPTURE_SWITCH : String := "Analog Right AUXR Capture Switch"
def MIXER_ANALOG_CAPTURE_VOLUME : String := "Analog Capture Volume"
def MIXER_HEADSET_PLAYBACK_VOLUME : String := "Headset Playback Volume"

/-- The route arrays are lists here; the entry with a null `ctl_name` that ends each
array in the source is the end of the list. -/
def defaults : List route_setting :=
  [ ⟨MIXER_HEADSETR_AUDIO_R2, 1, none⟩,
    ⟨MIXER_HEADSETL_AUDIO_L2, 1, none⟩,
    ⟨MIXER_HEADSET_PLAYBACK_VOLUME, 1, none⟩,
    ⟨MIXER_ANALOG_LEFT_AUXL_CAPTURE_SWITCH, 1, none⟩,
    ⟨MIXER_ANALOG_RIGHT_AUXL_CAPTURE_SWITCH, 1, none⟩,
    ⟨MIXER_ANALOG_CAPTURE_VOLUME, 0, none⟩ ]

def speaker : List route_setting :=
  [ ⟨MIXER_HEADSETR_AUDIO_R2, 1, none⟩,
    ⟨MIXER_HEADSETL_AUDIO_L2, 1, none⟩,
    ⟨MIXER_HEADSET_PLAYBACK_VOLUME, 1, none⟩,
    ⟨MIXER_ANALOG_LEFT_AUXL_CAPTURE_SWITCH, 1, none⟩ ]

def builtin_mic : List route_setting :=
  [ ⟨MIXER_ANALOG_LEFT_AUXL_CAPTURE_SWITCH, 1, none⟩,
    ⟨MIXER_ANALOG_RIGHT_AUXL_CAPTURE_SWITCH, 1, none⟩,
    ⟨MIXER_ANALOG_CAPTURE_VOLUME, 0, none⟩ ]

/-- The fields of `struct omap3_audio_device` the streaming code uses.  The stream
references hold the address of the stream, `none` being the null pointer. -/
structure omap3_audio_device where
  mixer : mixer
  mode : Int
  devices : Nat
  active_input : Option Nat
  active_output : Option Nat
  mic_mute : Bool
  deriving DecidableEq, Repr

/-- An output stream; `addr` is the address of the object, `pcm` and `buffer` are
pointers (`none` is null). -/
structure omap3_stream_out where
  addr : Nat
  config : pcm_config
  pcm : Option pcm
  buffer : Option Nat
  standby : Int
  write_threshold : Int
  deriving DecidableEq, Repr

/-- An input stream; `addr` is the address of the object, `pcm` and `buffer` are
pointers (`none` is null). -/
structure omap3_stream_in where
  addr : Nat
  config : pcm_config
  pcm : Option pcm
  device : Nat
  buffer : Option Nat
  frames_in : Nat
  requested_rate : Nat
  standby : Int
  source : Int
  deriving DecidableEq, Repr

/-! ## Control-plane router -/

/-- The writes of the inner loop of `set_route_by_array`: one `mixer_ctl_set_value`
per value index below `num_values`. -/
def set_route_values (ctl : mixer_ctl) (value : Int) : List Event :=
  (List.range ctl.num_values).map (fun j => Event.mixer_ctl_set_value ctl.name j value)

def set_route_by_array (m : mixer) (route : List route_setting) (enable : Int) :
    Int × List Event :=
  match route with
  | [] => (0, [])
  | r :: rest =>
    match mixer_get_ctl_by_name m r.ctl_name with
    | none => (-EINVAL, [])
    | some ctl =>
      let ev :=
        match r.strval with
        | some s =>
          if enable ≠ 0 then [Event.mixer_ctl_set_enum_by_string ctl.name s]
          else [Event.mixer_ctl_set_enum_by_string ctl.name "Off"]
        | none =>
          if enable ≠ 0 then set_route_values ctl r.intval
          else set_route_values ctl 0
      let res := set_route_by_array m rest enable
      (res.1, ev ++ res.2)

/-- The source discards the status of `set_route_by_array`; what remains are the
writes to the control surface. -/
def select_output_device (adev : omap3_audio_device) : List Event :=
  let speaker_on : Int := (adev.devices &&& AUDIO_DEVICE_OUT_SPEAKER : Nat)
  (set_route_by_array adev.mixer speaker speaker_on).2

def select_input_device (adev : omap3_audio_device) : List Event :=
  let main_mic_on : Int := (adev.devices &&& AUDIO_DEVICE_IN_BUILTIN_MIC : Nat)
  (set_route_by_array adev.mixer builtin_mic main_mic_on).2

/-! ## Output stream -/

/-- Result of an operation on an output stream: the returned value, the device and
stream as the call leaves them, and the calls made, in order. -/
structure OutResult where
  ret : Int
  adev : omap3_audio_device
  out : omap3_stream_out
  events : List Event
  deriving DecidableEq, Repr

/-- Start of an output stream; `open_ready` is what `pcm_is_ready` reports for the
handle `pcm_open` returns. -/
def start_output_stream (adev : omap3_audio_device) (out : omap3_stream_out)
    (open_ready : Bool) : OutResult :=
  let card := CARD_OMAP3_DEFAULT
  let port := PORT_OMAP3
  let adev := { adev with active_output := some out.addr }
  let ev_route := select_output_device adev
  let out := { out with write_threshold := (PLAYBACK_PERIOD_COUNT * LONG_PERIOD_SIZE : Nat) }
  let out := { out with config := { out.config with start_threshold := SHORT_PERIOD_SIZE * 2 } }
  let out := { out with config := { out.config with avail_min := LONG_PERIOD_SIZE } }
  let flags := PCM_OUT ||| PCM_MMAP
  let p : pcm := { flags := flags, config := out.config, ready := open_ready }
  let ev_open := [Event.pcm_open card port flags out.config]
  let out := { out with pcm := some p }
  if !p.ready then
    { ret := -ENOMEM
      adev := { adev with active_output := none }
      out := out
      events := ev_route ++ ev_open ++ [Event.pcm_close out.pcm] }
  else
    { ret := 0, adev := adev, out := out, events := ev_route ++ ev_open }

/-- The frame size of an output stream: `out_get_format` and `out_get_channels` are
constant functions. -/
def out_frame_size : Nat :=
  audio_stream_frame_size AUDIO_FORMAT_PCM_16_BIT AUDIO_CHANNEL_OUT_STEREO

def out_get_sample_rate : Nat := DEFAULT_OUT_SAMPLING_RATE

def out_get_buffer_size (out : omap3_stream_out) : Nat :=
  let size := (SHORT_PERIOD_SIZE * DEFAULT_OUT_SAMPLING_RATE) / out.config.rate
  let size := u32 (u32 (size + 15) / 16 * 16)
  u32 (size * out_frame_size)

def out_get_latency (out : omap3_stream_out) : Nat :=
  (SHORT_PERIOD_SIZE * PLAYBACK_PERIOD_COUNT * 1000) / out.config.rate

def do_output_standby (adev : omap3_audio_device) (out : omap3_stream_out) : OutResult :=
  if out.standby = 0 then
    { ret := 0
      adev := { adev with active_output := none }
      out := { out with pcm := none, standby := 1 }
      events := [Event.pcm_close out.pcm] }
  else
    { ret := 0, adev := adev, out := { out with standby := 1 }, events := [] }

def out_standby (adev : omap3_audio_device) (out : omap3_stream_out) : OutResult :=
  let r := do_output_standby adev out
  { r with
    events := [Event.mutex_lock Mutex.adev, Event.mutex_lock (Mutex.stream_out out.addr)] ++
      r.events ++
      [Event.mutex_unlock (Mutex.stream_out out.addr), Event.mutex_unlock Mutex.adev] }

/-- What the transport answers during one pass of `out_write` from `do_over` to the
underrun test: whether the handle of `pcm_open` is ready (asked only when the stream
is in standby), the buffer size of the handle, the successive answers of
`pcm_get_htimestamp` (`none` for a negative status, otherwise the available frames)
and the status of `pcm_mmap_write`. -/
structure OutAttempt where
  open_ready : Bool
  buffer_size : Nat
  polls : List (Option Nat)
  write_ret : Int
  deriving DecidableEq, Repr

/-- The pacing loop of `out_write`.  The result is `none` when the answers in `polls`
end while the loop is still running. -/
def out_write_pace (write_threshold : Int) (buffer_size : Nat) :
    List (Option Nat) → Option (List Event)
  | [] => none
  | none :: _ => some [Event.pcm_get_htimestamp none]
  | some avail :: rest =>
    let kernel_frames : Int := toInt32 (u32 (u32 buffer_size + 2 ^ 32 - u32 avail) : Nat)
    if kernel_frames > write_threshold then
      let time : Nat := u32 (((kernel_frames - write_threshold) * 1000000) /
        (MM_FULL_POWER_SAMPLING_RATE : Nat)).toNat
      let time := if time < MIN_WRITE_SLEEP_US then MIN_WRITE_SLEEP_US else time
      match out_write_pace write_threshold buffer_size rest with
      | none => none
      | some ev => some (Event.pcm_get_htimestamp (some avail) :: Event.usleep time :: ev)
    else some [Event.pcm_get_htimestamp (some avail)]

/-- One pass of `out_write` from the label `do_over` to the label `exit`. -/
def out_write_body (adev : omap3_audio_device) (out : omap3_stream_out) (bytes : Nat)
    (a : OutAttempt) : Option OutResult :=
  let frame_size := out_frame_size
  let in_frames := bytes / frame_size
  let ev_lock := [Event.mutex_lock Mutex.adev, Event.mutex_lock (Mutex.stream_out out.addr)]
  let started : OutResult :=
    if out.standby ≠ 0 then start_output_stream adev out a.open_ready
    else { ret := 0, adev := adev, out := out, events := [] }
  if out.standby ≠ 0 ∧ started.ret ≠ 0 then
    some { started with
      events := ev_lock ++ started.events ++ [Event.mutex_unlock Mutex.adev] }
  else
    let out1 : omap3_stream_out :=
      if out.standby ≠ 0 then { started.out with standby := 0 } else started.out
    let out_frames := in_frames
    match out_write_pace out1.write_threshold a.buffer_size a.polls with
    | none => none
    | some ev_pace =>
      some
        { ret := a.write_ret
          adev := started.adev
          out := out1
          events := ev_lock ++ started.events ++ [Event.mutex_unlock Mutex.adev] ++ ev_pace ++
            [Event.pcm_mmap_write (u32 (out_frames * frame_size)) a.write_ret] }

/-- One pass of `out_write`, from the label `do_over` up to and including the sleep
after a positive status; the test for the underrun status is in `out_write`. -/
def out_write_pass (adev : omap3_audio_device) (out : omap3_stream_out) (bytes : Nat)
    (a : OutAttempt) : Option OutResult :=
  match out_write_body adev out bytes a with
  | none => none
  | some r =>
    let ev_sleep :=
      if r.ret > 0 then
        [Event.usleep (u32 (bytes * 1000000) / out_frame_size / out_get_sample_rate)]
      else []
    some { r with
      events := r.events ++ [Event.mutex_unlock (Mutex.stream_out out.addr)] ++ ev_sleep }

/-- The write operation.  `script` holds what the transport answers in each pass; the
result is `none` when the answers end before the call returns. -/
def out_write (adev : omap3_audio_device) (out : omap3_stream_out) (bytes : Nat) :
    List OutAttempt → Option OutResult
  | [] => none
  | a :: script =>
    match out_write_pass adev out bytes a with
    | none => none
    | some r =>
      if r.ret = -EPIPE then
        let s := do_output_standby r.adev r.out
        let ev_recover :=
          [Event.mutex_lock Mutex.adev, Event.mutex_lock (Mutex.stream_out out.addr)] ++
          s.events ++
          [Event.mutex_unlock (Mutex.stream_out out.addr), Event.mutex_unlock Mutex.adev]
        match out_write s.adev s.out bytes script with
        | none => none
        | some r2 => some { r2 with events := r.events ++ ev_recover ++ r2.events }
      else
        some { r with ret := size_t_to_ssize_t bytes }

/-! ## Input stream -/

/-- Result of an operation on an input stream: the returned value, the device and
stream as the call leaves them, the buffer of the caller and the calls made. -/
structure InResult where
  ret : Int
  adev : omap3_audio_device
  inp : omap3_stream_in
  buffer : List Nat
  events : List Event
  deriving DecidableEq, Repr

/-- Start of an input stream; `open_ready` is what `pcm_is_ready` reports for the
handle `pcm_open` returns. -/
def start_input_stream (adev : omap3_audio_device) (inp : omap3_stream_in)
    (open_ready : Bool) : Int × omap3_audio_device × omap3_stream_in × List Event :=
  let card := CARD_OMAP3_DEFAULT
  let device := PORT_OMAP3
  let adev := { adev with active_input := some inp.addr }
  let p : pcm := { flags := PCM_IN, config := inp.config, ready := open_ready }
  let ev_open := [Event.pcm_open card device PCM_IN inp.config]
  let inp := { inp with pcm := some p }
  if !p.ready then
    (-ENOMEM, { adev with active_input := none }, inp, ev_open ++ [Event.pcm_close inp.pcm])
  else
    (0, adev, inp, ev_open)

def in_get_sample_rate (inp : omap3_stream_in) : Nat := inp.requested_rate

def in_get_channels (inp : omap3_stream_in) : Nat :=
  if inp.config.channels = 1 then AUDIO_CHANNEL_IN_MONO else AUDIO_CHANNEL_IN_STEREO

/-- The frame size of an input stream: `in_get_format` is constant. -/
def in_frame_size (inp : omap3_stream_in) : Nat :=
  audio_stream_frame_size AUDIO_FORMAT_PCM_16_BIT (in_get_channels inp)

def in_get_buffer_size (inp : omap3_stream_in) : Nat :=
  get_input_buffer_size inp.requested_rate AUDIO_FORMAT_PCM_16_BIT inp.config.channels

def do_input_standby (adev : omap3_audio_device) (inp : omap3_stream_in) :
    Int × omap3_audio_device × omap3_stream_in × List Event :=
  if inp.standby = 0 then
    (0, { adev with active_input := none }, { inp with pcm := none, standby := 1 },
      [Event.pcm_close inp.pcm])
  else (0, adev, inp, [])

def in_standby (adev : omap3_audio_device) (inp : omap3_stream_in) :
    Int × omap3_audio_device × omap3_stream_in × List Event :=
  let r := do_input_standby adev inp
  (r.1, r.2.1, r.2.2.1,
    [Event.mutex_lock Mutex.adev, Event.mutex_lock (Mutex.stream_in inp.addr)] ++ r.2.2.2 ++
    [Event.mutex_unlock (Mutex.stream_in inp.addr), Event.mutex_unlock Mutex.adev])

/-- The call `memset(buffer, 0, bytes)` on a buffer that holds `buffer.length` bytes. -/
def memset_zero (buffer : List Nat) (bytes : Nat) : List Nat :=
  List.replicate (min bytes buffer.length) 0 ++ buffer.drop bytes

/-- The bytes `data` stored at the start of `buffer`, at most `bytes` of them. -/
def store_bytes (buffer : List Nat) (data : List Nat) (bytes : Nat) : List Nat :=
  let d := data.take (min bytes buffer.length)
  d ++ buffer.drop d.length

/-- What the transport answers during one `in_read`: whether the handle of `pcm_open`
is ready (asked only when the stream is in standby), the status of `pcm_read` and the
bytes `pcm_read` has put into the buffer when it returns. -/
structure InAttempt where
  open_ready : Bool
  read_ret : Int
  data : List Nat
  deriving DecidableEq, Repr

/-- The read operation.  The result is `none` when the sleep of the failure path
divides by a frame size or a sample rate that is zero. -/
def in_read (adev : omap3_audio_device) (inp : omap3_stream_in) (buffer : List Nat)
    (bytes : Nat) (a : InAttempt) : Option InResult :=
  let ev_lock := [Event.mutex_lock Mutex.adev, Event.mutex_lock (Mutex.stream_in inp.addr)]
  let started : Int × omap3_audio_device × omap3_stream_in × List Event :=
    if inp.standby ≠ 0 then
      let r := start_input_stream adev inp a.open_ready
      if r.1 = 0 then (r.1, r.2.1, { r.2.2.1 with standby := 0 }, r.2.2.2) else r
    else (0, adev, inp, [])
  let ret := started.1
  let adev1 := started.2.1
  let in1 := started.2.2.1
  let ev1 := ev_lock ++ started.2.2.2 ++ [Event.mutex_unlock Mutex.adev]
  let body : Int × List Nat × List Event :=
    if ret < 0 then (ret, buffer, ev1)
    else
      let ret := a.read_ret
      let buffer := store_bytes buffer a.data bytes
      let buffer := if ret = 0 ∧ adev1.mic_mute = true then memset_zero buffer bytes else buffer
      (ret, buffer, ev1 ++ [Event.pcm_read bytes ret])
  let ret := body.1
  let buffer := body.2.1
  let ev2 := body.2.2
  let at_exit : Option (List Nat × List Event) :=
    if ret < 0 then
      if in_frame_size in1 = 0 ∨ in_get_sample_rate in1 = 0 then none
      else
        some (memset_zero buffer bytes,
          ev2 ++
            [Event.usleep (u32 (bytes * 1000000) / in_frame_size in1 / in_get_sample_rate in1)])
    else some (buffer, ev2)
  match at_exit with
  | none => none
  | some x =>
    some
      { ret := size_t_to_ssize_t bytes
        adev := adev1
        inp := in1
        buffer := x.1
        events := x.2 ++ [Event.mutex_unlock (Mutex.stream_in inp.addr)] }

/-! ## Stream factories -/

/-- Result of `adev_open_output_stream`: the status, the stream stored through
`stream_out` and the values stored through `format`, `channels` and `sample_rate`
(`none` where the call stores nothing), and the calls made. -/
structure OpenOutputResult where
  ret : Int
  stream_out : Option omap3_stream_out
  format : Option Int
  channels : Option Nat
  sample_rate : Option Nat
  events : List Event
  deriving DecidableEq, Repr

/-- The factory of output streams; `calloc_res` is what `calloc` returns (`none` for
null, otherwise the address of the zeroed object). -/
def adev_open_output_stream (devices : Nat) (calloc_res : Option Nat) : OpenOutputResult :=
  match calloc_res with
  | none =>
    { ret := -ENOMEM, stream_out := none, format := none, channels := none,
      sample_rate := none, events := [Event.calloc none] }
  | some addr =>
    let out : omap3_stream_out :=
      { addr := addr
        config := pcm_config_mm
        pcm := none
        buffer := none
        standby := 1
        write_threshold := 0 }
    { ret := 0
      stream_out := some out
      format := some AUDIO_FORMAT_PCM_16_BIT
      channels := some AUDIO_CHANNEL_OUT_STEREO
      sample_rate := some out_get_sample_rate
      events := [Event.calloc (some addr)] }

/-- Result of `adev_open_input_stream`: the status, the stream stored through
`stream_in`, the value stored through `channel_mask`, and the calls made. -/
structure OpenInputResult where
  ret : Int
  stream_in : Option omap3_stream_in
  channel_mask : Nat
  events : List Event
  deriving DecidableEq, Repr

/-- The factory of input streams; `channel_mask` is the mask the caller requests,
`calloc_res` and `malloc_res` are what the two allocations return (`none` for null). -/
def adev_open_input_stream (devices : Nat) (format : Int) (channel_mask : Nat)
    (sample_rate : Nat) (calloc_res malloc_res : Option Nat) : OpenInputResult :=
  let channel_count : Int := 2
  let channel_mask : Nat := 0x3
  if check_input_parameters sample_rate format channel_count ≠ 0 then
    { ret := -EINVAL, stream_in := none, channel_mask := channel_mask, events := [] }
  else
    match calloc_res with
    | none =>
      { ret := -ENOMEM, stream_in := none, channel_mask := channel_mask,
        events := [Event.calloc none] }
    | some addr =>
      let inp : omap3_stream_in :=
        { addr := addr
          config := pcm_config_mm_ul
          pcm := none
          device := 0
          buffer := none
          frames_in := 0
          requested_rate := sample_rate
          standby := 0
          source := 0 }
      let size := u32 (u32 (2 * inp.config.period_size) * in_frame_size inp)
      let inp := { inp with buffer := malloc_res }
      match malloc_res with
      | none =>
        { ret := -ENOMEM, stream_in := none, channel_mask := channel_mask,
          events := [Event.calloc (some addr), Event.malloc size none, Event.free addr] }
      | some _ =>
        let inp := { inp with standby := 1, device := devices }
        { ret := 0, stream_in := some inp, channel_mask := channel_mask,
          events := [Event.calloc (some addr), Event.malloc size malloc_res] }

/-! ## Vocabulary of the statements -/

/-- The sample rates `check_input_parameters` accepts. -/
def supported_rates : List Nat := [8000, 11025, 16000, 22050, 24000, 32000, 44100, 48000]

/-- The two ways a capture fails in `in_read`: the transport cannot be opened from
standby, or it is open (or opens) and `pcm_read` returns a negative status. -/
def in_read_fails (inp : omap3_stream_in) (a : InAttempt) : Prop :=
  (inp.standby ≠ 0 ∧ a.open_ready = false) ∨
    ((inp.standby = 0 ∨ a.open_ready = true) ∧ a.read_ret < 0)

/-- The event is a call of `pcm_open`. -/
def Event.is_pcm_open : Event → Bool
  | Event.pcm_open _ _ _ _ => true
  | _ => false

/-- The event is a call of `pcm_close`. -/
def Event.is_pcm_close : Event → Bool
  | Event.pcm_close _ => true
  | _ => false

/-- The event is a call of `pcm_mmap_write` that reports the underrun status. -/
def Event.is_underrun : Event → Bool
  | Event.pcm_mmap_write _ ret => decide (ret = -EPIPE)
  | _ => false

/-- Number of `pcm_open` calls in a sequence of events. -/
def opens (ev : List Event) : Nat := ev.countP Event.is_pcm_open

/-- Number of transfers that report the underrun status in a sequence of events. -/
def underruns (ev : List Event) : Nat := ev.countP Event.is_underrun

/-- Number of `pcm_open` calls made after the first transfer that reports the underrun
status. -/
def reopens_after_underrun (ev : List Event) : Nat :=
  opens (ev.dropWhile (fun e => !e.is_underrun))

/-- The write threshold in force during a pass of `out_write` that starts from the
stream state `out`. -/
def pass_threshold (out : omap3_stream_out) : Int :=
  if out.standby ≠ 0 then (PLAYBACK_PERIOD_COUNT * LONG_PERIOD_SIZE : Nat)
  else out.write_threshold

/-- The answers of the attempt end the pacing loop, both for the threshold of a pass
that starts from the stream state `out` and for the threshold a restart sets. -/
def paces (out : omap3_stream_out) (a : OutAttempt) : Prop :=
  (out_write_pace (pass_threshold out) a.buffer_size a.polls).isSome = true ∧
  (out_write_pace (PLAYBACK_PERIOD_COUNT * LONG_PERIOD_SIZE : Nat) a.buffer_size
    a.polls).isSome = true

instance (out : omap3_stream_out) (a : OutAttempt) : Decidable (paces out a) := by
  unfold paces
  infer_instance

instance (inp : omap3_stream_in) (a : InAttempt) : Decidable (in_read_fails inp a) := by
  unfold in_read_fails
  infer_instance

/-! ## Concrete values used to instantiate the statements -/

/-- A control surface that has the four controls of the speaker route. -/
def sample_mixer : mixer :=
  [ ⟨MIXER_HEADSETR_AUDIO_R2, 1⟩, ⟨MIXER_HEADSETL_AUDIO_L2, 1⟩,
    ⟨MIXER_HEADSET_PLAYBACK_VOLUME, 2⟩, ⟨MIXER_ANALOG_LEFT_AUXL_CAPTURE_SWITCH, 1⟩ ]

/-- The device as `adev_open` leaves it: speaker and built-in microphone selected, no
active stream. -/
def sample_adev : omap3_audio_device :=
  { mixer := sample_mixer
    mode := 0
    devices := AUDIO_DEVICE_OUT_SPEAKER ||| AUDIO_DEVICE_IN_BUILTIN_MIC
    active_input := none
    active_output := none
    mic_mute := false }

/-- The output stream `adev_open_output_stream` creates at address 4096. -/
def sample_out : omap3_stream_out :=
  { addr := 4096
    config := pcm_config_mm
    pcm := none
    buffer := none
    standby := 1
    write_threshold := 0 }

/-- The stream `sample_out` after a write that opened the transport. -/
def sample_out_active : omap3_stream_out :=
  { addr := 4096
    config := { pcm_config_mm with start_threshold := 3840, avail_min := 1920 }
    pcm := some
      { flags := PCM_OUT ||| PCM_MMAP
        config := { pcm_config_mm with start_threshold := 3840, avail_min := 1920 }
        ready := true }
    buffer := none
    standby := 0
    write_threshold := 7680 }

/-- The device `sample_adev` while `sample_out_active` is its active output. -/
def sample_adev_active : omap3_audio_device :=
  { sample_adev with active_output := some 4096 }

/-- The input stream `adev_open_input_stream` creates at address 8192 for 8000 Hz. -/
def sample_in : omap3_stream_in :=
  { addr := 8192
    config := pcm_config_mm_ul
    pcm := none
    device := AUDIO_DEVICE_IN_BUILTIN_MIC
    buffer := some 12288
    frames_in := 0
    requested_rate := 8000
    standby := 1
    source := 0 }

/-- The transport opens, reports an empty kernel buffer and the transfer underruns. -/
def attempt_underrun : OutAttempt :=
  { open_ready := true, buffer_size := 7680, polls := [some 7680], write_ret := -EPIPE }

/-- The transport opens; the first poll finds 9600 frames queued, which is above the
threshold, the second finds 5600; the transfer succeeds. -/
def attempt_ok : OutAttempt :=
  { open_ready := true, buffer_size := 9600, polls := [some 0, some 4000], write_ret := 0 }

/-- The transport opens and the transfer fails with `-EINVAL`. -/
def attempt_error : OutAttempt :=
  { open_ready := true, buffer_size := 7680, polls := [none], write_ret := -EINVAL }

/-- The transport does not open. -/
def attempt_no_open : OutAttempt :=
  { open_ready := false, buffer_size := 0, polls := [], write_ret := 0 }

/-! ## Vocabulary of the router statements -/

/-- The writes one entry of a route preset asks for, in the words of the specification:
a string-valued entry sets its symbolic value when enabling and the value "Off"
otherwise; a numeric entry sets the same number on every sub-channel of the control,
its `intval` when enabling and zero otherwise.  An entry whose control is missing
asks for no write. -/
def entry_writes (m : mixer) (enable : Bool) (r : route_setting) : List Event :=
  match mixer_get_ctl_by_name m r.ctl_name with
  | none => []
  | some ctl =>
    match r.strval with
    | some s => [Event.mixer_ctl_set_enum_by_string r.ctl_name (if enable then s else "Off")]
    | none =>
      (List.range ctl.num_values).map
        (fun j => Event.mixer_ctl_set_value r.ctl_name j (if enable then r.intval else 0))

/-- The writes a whole route preset asks for, entry after entry. -/
def route_writes (m : mixer) (route : List route_setting) (enable : Bool) : List Event :=
  route.flatMap (entry_writes m enable)

/-- A mixer that has the controls of the speaker route and a string-valued one. -/
def sample_mixer_enum : mixer :=
  sample_mixer ++ [⟨"Sidetone Mode", 1⟩]

/-- A route preset with a two-channel numeric entry of value 5 and a string-valued
entry. -/
def sample_route : List route_setting :=
  [ ⟨MIXER_HEADSET_PLAYBACK_VOLUME, 5, none⟩, ⟨"Sidetone Mode", 0, some "Loopback"⟩ ]

/-- A route preset whose second entry names a control no mixer here has. -/
def sample_route_missing : List route_setting :=
  [ ⟨MIXER_HEADSET_PLAYBACK_VOLUME, 5, none⟩, ⟨"No Such Control", 1, none⟩,
    ⟨MIXER_HEADSETR_AUDIO_R2, 1, none⟩ ]

/-- The sleep `out_write` makes after a positive transfer status, as the source
computes it in 32-bit `size_t` arithmetic. -/
def out_write_sleep (bytes : Nat) : Nat :=
  u32 (bytes * 1000000) / out_frame_size / out_get_sample_rate

/-- The events of a pass of `out_write` from the transfer on: the transfer, the release
of the stream lock, and the sleep after a positive status. -/
def out_write_tail (out : omap3_stream_out) (bytes : Nat) (ret : Int) : List Event :=
  [Event.pcm_mmap_write (u32 (bytes / out_frame_size * out_frame_size)) ret,
   Event.mutex_unlock (Mutex.stream_out out.addr)] ++
  (if ret > 0 then [Event.usleep (out_write_sleep bytes)] else [])

/-! ## Vocabulary of the pacing statements -/

/-- The frames queued in the kernel buffer as the pacing loop computes them: the
unsigned difference of the buffer size and the polled count, read as an `int`. -/
def kernel_frames (buffer_size avail : Nat) : Int :=
  toInt32 (u32 (u32 buffer_size + 2 ^ 32 - u32 avail) : Nat)

/-- The sleep after a transfer in the words of the specification:
`byte_count * 1000000 / frame_byte_size / output_sample_rate`, in exact integers. -/
def out_write_sleep_spec (bytes : Nat) : Nat :=
  bytes * 1000000 / out_frame_size / out_get_sample_rate

/-- The transport opens, paces at once and reports 1920 frames written. -/
def attempt_written : OutAttempt :=
  { open_ready := true, buffer_size := 7680, polls := [some 7680], write_ret := 1920 }

/-! ## Device open, stream close and the device with its streams -/

/-- Value of `AUDIO_MODE_NORMAL` in `system/audio.h`. -/
def AUDIO_MODE_NORMAL : Int := 0

/-- The device factory.  `name_matches` is the outcome of the comparison of the
requested name with `AUDIO_HARDWARE_INTERFACE`, `calloc_res` what `calloc` returns and
`mixer_res` what `mixer_open` returns (`none` for null). -/
def adev_open (name_matches : Bool) (calloc_res : Option Nat) (mixer_res : Option mixer) :
    Int × Option omap3_audio_device × List Event :=
  if !name_matches then (-EINVAL, none, [])
  else
    match calloc_res with
    | none => (-ENOMEM, none, [Event.calloc none])
    | some addr =>
      match mixer_res with
      | none => (-EINVAL, none, [Event.calloc (some addr), Event.free addr])
      | some m =>
        let adev : omap3_audio_device :=
          { mixer := m
            mode := AUDIO_MODE_NORMAL
            devices := AUDIO_DEVICE_OUT_SPEAKER ||| AUDIO_DEVICE_IN_BUILTIN_MIC
            active_input := none
            active_output := none
            mic_mute := false }
        (0, some adev,
          [Event.calloc (some addr), Event.mutex_lock Mutex.adev] ++
          (set_route_by_array m defaults 1).2 ++ select_output_device adev ++
          [Event.mutex_unlock Mutex.adev])

def adev_close_output_stream (adev : omap3_audio_device) (out : omap3_stream_out) :
    omap3_audio_device × List Event :=
  let r := out_standby adev out
  (r.adev,
    r.events ++
    (match out.buffer with
      | some b => [Event.free b]
      | none => []) ++
    [Event.free out.addr])

def adev_close_input_stream (adev : omap3_audio_device) (inp : omap3_stream_in) :
    omap3_audio_device × List Event :=
  let r := in_standby adev inp
  (r.2.1, r.2.2.2 ++ [Event.free inp.addr])

/-- The device together with the streams that exist, each under its address. -/
structure World where
  adev : omap3_audio_device
  outs : Nat → Option omap3_stream_out
  ins : Nat → Option omap3_stream_in

/-- The store `h` with the entry at `k` replaced by `v`. -/
def store_at {α : Type} (h : Nat → Option α) (k : Nat) (v : Option α) : Nat → Option α :=
  fun a => if a = k then v else h a

/-- The device `adev_open` returns on a control surface `m`, with no stream yet. -/
def fresh_world (m : mixer) : World :=
  { adev :=
      { mixer := m
        mode := AUDIO_MODE_NORMAL
        devices := AUDIO_DEVICE_OUT_SPEAKER ||| AUDIO_DEVICE_IN_BUILTIN_MIC
        active_input := none
        active_output := none
        mic_mute := false }
    outs := fun _ => none
    ins := fun _ => none }

/-- The calls of the host framework on the device and its streams; a stream is named
by its address. -/
inductive Call where
  | open_output_stream (devices : Nat) (calloc_res : Option Nat)
  | open_input_stream (devices : Nat) (format : Int) (channel_mask sample_rate : Nat)
      (calloc_res malloc_res : Option Nat)
  | out_write (stream : Nat) (bytes : Nat) (script : List OutAttempt)
  | in_read (stream : Nat) (buffer : List Nat) (bytes : Nat) (a : InAttempt)
  | out_standby (stream : Nat)
  | in_standby (stream : Nat)
  | close_output_stream (stream : Nat)
  | close_input_stream (stream : Nat)

/-- The state after a call that returns.  The result is `none` when the call does not
return within its script, when it divides by zero, when it names a stream that does not
exist, or when an allocation is said to return an address that is in use. -/
def step (w : World) : Call → Option World
  | Call.open_output_stream devices calloc_res =>
    match (adev_open_output_stream devices calloc_res).stream_out with
    | none => some w
    | some s =>
      if (w.outs s.addr).isNone ∧ (w.ins s.addr).isNone then
        some { w with outs := store_at w.outs s.addr (some s) }
      else none
  | Call.open_input_stream devices format channel_mask sample_rate calloc_res malloc_res =>
    match (adev_open_input_stream devices format channel_mask sample_rate
        calloc_res malloc_res).stream_in with
    | none => some w
    | some s =>
      if (w.outs s.addr).isNone ∧ (w.ins s.addr).isNone then
        some { w with ins := store_at w.ins s.addr (some s) }
      else none
  | Call.out_write stream bytes script =>
    match w.outs stream with
    | none => none
    | some out =>
      match out_write w.adev out bytes script with
      | none => none
      | some r => some { w with adev := r.adev, outs := store_at w.outs stream (some r.out) }
  | Call.in_read stream buffer bytes a =>
    match w.ins stream with
    | none => none
    | some inp =>
      match in_read w.adev inp buffer bytes a with
      | none => none
      | some r => some { w with adev := r.adev, ins := store_at w.ins stream (some r.inp) }
  | Call.out_standby stream =>
    match w.outs stream with
    | none => none
    | some out =>
      let r := out_standby w.adev out
      some { w with adev := r.adev, outs := store_at w.outs stream (some r.out) }
  | Call.in_standby stream =>
    match w.ins stream with
    | none => none
    | some inp =>
      let r := in_standby w.adev inp
      some { w with adev := r.2.1, ins := store_at w.ins stream (some r.2.2.1) }
  | Call.close_output_stream stream =>
    match w.outs stream with
    | none => none
    | some out =>
      some { w with adev := (adev_close_output_stream w.adev out).1,
                    outs := store_at w.outs stream none }
  | Call.close_input_stream stream =>
    match w.ins stream with
    | none => none
    | some inp =>
      some { w with adev := (adev_close_input_stream w.adev inp).1,
                    ins := store_at w.ins stream none }

/-- The state after a sequence of calls, each of which returns. -/
def run (w : World) : List Call → Option World
  | [] => some w
  | c :: cs =>
    match step w c with
    | none => none
    | some w1 => run w1 cs

/-- The active-output and active-input references of the device each name a stream
that exists and is active, and every stream is stored under its own address. -/
def references_active (w : World) : Prop :=
  (∀ a, w.adev.active_output = some a → ∃ s, w.outs a = some s ∧ s.standby = 0) ∧
  (∀ a, w.adev.active_input = some a → ∃ s, w.ins a = some s ∧ s.standby = 0) ∧
  (∀ a s, w.outs a = some s → s.addr = a) ∧
  (∀ a s, w.ins a = some s → s.addr = a)

/-- An attempt of `in_read` whose transport opens and delivers four bytes. -/
def read_ok : InAttempt :=
  { open_ready := true, read_ret := 0, data := [1, 2, 3, 4] }

/-- Two output streams are opened and each is written to once. -/
def calls_two_outputs : List Call :=
  [ Call.open_output_stream AUDIO_DEVICE_OUT_SPEAKER (some 4096),
    Call.open_output_stream AUDIO_DEVICE_OUT_SPEAKER (some 8192),
    Call.out_write 4096 4096 [attempt_ok],
    Call.out_write 8192 4096 [attempt_ok] ]

/-- Two input streams are opened and each is read from once. -/
def calls_two_inputs : List Call :=
  [ Call.open_input_stream AUDIO_DEVICE_IN_BUILTIN_MIC AUDIO_FORMAT_PCM_16_BIT
      AUDIO_CHANNEL_IN_STEREO 8000 (some 12288) (some 20480),
    Call.open_input_stream AUDIO_DEVICE_IN_BUILTIN_MIC AUDIO_FORMAT_PCM_16_BIT
      AUDIO_CHANNEL_IN_STEREO 8000 (some 16384) (some 28672),
    Call.in_read 12288 [0, 0, 0, 0] 4 read_ok,
    Call.in_read 16384 [0, 0, 0, 0] 4 read_ok ]

/-- An output stream is opened and its first write finds a transport that does not
open. -/
def calls_failed_open : List Call :=
  [ Call.open_output_stream AUDIO_DEVICE_OUT_SPEAKER (some 4096),
    Call.out_write 4096 4096 [attempt_no_open] ]

/-! ## Vocabulary of the locking statements -/

/-- The device, the stream and the events after the start of the stream in `in_read`,
when the stream is active already or its transport opens. -/
def in_read_started (adev : omap3_audio_device) (inp : omap3_stream_in) :
    omap3_audio_device × omap3_stream_in × List Event :=
  if inp.standby ≠ 0 then
    ({ adev with active_input := some inp.addr },
      { inp with pcm := some ⟨PCM_IN, inp.config, true⟩, standby := 0 },
      [Event.pcm_open CARD_OMAP3_DEFAULT PORT_OMAP3 PCM_IN inp.config])
  else (adev, inp, [])

/-! ## Vocabulary of the stream states -/

/-- The transport of the output stream is open: the stream holds a handle and
`pcm_is_ready` holds for it. -/
def out_transport_open (s : omap3_stream_out) : Bool :=
  match s.pcm with
  | some p => p.ready
  | none => false

/-- The transport of the input stream is open: the stream holds a handle and
`pcm_is_ready` holds for it. -/
def in_transport_open (s : omap3_stream_in) : Bool :=
  match s.pcm with
  | some p => p.ready
  | none => false

/-- Every stream of the device is active exactly when its transport is open. -/
def active_iff_open (w : World) : Prop :=
  (∀ a s, w.outs a = some s → (s.standby = 0 ↔ out_transport_open s = true)) ∧
  (∀ a s, w.ins a = some s → (s.standby = 0 ↔ in_transport_open s = true))

/-! # Theorems -/

/-! ## Conversion of the byte count to the return type -/

/-- The conversion to `ssize_t` keeps a byte count below 2^31. -/
theorem size_t_to_ssize_t_small (n : Nat) (h : n < 2 ^ 31) :
    size_t_to_ssize_t n = (n : Int) := by
  unfold size_t_to_ssize_t toInt32
  have h1 : ((n : Int)) % 2 ^ 32 = (n : Int) := by omega
  simp only [h1]
  rw [if_pos (by omega)]

/-- The conversion to `ssize_t` of a `size_t` byte count from 2^31 on is negative: the
count less 2^32. -/
theorem size_t_to_ssize_t_large (n : Nat) (h1 : 2 ^ 31 ≤ n) (h2 : n < 2 ^ 32) :
    size_t_to_ssize_t n = (n : Int) - 2 ^ 32 := by
  unfold size_t_to_ssize_t toInt32
  have h3 : ((n : Int)) % 2 ^ 32 = (n : Int) := by omega
  simp only [h3]
  rw [if_neg (by omega)]

/-! ## Buffer sizes -/

theorem ceil16_least (n : Nat) :
    16 ∣ (n + 15) / 16 * 16 ∧ n ≤ (n + 15) / 16 * 16 ∧
      ∀ G, 16 ∣ G → n ≤ G → (n + 15) / 16 * 16 ≤ G := by
  refine ⟨by omega, by omega, ?_⟩
  intro G hG hn
  omega

theorem out_frame_size_eq : out_frame_size = 4 := by
  decide

theorem out_get_buffer_size_eq (out : omap3_stream_out) :
    out_get_buffer_size out = (84672000 / out.config.rate + 15) / 16 * 16 * 4 := by
  have hq : 84672000 / out.config.rate ≤ 84672000 := Nat.div_le_self _ _
  simp only [out_get_buffer_size, out_frame_size_eq, u32, SHORT_PERIOD_SIZE,
    ABE_BASE_FRAME_COUNT, SHORT_PERIOD_MULTIPLIER, DEFAULT_OUT_SAMPLING_RATE]
  norm_num
  omega

theorem get_input_buffer_size_eq (r : Nat) (cc : Int) (hr : r ∈ supported_rates)
    (hc : cc = 1 ∨ cc = 2) :
    get_input_buffer_size r AUDIO_FORMAT_PCM_16_BIT cc =
      (1024 * r / 8000 + 15) / 16 * 16 * cc.toNat * 2 := by
  simp only [supported_rates, List.mem_cons, List.mem_singleton, List.not_mem_nil,
    or_false] at hr
  rcases hc with rfl | rfl <;>
    rcases hr with rfl | rfl | rfl | rfl | rfl | rfl | rfl | rfl <;> decide

theorem get_input_buffer_size_pos (r : Nat) (cc : Int) (hr : r ∈ supported_rates)
    (hc : cc = 1 ∨ cc = 2) : 0 < get_input_buffer_size r AUDIO_FORMAT_PCM_16_BIT cc := by
  have hpos : 0 < (1024 * r / 8000 + 15) / 16 * 16 := by
    have : 8000 ≤ r := by
      simp only [supported_rates, List.mem_cons, List.mem_singleton, List.not_mem_nil,
        or_false] at hr
      omega
    omega
  rw [get_input_buffer_size_eq r cc hr hc]
  rcases hc with rfl | rfl
  · show 0 < (1024 * r / 8000 + 15) / 16 * 16 * 1 * 2
    omega
  · show 0 < (1024 * r / 8000 + 15) / 16 * 16 * 2 * 2
    omega

/-- C4, as the code has it: an output stream opened through `adev_open_output_stream`
(rate 44100, two channels, 16-bit samples, frame size 4 bytes) reports a buffer size
of 7680 bytes, which is `ceil16 (1920 * 44100 / 44100) * 4` with a short period of
1920 frames. -/
theorem out_get_buffer_size_opened (devices addr : Nat) :
    SHORT_PERIOD_SIZE = 1920 ∧
    (adev_open_output_stream devices (some addr)).ret = 0 ∧
    Option.map (fun o => (o.config.rate, o.config.channels, out_frame_size))
      (adev_open_output_stream devices (some addr)).stream_out = some (44100, 2, 4) ∧
    Option.map out_get_buffer_size (adev_open_output_stream devices (some addr)).stream_out =
      some ((1920 * 44100 / 44100 + 15) / 16 * 16 * 4) ∧
    (1920 * 44100 / 44100 + 15) / 16 * 16 * 4 = 7680 := by
  refine ⟨by decide, rfl, ?_, ?_, by norm_num⟩
  · simp only [adev_open_output_stream, Option.map_some', out_frame_size_eq]
    rfl
  · simp only [adev_open_output_stream, Option.map_some', out_get_buffer_size_eq]
    rfl

/-- C4, counterexample: the stream opened with device mask 2 at address 4096 does not
report 12800 bytes; it reports 7680. -/
theorem out_get_buffer_size_opened_not_12800 :
    Option.map out_get_buffer_size (adev_open_output_stream 2 (some 4096)).stream_out ≠
      some 12800 ∧
    Option.map out_get_buffer_size (adev_open_output_stream 2 (some 4096)).stream_out =
      some 7680 := by
  decide

/-- C5: for an output stream with a positive configured rate `r`, `out_get_buffer_size`
returns `F * frame_size` where `F` is the least multiple of 16 that is at least
`SHORT_PERIOD_SIZE * 44100 / r`; the result is a multiple of `16 * frame_size` and at
least `SHORT_PERIOD_SIZE * 44100 / r * frame_size`. -/
theorem out_get_buffer_size_least_multiple (out : omap3_stream_out)
    (hr : 0 < out.config.rate) :
    (∃ F, out_get_buffer_size out = F * out_frame_size ∧ 16 ∣ F ∧
      SHORT_PERIOD_SIZE * 44100 / out.config.rate ≤ F ∧
      ∀ G, 16 ∣ G → SHORT_PERIOD_SIZE * 44100 / out.config.rate ≤ G → F ≤ G) ∧
    16 * out_frame_size ∣ out_get_buffer_size out ∧
    SHORT_PERIOD_SIZE * 44100 / out.config.rate * out_frame_size ≤
      out_get_buffer_size out := by
  have hs : SHORT_PERIOD_SIZE * 44100 = 84672000 := by decide
  obtain ⟨h1, h2, h3⟩ := ceil16_least (84672000 / out.config.rate)
  rw [out_get_buffer_size_eq, out_frame_size_eq, hs]
  refine ⟨⟨_, rfl, h1, h2, h3⟩, ?_, ?_⟩
  · exact Nat.mul_dvd_mul h1 (dvd_refl 4)
  · exact Nat.mul_le_mul_right 4 h2

/-- C5, witness: a stream configured at 48000 Hz. -/
theorem out_get_buffer_size_least_multiple_witness :
    (∃ F, out_get_buffer_size ⟨0, { pcm_config_mm with rate := 48000 }, none, none, 1, 0⟩ =
        F * out_frame_size ∧ 16 ∣ F ∧ SHORT_PERIOD_SIZE * 44100 / 48000 ≤ F ∧
      ∀ G, 16 ∣ G → SHORT_PERIOD_SIZE * 44100 / 48000 ≤ G → F ≤ G) ∧
    16 * out_frame_size ∣
      out_get_buffer_size ⟨0, { pcm_config_mm with rate := 48000 }, none, none, 1, 0⟩ ∧
    SHORT_PERIOD_SIZE * 44100 / 48000 * out_frame_size ≤
      out_get_buffer_size ⟨0, { pcm_config_mm with rate := 48000 }, none, none, 1, 0⟩ :=
  out_get_buffer_size_least_multiple
    ⟨0, { pcm_config_mm with rate := 48000 }, none, none, 1, 0⟩ (by decide)

/-- C6: for every supported rate `r` and channel count 1 or 2, the input buffer size
for 16-bit samples is a positive multiple of `16 * channel_count * 2` bytes, and its
frame count is the least multiple of 16 that is at least `1024 * r / 8000`. -/
theorem get_input_buffer_size_supported (r : Nat) (cc : Int) (hr : r ∈ supported_rates)
    (hc : cc = 1 ∨ cc = 2) :
    0 < get_input_buffer_size r AUDIO_FORMAT_PCM_16_BIT cc ∧
    16 * cc.toNat * 2 ∣ get_input_buffer_size r AUDIO_FORMAT_PCM_16_BIT cc ∧
    ∃ F, get_input_buffer_size r AUDIO_FORMAT_PCM_16_BIT cc = F * cc.toNat * 2 ∧
      16 ∣ F ∧ pcm_config_mm_ul.period_size * r / pcm_config_mm_ul.rate ≤ F ∧
      ∀ G, 16 ∣ G → pcm_config_mm_ul.period_size * r / pcm_config_mm_ul.rate ≤ G → F ≤ G := by
  have hp : pcm_config_mm_ul.period_size * r / pcm_config_mm_ul.rate = 1024 * r / 8000 := rfl
  obtain ⟨h1, h2, h3⟩ := ceil16_least (1024 * r / 8000)
  refine ⟨get_input_buffer_size_pos r cc hr hc, ?_, ?_⟩
  · rw [get_input_buffer_size_eq r cc hr hc]
    exact Nat.mul_dvd_mul (Nat.mul_dvd_mul h1 (dvd_refl _)) (dvd_refl 2)
  · rw [get_input_buffer_size_eq r cc hr hc, hp]
    exact ⟨_, rfl, h1, h2, h3⟩

/-- C6, witness: 44100 Hz, mono. -/
theorem get_input_buffer_size_supported_witness :
    0 < get_input_buffer_size 44100 AUDIO_FORMAT_PCM_16_BIT 1 ∧
    16 * (1 : Int).toNat * 2 ∣ get_input_buffer_size 44100 AUDIO_FORMAT_PCM_16_BIT 1 ∧
    ∃ F, get_input_buffer_size 44100 AUDIO_FORMAT_PCM_16_BIT 1 = F * (1 : Int).toNat * 2 ∧
      16 ∣ F ∧ pcm_config_mm_ul.period_size * 44100 / pcm_config_mm_ul.rate ≤ F ∧
      ∀ G, 16 ∣ G → pcm_config_mm_ul.period_size * 44100 / pcm_config_mm_ul.rate ≤ G →
        F ≤ G :=
  get_input_buffer_size_supported 44100 1 (by decide) (by decide)

/-- C7: `adev_get_input_buffer_size` returns 0 exactly when the rate is not a supported
one, or the format is not 16-bit PCM, or the channel count is outside 1 and 2. -/
theorem adev_get_input_buffer_size_zero_iff (sample_rate : Nat) (format channel_count : Int) :
    adev_get_input_buffer_size sample_rate format channel_count = 0 ↔
      (sample_rate ∉ supported_rates ∨ format ≠ AUDIO_FORMAT_PCM_16_BIT ∨
        channel_count < 1 ∨ channel_count > 2) := by
  constructor
  · intro h
    by_contra hne
    simp only [not_or, not_not, not_lt, gt_iff_lt] at hne
    obtain ⟨hr, hf, hc1, hc2⟩ := hne
    have hc : channel_count = 1 ∨ channel_count = 2 := by omega
    have hpos := get_input_buffer_size_pos sample_rate channel_count hr hc
    have hchk : check_input_parameters sample_rate format channel_count = 0 := by
      simp only [supported_rates, List.mem_cons, List.mem_singleton, List.not_mem_nil,
        or_false] at hr
      rcases hc with rfl | rfl <;> simp [check_input_parameters, hf, hr]
    rw [adev_get_input_buffer_size, hchk, hf] at h
    simp at h
    omega
  · intro h
    have hchk : check_input_parameters sample_rate format channel_count ≠ 0 := by
      simp only [supported_rates, List.mem_cons, List.mem_singleton, List.not_mem_nil,
        or_false] at h
      unfold check_input_parameters
      rcases h with h | h | h | h
      · split_ifs <;> simp_all [EINVAL]
      · simp [h, EINVAL]
      · split_ifs <;> simp_all [EINVAL]
      · split_ifs <;> simp_all [EINVAL]
    simp [adev_get_input_buffer_size, hchk]

/-! ## Input stream factory -/

theorem check_input_parameters_stereo (sample_rate : Nat) (format : Int) :
    check_input_parameters sample_rate format 2 = 0 ∨
      check_input_parameters sample_rate format 2 = -EINVAL := by
  unfold check_input_parameters
  split_ifs <;> simp

theorem check_input_parameters_stereo_iff (sample_rate : Nat) (format : Int) :
    check_input_parameters sample_rate format 2 ≠ 0 ↔
      (format ≠ AUDIO_FORMAT_PCM_16_BIT ∨ sample_rate ∉ supported_rates) := by
  simp only [supported_rates, List.mem_cons, List.mem_singleton, List.not_mem_nil, or_false]
  unfold check_input_parameters
  split_ifs <;> simp_all [EINVAL]

/-- C8, as the code has it: `adev_open_input_stream` fails with `-EINVAL`, stores no
stream and makes no allocation call whenever the format is not 16-bit PCM or the rate
is not a supported one, and it does not return `-EINVAL` otherwise; the requested
channel mask plays no part in the validation (the channel count checked is the
constant 2). -/
theorem adev_open_input_stream_einval (devices : Nat) (format : Int) (channel_mask : Nat)
    (sample_rate : Nat) (calloc_res malloc_res : Option Nat) :
    if format ≠ AUDIO_FORMAT_PCM_16_BIT ∨ sample_rate ∉ supported_rates then
      (adev_open_input_stream devices format channel_mask sample_rate
          calloc_res malloc_res).ret = -EINVAL ∧
      (adev_open_input_stream devices format channel_mask sample_rate
          calloc_res malloc_res).stream_in = none ∧
      (adev_open_input_stream devices format channel_mask sample_rate
          calloc_res malloc_res).events = []
    else
      (adev_open_input_stream devices format channel_mask sample_rate
          calloc_res malloc_res).ret ≠ -EINVAL := by
  have hiff := check_input_parameters_stereo_iff sample_rate format
  split_ifs with h
  · have hc := hiff.mpr h
    simp [adev_open_input_stream, hc]
  · have hc : check_input_parameters sample_rate format 2 = 0 := by
      by_contra hne
      exact h (hiff.mp hne)
    cases calloc_res <;> cases malloc_res <;>
      simp [adev_open_input_stream, hc, EINVAL, ENOMEM]

/-- C8, counterexample: a request for three channels (mask 7) at 8000 Hz, 16-bit, is not
refused: the call returns 0 and stores a stream. -/
theorem adev_open_input_stream_three_channels :
    (popcount 7 < 1 ∨ 2 < popcount 7) ∧
    (adev_open_input_stream 0x40000 AUDIO_FORMAT_PCM_16_BIT 7 8000
        (some 4096) (some 8192)).ret = 0 ∧
    (adev_open_input_stream 0x40000 AUDIO_FORMAT_PCM_16_BIT 7 8000
        (some 4096) (some 8192)).stream_in.isSome = true ∧
    (adev_open_input_stream 0x40000 AUDIO_FORMAT_PCM_16_BIT 7 8000
        (some 4096) (some 8192)).events =
      [Event.calloc (some 4096), Event.malloc 8192 (some 8192)] := by
  decide

/-- C9: for every requested channel mask, `adev_open_input_stream` at 8000 Hz, 16-bit,
with both allocations succeeding, returns 0, reports the mask 0x3 (two channels) back,
and stores a stream in standby with requested rate 8000 and a two-channel
configuration. -/
theorem adev_open_input_stream_8000 (devices channel_mask addr buf : Nat) :
    (adev_open_input_stream devices AUDIO_FORMAT_PCM_16_BIT channel_mask 8000
        (some addr) (some buf)).ret = 0 ∧
    (adev_open_input_stream devices AUDIO_FORMAT_PCM_16_BIT channel_mask 8000
        (some addr) (some buf)).channel_mask = 0x3 ∧
    popcount 0x3 = 2 ∧
    ∃ s, (adev_open_input_stream devices AUDIO_FORMAT_PCM_16_BIT channel_mask 8000
        (some addr) (some buf)).stream_in = some s ∧
      s.standby = 1 ∧ s.requested_rate = 8000 ∧ s.config.channels = 2 ∧ s.pcm = none := by
  refine ⟨rfl, rfl, by decide, _, rfl, rfl, rfl, rfl, rfl⟩

/-! ## Standby of an output stream -/

/-- C10: `out_standby` returns 0 and leaves the stream in standby; called on an active
stream it leaves no transport handle and a null active-output reference; a second call
returns 0, changes neither the stream nor the device, and closes no transport. -/
theorem out_standby_idempotent (adev : omap3_audio_device) (out : omap3_stream_out) :
    (out_standby adev out).ret = 0 ∧
    (out_standby adev out).out.standby = 1 ∧
    (out.standby = 0 →
      (out_standby adev out).out.pcm = none ∧
      (out_standby adev out).adev.active_output = none ∧
      (out_standby adev out).events =
        [Event.mutex_lock Mutex.adev, Event.mutex_lock (Mutex.stream_out out.addr),
         Event.pcm_close out.pcm,
         Event.mutex_unlock (Mutex.stream_out out.addr), Event.mutex_unlock Mutex.adev]) ∧
    (out_standby (out_standby adev out).adev (out_standby adev out).out).ret = 0 ∧
    (out_standby (out_standby adev out).adev (out_standby adev out).out).adev =
      (out_standby adev out).adev ∧
    (out_standby (out_standby adev out).adev (out_standby adev out).out).out =
      (out_standby adev out).out ∧
    (out_standby (out_standby adev out).adev (out_standby adev out).out).events =
      [Event.mutex_lock Mutex.adev, Event.mutex_lock (Mutex.stream_out out.addr),
       Event.mutex_unlock (Mutex.stream_out out.addr), Event.mutex_unlock Mutex.adev] := by
  by_cases h : out.standby = 0
  · simp [out_standby, do_output_standby, h]
  · simp [out_standby, do_output_standby, h]

/-- The sample states are the ones the code produces: `adev_open_output_stream` yields
`sample_out`, and a first write on it yields `sample_out_active` with the device
referring to it. -/
theorem sample_states_reached :
    (adev_open_output_stream AUDIO_DEVICE_OUT_SPEAKER (some 4096)).stream_out =
      some sample_out ∧
    Option.map (fun r => (r.adev, r.out))
      (out_write sample_adev sample_out 4096 [attempt_ok]) =
      some (sample_adev_active, sample_out_active) := by
  decide

/-- C10, witness: an active stream holding a ready transport, referenced by the device. -/
theorem out_standby_idempotent_witness :
    (out_standby sample_adev_active sample_out_active).out.pcm = none ∧
    (out_standby sample_adev_active sample_out_active).adev.active_output = none ∧
    (out_standby sample_adev_active sample_out_active).events =
      [Event.mutex_lock Mutex.adev, Event.mutex_lock (Mutex.stream_out sample_out_active.addr),
       Event.pcm_close sample_out_active.pcm,
       Event.mutex_unlock (Mutex.stream_out sample_out_active.addr),
       Event.mutex_unlock Mutex.adev] :=
  (out_standby_idempotent sample_adev_active sample_out_active).2.2.1 rfl

/-! ## Reading from an input stream -/

theorem memset_zero_length (buffer : List Nat) (bytes : Nat) :
    (memset_zero buffer bytes).length = buffer.length := by
  simp only [memset_zero, List.length_append, List.length_replicate, List.length_drop]
  omega

theorem store_bytes_length (buffer data : List Nat) (bytes : Nat) :
    (store_bytes buffer data bytes).length = buffer.length := by
  simp only [store_bytes, List.length_append, List.length_take, List.length_drop]
  omega

theorem memset_zero_getElem? (buffer : List Nat) (bytes i : Nat)
    (hlen : bytes ≤ buffer.length) (hi : i < bytes) :
    (memset_zero buffer bytes)[i]? = some 0 := by
  have hmin : min bytes buffer.length = bytes := Nat.min_eq_left hlen
  simp only [memset_zero, hmin]
  rw [List.getElem?_append_left (by simpa using hi)]
  simp [List.getElem?_replicate, hi]

/-- Every stream the factory of input streams creates has one of the supported
requested rates, none of which is zero. -/
theorem adev_open_input_stream_rate (devices : Nat) (format : Int)
    (channel_mask sample_rate : Nat) (calloc_res malloc_res : Option Nat)
    (s : omap3_stream_in)
    (h : (adev_open_input_stream devices format channel_mask sample_rate calloc_res
      malloc_res).stream_in = some s) :
    s.requested_rate ∈ supported_rates ∧ 0 < s.requested_rate := by
  by_cases hc : check_input_parameters sample_rate format 2 ≠ 0
  · simp [adev_open_input_stream, hc] at h
  · have hrate : sample_rate ∈ supported_rates := by
      unfold check_input_parameters at hc
      split_ifs at hc with h1 h2 h3
      · exact absurd hc (by decide)
      · exact absurd hc (by decide)
      · simp only [supported_rates, List.mem_cons, List.mem_singleton, List.mem_nil_iff,
          or_false]
        exact h3
      · exact absurd hc (by decide)
    cases calloc_res with
    | none => simp [adev_open_input_stream, hc] at h
    | some addr =>
      cases malloc_res with
      | none => simp [adev_open_input_stream, hc] at h
      | some b =>
        simp only [adev_open_input_stream, hc, if_false, Option.some.injEq] at h
        subst h
        refine ⟨hrate, ?_⟩
        show 0 < sample_rate
        simp only [supported_rates, List.mem_cons, List.mem_singleton, List.mem_nil_iff,
          or_false] at hrate
        omega

/-- The frame size of an input stream is two or four bytes, never zero. -/
theorem in_frame_size_pos (inp : omap3_stream_in) : 0 < in_frame_size inp := by
  unfold in_frame_size in_get_channels
  split_ifs <;> decide

/-- The result of `in_read` on a stream in standby whose transport does not open. -/
theorem in_read_open_fails_eq (adev : omap3_audio_device) (inp : omap3_stream_in)
    (buffer : List Nat) (bytes : Nat) (a : InAttempt) (hs : inp.standby ≠ 0)
    (ho : a.open_ready = false) (hrate : inp.requested_rate ≠ 0) :
    in_read adev inp buffer bytes a =
      some
        { ret := size_t_to_ssize_t bytes
          adev := { adev with active_input := none }
          inp := { inp with pcm := some ⟨PCM_IN, inp.config, false⟩ }
          buffer := memset_zero buffer bytes
          events :=
            [Event.mutex_lock Mutex.adev, Event.mutex_lock (Mutex.stream_in inp.addr),
             Event.pcm_open CARD_OMAP3_DEFAULT PORT_OMAP3 PCM_IN inp.config,
             Event.pcm_close (some ⟨PCM_IN, inp.config, false⟩),
             Event.mutex_unlock Mutex.adev,
             Event.usleep (u32 (bytes * 1000000) / in_frame_size inp / inp.requested_rate),
             Event.mutex_unlock (Mutex.stream_in inp.addr)] } := by
  have hne : -ENOMEM ≠ (0 : Int) := by decide
  have hlt : -ENOMEM < (0 : Int) := by decide
  have hf := (in_frame_size_pos inp).ne'
  have hf2 : in_frame_size { inp with pcm := some ⟨PCM_IN, inp.config, false⟩ } =
      in_frame_size inp := rfl
  simp [in_read, start_input_stream, hs, ho, hne, hlt, hf, hf2, in_get_sample_rate, hrate]

/-- The result of `in_read` when the stream is active or its transport opens and
`pcm_read` returns a negative status. -/
theorem in_read_read_fails_eq (adev : omap3_audio_device) (inp : omap3_stream_in)
    (buffer : List Nat) (bytes : Nat) (a : InAttempt)
    (ho : inp.standby = 0 ∨ a.open_ready = true) (hr : a.read_ret < 0)
    (hrate : inp.requested_rate ≠ 0) :
    in_read adev inp buffer bytes a =
      some
        { ret := size_t_to_ssize_t bytes
          adev := (in_read_started adev inp).1
          inp := (in_read_started adev inp).2.1
          buffer := memset_zero (store_bytes buffer a.data bytes) bytes
          events :=
            [Event.mutex_lock Mutex.adev, Event.mutex_lock (Mutex.stream_in inp.addr)] ++
            (in_read_started adev inp).2.2 ++
            [Event.mutex_unlock Mutex.adev, Event.pcm_read bytes a.read_ret,
             Event.usleep (u32 (bytes * 1000000) / in_frame_size inp / inp.requested_rate),
             Event.mutex_unlock (Mutex.stream_in inp.addr)] } := by
  have hf := (in_frame_size_pos inp).ne'
  have hr0 : a.read_ret ≠ 0 := by omega
  by_cases hs : inp.standby = 0
  · simp [in_read, in_read_started, hs, hr, hr0, hf, in_get_sample_rate, hrate]
  · have hor : a.open_ready = true := by
      rcases ho with h | h
      · exact absurd h hs
      · exact h
    have hf2 : in_frame_size
        { inp with pcm := some ⟨PCM_IN, inp.config, true⟩, standby := 0 } =
        in_frame_size inp := rfl
    simp [in_read, start_input_stream, in_read_started, hs, hor, hr, hr0, hf, hf2,
      in_get_sample_rate, hrate]

/-- The result of `in_read` when the stream is active or its transport opens and
`pcm_read` returns a status that is not negative. -/
theorem in_read_ok_eq (adev : omap3_audio_device) (inp : omap3_stream_in)
    (buffer : List Nat) (bytes : Nat) (a : InAttempt)
    (ho : inp.standby = 0 ∨ a.open_ready = true) (hr : ¬ a.read_ret < 0) :
    in_read adev inp buffer bytes a =
      some
        { ret := size_t_to_ssize_t bytes
          adev := (in_read_started adev inp).1
          inp := (in_read_started adev inp).2.1
          buffer :=
            if a.read_ret = 0 ∧ adev.mic_mute = true then
              memset_zero (store_bytes buffer a.data bytes) bytes
            else store_bytes buffer a.data bytes
          events :=
            [Event.mutex_lock Mutex.adev, Event.mutex_lock (Mutex.stream_in inp.addr)] ++
            (in_read_started adev inp).2.2 ++
            [Event.mutex_unlock Mutex.adev, Event.pcm_read bytes a.read_ret,
             Event.mutex_unlock (Mutex.stream_in inp.addr)] } := by
  by_cases hs : inp.standby = 0
  · simp [in_read, in_read_started, hs, hr]
  · have hor : a.open_ready = true := by
      rcases ho with h | h
      · exact absurd h hs
      · exact h
    simp [in_read, start_input_stream, in_read_started, hs, hor, hr]

/-- C3, as the code has it: on a stream with a non-zero requested rate, when the capture
fails in `in_read` (open failure from standby, or a negative status of the transport
read), the call returns, each of the first `bytes` bytes of the buffer is zero on
return, and the value returned is `bytes` converted to the 32-bit `ssize_t`: `bytes`
itself below 2^31, and `bytes - 2^32` from there on.  After an open failure the stream
is still in standby, as it was, and the active-input reference of the device is
null. -/
theorem in_read_failure_zero_fills (adev : omap3_audio_device) (inp : omap3_stream_in)
    (buffer : List Nat) (bytes : Nat) (a : InAttempt)
    (hlen : bytes ≤ buffer.length) (hrate : 0 < inp.requested_rate)
    (hfail : in_read_fails inp a) :
    ∃ r, in_read adev inp buffer bytes a = some r ∧
      r.ret = size_t_to_ssize_t bytes ∧
      (bytes < 2 ^ 31 → r.ret = (bytes : Int)) ∧
      (2 ^ 31 ≤ bytes → bytes < 2 ^ 32 → r.ret = (bytes : Int) - 2 ^ 32) ∧
      (∀ i, i < bytes → r.buffer[i]? = some 0) ∧
      r.buffer.length = buffer.length ∧
      ((inp.standby ≠ 0 ∧ a.open_ready = false) →
        r.inp.standby = inp.standby ∧ r.inp.standby ≠ 0 ∧ r.adev.active_input = none) := by
  have hlen2 : bytes ≤ (store_bytes buffer a.data bytes).length := by
    rw [store_bytes_length]; exact hlen
  have hrate0 : inp.requested_rate ≠ 0 := by omega
  by_cases hf : inp.standby ≠ 0 ∧ a.open_ready = false
  · refine ⟨_, in_read_open_fails_eq adev inp buffer bytes a hf.1 hf.2 hrate0, by with_reducible rfl,
      by with_reducible exact size_t_to_ssize_t_small bytes,
      by with_reducible exact size_t_to_ssize_t_large bytes, ?_, ?_, ?_⟩
    · intro i hi
      exact memset_zero_getElem? _ _ _ hlen hi
    · exact memset_zero_length _ _
    · intro _
      exact ⟨rfl, hf.1, rfl⟩
  · have hor : (inp.standby = 0 ∨ a.open_ready = true) ∧ a.read_ret < 0 := by
      rcases hfail with h | h
      · exact absurd h hf
      · exact h
    refine ⟨_, in_read_read_fails_eq adev inp buffer bytes a hor.1 hor.2 hrate0, by with_reducible rfl,
      by with_reducible exact size_t_to_ssize_t_small bytes,
      by with_reducible exact size_t_to_ssize_t_large bytes, ?_, ?_, ?_⟩
    · intro i hi
      exact memset_zero_getElem? _ _ _ hlen2 hi
    · show (memset_zero (store_bytes buffer a.data bytes) bytes).length = buffer.length
      rw [memset_zero_length, store_bytes_length]
    · intro h
      exact absurd h hf

/-! ## Writing to an output stream -/

theorem set_route_by_array_events (m : mixer) (route : List route_setting) (enable : Int) :
    ∀ e ∈ (set_route_by_array m route enable).2,
      e.is_pcm_open = false ∧ e.is_underrun = false ∧ e.is_pcm_close = false := by
  induction route with
  | nil => intro e he; simp [set_route_by_array] at he
  | cons r rest ih =>
    intro e he
    unfold set_route_by_array at he
    cases hc : mixer_get_ctl_by_name m r.ctl_name with
    | none => simp [hc] at he
    | some ctl =>
      simp only [hc, List.mem_append] at he
      rcases he with he | he
      · cases hs : r.strval with
        | none =>
          simp only [hs, set_route_values] at he
          split_ifs at he <;>
            (simp only [List.mem_map] at he
             obtain ⟨j, _, rfl⟩ := he
             exact ⟨rfl, rfl, rfl⟩)
        | some str =>
          simp only [hs] at he
          split_ifs at he <;>
            (simp only [List.mem_singleton] at he
             subst he
             exact ⟨rfl, rfl, rfl⟩)
      · exact ih e he

theorem out_write_pace_events (wt : Int) (bs : Nat) (polls : List (Option Nat))
    (ev : List Event) (h : out_write_pace wt bs polls = some ev) :
    ∀ e ∈ ev, e.is_pcm_open = false ∧ e.is_underrun = false ∧ e.is_pcm_close = false := by
  induction polls generalizing ev with
  | nil => simp [out_write_pace] at h
  | cons p rest ih =>
    cases p with
    | none =>
      simp only [out_write_pace, Option.some.injEq] at h
      subst h
      intro e he
      simp only [List.mem_singleton] at he
      subst he
      exact ⟨rfl, rfl, rfl⟩
    | some avail =>
      simp only [out_write_pace] at h
      by_cases hk : toInt32 (u32 (u32 bs + 2 ^ 32 - u32 avail) : Nat) > wt
      · rw [if_pos hk] at h
        cases hrest : out_write_pace wt bs rest with
        | none => simp [hrest] at h
        | some ev2 =>
          simp only [hrest, Option.some.injEq] at h
          subst h
          intro e he
          simp only [List.mem_cons] at he
          rcases he with rfl | rfl | he
          · exact ⟨rfl, rfl, rfl⟩
          · exact ⟨rfl, rfl, rfl⟩
          · exact ih ev2 hrest e he
      · rw [if_neg hk] at h
        cases h
        intro e he
        simp only [List.mem_singleton] at he
        subst he
        exact ⟨rfl, rfl, rfl⟩

theorem countP_eq_zero_of_forall (p : Event → Bool) (ev : List Event)
    (h : ∀ e ∈ ev, p e = false) : ev.countP p = 0 := by
  rw [List.countP_eq_zero]
  intro e he
  simp [h e he]

theorem select_output_device_events (adev : omap3_audio_device) :
    ∀ e ∈ select_output_device adev,
      e.is_pcm_open = false ∧ e.is_underrun = false ∧ e.is_pcm_close = false :=
  set_route_by_array_events _ _ _

theorem opens_append (a b : List Event) : opens (a ++ b) = opens a + opens b := by
  simp [opens, List.countP_append]

theorem underruns_append (a b : List Event) :
    underruns (a ++ b) = underruns a + underruns b := by
  simp [underruns, List.countP_append]

theorem opens_cons (e : Event) (l : List Event) :
    opens (e :: l) = opens l + (if e.is_pcm_open = true then 1 else 0) := by
  simp [opens, List.countP_cons]

theorem underruns_cons (e : Event) (l : List Event) :
    underruns (e :: l) = underruns l + (if e.is_underrun = true then 1 else 0) := by
  simp [underruns, List.countP_cons]

theorem opens_nil : opens [] = 0 := rfl

theorem underruns_nil : underruns [] = 0 := rfl

theorem opens_select_output_device (adev : omap3_audio_device) :
    opens (select_output_device adev) = 0 :=
  countP_eq_zero_of_forall _ _ (fun e he => (select_output_device_events adev e he).1)

theorem underruns_select_output_device (adev : omap3_audio_device) :
    underruns (select_output_device adev) = 0 :=
  countP_eq_zero_of_forall _ _ (fun e he => (select_output_device_events adev e he).2.1)

theorem opens_pace (wt : Int) (bs : Nat) (polls : List (Option Nat)) (ev : List Event)
    (h : out_write_pace wt bs polls = some ev) : opens ev = 0 :=
  countP_eq_zero_of_forall _ _ (fun e he => (out_write_pace_events wt bs polls ev h e he).1)

theorem underruns_pace (wt : Int) (bs : Nat) (polls : List (Option Nat)) (ev : List Event)
    (h : out_write_pace wt bs polls = some ev) : underruns ev = 0 :=
  countP_eq_zero_of_forall _ _ (fun e he => (out_write_pace_events wt bs polls ev h e he).2.1)

/-- A pass of `out_write` that starts in standby and whose open fails. -/
theorem out_write_pass_open_fails (adev : omap3_audio_device) (out : omap3_stream_out)
    (bytes : Nat) (a : OutAttempt) (hs : out.standby ≠ 0) (ho : a.open_ready = false) :
    (out_write_pass adev out bytes a).isSome = true ∧
    ∀ r, out_write_pass adev out bytes a = some r → r.ret = -ENOMEM ∧
      r.out.standby = out.standby ∧ r.out.addr = out.addr ∧ r.adev.active_output = none ∧
      opens r.events = 1 ∧ underruns r.events = 0 := by
  have hne : -ENOMEM ≠ (0 : Int) := by decide
  have hgt : ¬ (-ENOMEM > (0 : Int)) := by decide
  constructor
  · simp [out_write_pass, out_write_body, start_output_stream, hs, ho, hne]
  · intro r h
    simp only [out_write_pass, out_write_body, start_output_stream, hs, ho, ne_eq,
      not_false_eq_true, if_true, Bool.not_false, true_and, hne, hgt, if_false,
      Option.some.injEq] at h
    subst h
    simp [opens_append, underruns_append, opens_cons, underruns_cons, opens_nil,
      underruns_nil, opens_select_output_device, underruns_select_output_device,
      Event.is_pcm_open, Event.is_underrun]

/-- A pass of `out_write` that reaches the transfer: the stream is active (or the open
succeeds) and the pacing loop ends. -/
theorem out_write_pass_transfer (adev : omap3_audio_device) (out : omap3_stream_out)
    (bytes : Nat) (a : OutAttempt) (ev : List Event)
    (ho : out.standby = 0 ∨ a.open_ready = true)
    (hp : out_write_pace (pass_threshold out) a.buffer_size a.polls = some ev) :
    (out_write_pass adev out bytes a).isSome = true ∧
    ∀ r, out_write_pass adev out bytes a = some r → r.ret = a.write_ret ∧
      r.out.standby = 0 ∧ r.out.addr = out.addr ∧
      r.out.write_threshold = pass_threshold out ∧
      opens r.events = (if out.standby ≠ 0 then 1 else 0) ∧
      (a.write_ret ≠ -EPIPE → underruns r.events = 0) ∧
      (a.write_ret = -EPIPE → ∃ pre W post, r.events = pre ++ W :: post ∧
        (∀ e ∈ pre, e.is_underrun = false) ∧ W.is_underrun = true ∧
        opens post = 0 ∧ underruns post = 0) := by
  have hsleep : ∀ c : Prop, ∀ _ : Decidable c, ∀ us : Nat,
      opens (if c then [Event.usleep us] else []) = 0 ∧
      underruns (if c then [Event.usleep us] else []) = 0 := by
    intro c _ us
    split_ifs <;> exact ⟨rfl, rfl⟩
  by_cases hs : out.standby = 0
  · have hp2 : out_write_pace out.write_threshold a.buffer_size a.polls = some ev := by
      simpa [pass_threshold, hs] using hp
    constructor
    · simp [out_write_pass, out_write_body, hs, hp2]
    · intro r h
      simp only [out_write_pass, out_write_body, hs, ne_eq, not_true_eq_false, if_false,
        false_and, hp2, Option.some.injEq] at h
      subst h
      refine ⟨rfl, hs, rfl, by simp [pass_threshold, hs], ?_, ?_, ?_⟩
      · simp [opens_append, opens_cons, opens_nil, Event.is_pcm_open, opens_pace _ _ _ _ hp2,
          (hsleep _ _ _).1, hs]
      · intro hne
        simp [underruns_append, underruns_cons, underruns_nil, Event.is_underrun,
          underruns_pace _ _ _ _ hp2, (hsleep _ _ _).2, hne]
      · intro he
        refine ⟨[Event.mutex_lock Mutex.adev, Event.mutex_lock (Mutex.stream_out out.addr)] ++
          [] ++ [Event.mutex_unlock Mutex.adev] ++ ev,
          Event.pcm_mmap_write (u32 (bytes / out_frame_size * out_frame_size)) a.write_ret,
          [Event.mutex_unlock (Mutex.stream_out out.addr)] ++
            (if a.write_ret > 0 then
              [Event.usleep (u32 (bytes * 1000000) / out_frame_size / out_get_sample_rate)]
            else []), ?_, ?_, ?_, ?_, ?_⟩
        rotate_left
        · intro e hmem
          simp only [List.append_nil, List.mem_append, List.mem_cons, List.mem_singleton,
            List.not_mem_nil, or_false] at hmem
          rcases hmem with ((rfl | rfl) | rfl) | hmem
          · rfl
          · rfl
          · rfl
          · exact (out_write_pace_events _ _ _ _ hp2 e hmem).2.1
        rotate_left 3
        · simp only [List.append_assoc, List.singleton_append, List.cons_append,
            List.nil_append]
        · simp [Event.is_underrun, he]
        · simp [opens_cons, opens_append, Event.is_pcm_open, (hsleep _ _ _).1]
        · simp [underruns_cons, underruns_append, Event.is_underrun, (hsleep _ _ _).2]
  · have hor : a.open_ready = true := by
      rcases ho with h | h
      · exact absurd h hs
      · exact h
    have hp2 : out_write_pace ((PLAYBACK_PERIOD_COUNT * LONG_PERIOD_SIZE : Nat) : Int)
        a.buffer_size a.polls = some ev := by
      simp only [pass_threshold, hs, ne_eq, not_false_eq_true, if_true] at hp
      exact hp
    have hp3 := hp2
    rw [Nat.cast_mul] at hp3
    constructor
    · simp [out_write_pass, out_write_body, start_output_stream, hs, hor, hp3]
    · intro r h
      simp only [out_write_pass, out_write_body, start_output_stream, hs, hor, ne_eq,
        not_false_eq_true, if_true, Bool.not_true, Bool.false_eq_true, if_false,
        not_true_eq_false, and_false, hp2, Option.some.injEq] at h
      subst h
      refine ⟨rfl, rfl, rfl, by simp only [pass_threshold, hs, ne_eq, not_false_eq_true, if_true], ?_, ?_, ?_⟩
      · simp [opens_append, opens_cons, opens_nil, Event.is_pcm_open, opens_pace _ _ _ _ hp2,
          (hsleep _ _ _).1, hs, opens_select_output_device]
      · intro hne
        simp [underruns_append, underruns_cons, underruns_nil, Event.is_underrun,
          underruns_pace _ _ _ _ hp2, (hsleep _ _ _).2, hne, underruns_select_output_device]
      · intro he
        refine ⟨[Event.mutex_lock Mutex.adev, Event.mutex_lock (Mutex.stream_out out.addr)] ++
          (select_output_device { adev with active_output := some out.addr } ++
            [Event.pcm_open CARD_OMAP3_DEFAULT PORT_OMAP3 (PCM_OUT ||| PCM_MMAP)
              { out.config with start_threshold := SHORT_PERIOD_SIZE * 2,
                                avail_min := LONG_PERIOD_SIZE }]) ++
          [Event.mutex_unlock Mutex.adev] ++ ev,
          Event.pcm_mmap_write (u32 (bytes / out_frame_size * out_frame_size)) a.write_ret,
          [Event.mutex_unlock (Mutex.stream_out out.addr)] ++
            (if a.write_ret > 0 then
              [Event.usleep (u32 (bytes * 1000000) / out_frame_size / out_get_sample_rate)]
            else []), ?_, ?_, ?_, ?_, ?_⟩
        rotate_left
        · intro e hmem
          simp only [List.mem_append, List.mem_cons, List.mem_singleton,
            List.not_mem_nil, or_false] at hmem
          rcases hmem with (((rfl | rfl) | (hmem | rfl)) | rfl) | hmem
          · rfl
          · rfl
          · exact (select_output_device_events _ e hmem).2.1
          · rfl
          · rfl
          · exact (out_write_pace_events _ _ _ _ hp2 e hmem).2.1
        rotate_left 3
        · simp only [List.append_assoc, List.singleton_append, List.cons_append,
            List.nil_append]
        · simp [Event.is_underrun, he]
        · simp [opens_cons, opens_append, Event.is_pcm_open, (hsleep _ _ _).1]
        · simp [underruns_cons, underruns_append, Event.is_underrun, (hsleep _ _ _).2]

/-- A pass of `out_write` whose pacing loop is not ended by the recorded answers. -/
theorem out_write_pass_unanswered (adev : omap3_audio_device) (out : omap3_stream_out)
    (bytes : Nat) (a : OutAttempt) (ho : out.standby = 0 ∨ a.open_ready = true)
    (hp : out_write_pace (pass_threshold out) a.buffer_size a.polls = none) :
    out_write_pass adev out bytes a = none := by
  by_cases hs : out.standby = 0
  · have hp2 : out_write_pace out.write_threshold a.buffer_size a.polls = none := by
      simpa [pass_threshold, hs] using hp
    simp [out_write_pass, out_write_body, hs, hp2]
  · have hor : a.open_ready = true := by
      rcases ho with h | h
      · exact absurd h hs
      · exact h
    have hp2 : out_write_pace ((PLAYBACK_PERIOD_COUNT * LONG_PERIOD_SIZE : Nat) : Int)
        a.buffer_size a.polls = none := by
      simp only [pass_threshold, hs, ne_eq, not_false_eq_true, if_true] at hp
      exact hp
    rw [Nat.cast_mul] at hp2
    simp [out_write_pass, out_write_body, start_output_stream, hs, hor, hp2]

/-- What every completed pass of `out_write` satisfies. -/
theorem out_write_pass_spec (adev : omap3_audio_device) (out : omap3_stream_out)
    (bytes : Nat) (a : OutAttempt) (r : OutResult)
    (h : out_write_pass adev out bytes a = some r) :
    r.out.addr = out.addr ∧
    opens r.events = (if out.standby ≠ 0 then 1 else 0) ∧
    (r.ret ≠ -EPIPE → underruns r.events = 0) ∧
    (r.ret = -EPIPE → r.out.standby = 0 ∧ ∃ pre W post, r.events = pre ++ W :: post ∧
      (∀ e ∈ pre, e.is_underrun = false) ∧ W.is_underrun = true ∧
      opens post = 0 ∧ underruns post = 0) := by
  by_cases hf : out.standby ≠ 0 ∧ a.open_ready = false
  · obtain ⟨h1, h2, h3, h4, h5, h6⟩ :=
      (out_write_pass_open_fails adev out bytes a hf.1 hf.2).2 r h
    refine ⟨h3, ?_, fun _ => h6, ?_⟩
    · rw [h5, if_pos hf.1]
    · intro he
      rw [h1] at he
      exact absurd he (by decide)
  · have ho : out.standby = 0 ∨ a.open_ready = true := by
      by_cases hs : out.standby = 0
      · exact Or.inl hs
      · right
        cases hb : a.open_ready
        · exact absurd ⟨hs, hb⟩ hf
        · rfl
    cases hp : out_write_pace (pass_threshold out) a.buffer_size a.polls with
    | none =>
      rw [out_write_pass_unanswered adev out bytes a ho hp] at h
      exact absurd h (by simp)
    | some ev =>
      obtain ⟨h1, h2, h3, _, h4, h5, h6⟩ :=
        (out_write_pass_transfer adev out bytes a ev ho hp).2 r h
      refine ⟨h3, h4, ?_, ?_⟩
      · intro hne
        exact h5 (by rw [← h1]; exact hne)
      · intro he
        exact ⟨h2, h6 (by rw [← h1]; exact he)⟩

theorem do_output_standby_active (adev : omap3_audio_device) (out : omap3_stream_out)
    (hs : out.standby = 0) :
    (do_output_standby adev out).out.standby = 1 ∧
    (do_output_standby adev out).out.pcm = none ∧
    (do_output_standby adev out).out.addr = out.addr ∧
    (do_output_standby adev out).adev.active_output = none ∧
    (do_output_standby adev out).events = [Event.pcm_close out.pcm] := by
  simp [do_output_standby, hs]

/-- The value `out_write` returns, when it returns, is `bytes` converted to `ssize_t`. -/
theorem out_write_ret (script : List OutAttempt) (adev : omap3_audio_device)
    (out : omap3_stream_out) (bytes : Nat) (r : OutResult)
    (h : out_write adev out bytes script = some r) : r.ret = size_t_to_ssize_t bytes := by
  induction script generalizing adev out r with
  | nil => simp [out_write] at h
  | cons a script ih =>
    unfold out_write at h
    cases hp : out_write_pass adev out bytes a with
    | none => simp [hp] at h
    | some r1 =>
      simp only [hp] at h
      by_cases he : r1.ret = -EPIPE
      · simp only [he, if_true] at h
        cases h2 : out_write (do_output_standby r1.adev r1.out).adev
            (do_output_standby r1.adev r1.out).out bytes script with
        | none => simp [h2] at h
        | some r2 =>
          simp only [h2, Option.some.injEq] at h
          subst h
          exact ih _ _ r2 h2
      · simp only [he, if_false, Option.some.injEq] at h
        subst h
        with_reducible rfl

/-- The number of `pcm_open` calls of a returned `out_write`: one per underrun, and one
more when the call starts in standby. -/
theorem out_write_opens (script : List OutAttempt) (adev : omap3_audio_device)
    (out : omap3_stream_out) (bytes : Nat) (r : OutResult)
    (h : out_write adev out bytes script = some r) :
    opens r.events = (if out.standby ≠ 0 then 1 else 0) + underruns r.events := by
  induction script generalizing adev out r with
  | nil => simp [out_write] at h
  | cons a script ih =>
    unfold out_write at h
    cases hp : out_write_pass adev out bytes a with
    | none => simp [hp] at h
    | some r1 =>
      obtain ⟨_, ho, hu0, hu1⟩ := out_write_pass_spec adev out bytes a r1 hp
      simp only [hp] at h
      by_cases he : r1.ret = -EPIPE
      · simp only [he, if_true] at h
        obtain ⟨hst, pre, W, post, hev, hpre, hW, hpo, hpu⟩ := hu1 he
        obtain ⟨hs1, _, _, _, hsev⟩ := do_output_standby_active r1.adev r1.out hst
        cases h2 : out_write (do_output_standby r1.adev r1.out).adev
            (do_output_standby r1.adev r1.out).out bytes script with
        | none => simp [h2] at h
        | some r2 =>
          simp only [h2, Option.some.injEq] at h
          subst h
          have ih2 := ih _ _ r2 h2
          rw [hs1] at ih2
          have hupre : underruns pre = 0 := countP_eq_zero_of_forall _ _ hpre
          have hur1 : underruns r1.events = 1 := by
            rw [hev, underruns_append, underruns_cons, hupre, hpu, hW]
            rfl
          simp only [opens_append, underruns_append, ho, hur1, hsev, opens_cons,
            underruns_cons, opens_nil, underruns_nil, Event.is_pcm_open, Event.is_underrun,
            ih2]
          simp
      · simp only [he, if_false, Option.some.injEq] at h
        subst h
        show opens r1.events = _ + underruns r1.events
        rw [ho, hu0 he, Nat.add_zero]

theorem dropWhile_append_of_forall (p : Event → Bool) (pre rest : List Event)
    (h : ∀ e ∈ pre, p e = true) : (pre ++ rest).dropWhile p = rest.dropWhile p := by
  induction pre with
  | nil => rfl
  | cons x pre ih =>
    have hx : p x = true := h x (List.mem_cons_self _ _)
    rw [List.cons_append, List.dropWhile_cons_of_pos hx]
    exact ih (fun e he => h e (List.mem_cons_of_mem _ he))

theorem reopens_of_no_underrun (ev : List Event) (h : underruns ev = 0) :
    reopens_after_underrun ev = 0 := by
  have hall : ∀ e ∈ ev, (!e.is_underrun) = true := by
    intro e he
    have := (List.countP_eq_zero.mp h) e he
    simpa using this
  have hd := dropWhile_append_of_forall (fun e => !e.is_underrun) ev [] hall
  rw [List.append_nil] at hd
  rw [reopens_after_underrun, hd]
  rfl

theorem reopens_of_underrun (pre post : List Event) (W : Event)
    (hpre : ∀ e ∈ pre, e.is_underrun = false) (hW : W.is_underrun = true) :
    reopens_after_underrun (pre ++ W :: post) = opens post := by
  have hall : ∀ e ∈ pre, (!e.is_underrun) = true := by
    intro e he
    simp [hpre e he]
  have hopen : W.is_pcm_open = false := by
    cases W <;> simp_all [Event.is_underrun, Event.is_pcm_open]
  rw [reopens_after_underrun, dropWhile_append_of_forall _ _ _ hall,
    List.dropWhile_cons_of_neg (by simp [hW]), opens_cons, hopen]
  simp

/-- After the first underrun a returned `out_write` has made one `pcm_open` call per
underrun. -/
theorem out_write_reopens (script : List OutAttempt) (adev : omap3_audio_device)
    (out : omap3_stream_out) (bytes : Nat) (r : OutResult)
    (h : out_write adev out bytes script = some r) :
    reopens_after_underrun r.events = underruns r.events := by
  cases script with
  | nil => simp [out_write] at h
  | cons a script =>
    unfold out_write at h
    cases hp : out_write_pass adev out bytes a with
    | none => simp [hp] at h
    | some r1 =>
      obtain ⟨_, ho, hu0, hu1⟩ := out_write_pass_spec adev out bytes a r1 hp
      simp only [hp] at h
      by_cases he : r1.ret = -EPIPE
      · simp only [he, if_true] at h
        obtain ⟨hst, pre, W, post, hev, hpre, hW, hpo, hpu⟩ := hu1 he
        obtain ⟨hs1, _, _, _, hsev⟩ := do_output_standby_active r1.adev r1.out hst
        cases h2 : out_write (do_output_standby r1.adev r1.out).adev
            (do_output_standby r1.adev r1.out).out bytes script with
        | none => simp [h2] at h
        | some r2 =>
          simp only [h2, Option.some.injEq] at h
          subst h
          have ho2 := out_write_opens script _ _ bytes r2 h2
          rw [hs1] at ho2
          have hupre : underruns pre = 0 := countP_eq_zero_of_forall _ _ hpre
          simp only [hev, List.append_assoc, List.cons_append]
          rw [reopens_of_underrun pre _ W hpre hW]
          simp only [opens_append, underruns_append, hsev, opens_cons, underruns_cons,
            opens_nil, underruns_nil, ho2, hpo, hpu, hupre, hW]
          simp [Event.is_pcm_open, Event.is_underrun]
          omega
      · simp only [he, if_false, Option.some.injEq] at h
        subst h
        show reopens_after_underrun r1.events = underruns r1.events
        rw [hu0 he, reopens_of_no_underrun _ (hu0 he)]

theorem paces_threshold (out : omap3_stream_out) (a : OutAttempt) (h : paces out a) :
    ∃ ev, out_write_pace (pass_threshold out) a.buffer_size a.polls = some ev :=
  Option.isSome_iff_exists.mp h.1

/-- A pass of `out_write` whose answers end the pacing loop runs to its end; the
status it leaves is the one of the transfer or `-ENOMEM`. -/
theorem out_write_pass_of_paces (adev : omap3_audio_device) (out : omap3_stream_out)
    (bytes : Nat) (a : OutAttempt) (h : paces out a) :
    ∃ r, out_write_pass adev out bytes a = some r ∧
      (r.ret = -EPIPE → a.write_ret = -EPIPE) := by
  by_cases hf : out.standby ≠ 0 ∧ a.open_ready = false
  · obtain ⟨hsome, hprop⟩ := out_write_pass_open_fails adev out bytes a hf.1 hf.2
    obtain ⟨r, hr⟩ := Option.isSome_iff_exists.mp hsome
    refine ⟨r, hr, ?_⟩
    intro he
    rw [(hprop r hr).1] at he
    exact absurd he (by decide)
  · have ho : out.standby = 0 ∨ a.open_ready = true := by
      by_cases hs : out.standby = 0
      · exact Or.inl hs
      · right
        cases hb : a.open_ready
        · exact absurd ⟨hs, hb⟩ hf
        · rfl
    obtain ⟨ev, hev⟩ := paces_threshold out a h
    obtain ⟨hsome, hprop⟩ := out_write_pass_transfer adev out bytes a ev ho hev
    obtain ⟨r, hr⟩ := Option.isSome_iff_exists.mp hsome
    obtain ⟨h1, _⟩ := hprop r hr
    refine ⟨r, hr, ?_⟩
    intro he
    rw [← h1]
    exact he

theorem paces_after_standby (adev : omap3_audio_device) (out out1 : omap3_stream_out)
    (a : OutAttempt) (h : paces out a) : paces (do_output_standby adev out1).out a := by
  have hs : (do_output_standby adev out1).out.standby ≠ 0 := by
    unfold do_output_standby
    split_ifs <;> simp
  have ht : pass_threshold (do_output_standby adev out1).out =
      ((PLAYBACK_PERIOD_COUNT * LONG_PERIOD_SIZE : Nat) : Int) := by
    simp only [pass_threshold, hs, ne_eq, not_false_eq_true, if_true]
  unfold paces
  rw [ht]
  exact ⟨h.2, h.2⟩

/-- The recursion equation of `out_write`, in terms of a completed first pass. -/
theorem out_write_cons (adev : omap3_audio_device) (out : omap3_stream_out) (bytes : Nat)
    (a : OutAttempt) (script : List OutAttempt) (r1 : OutResult)
    (h : out_write_pass adev out bytes a = some r1) :
    out_write adev out bytes (a :: script) =
      if r1.ret = -EPIPE then
        Option.map
          (fun r2 => { r2 with
            events := r1.events ++
              ([Event.mutex_lock Mutex.adev, Event.mutex_lock (Mutex.stream_out out.addr)] ++
                (do_output_standby r1.adev r1.out).events ++
                [Event.mutex_unlock (Mutex.stream_out out.addr),
                 Event.mutex_unlock Mutex.adev]) ++
              r2.events })
          (out_write (do_output_standby r1.adev r1.out).adev
            (do_output_standby r1.adev r1.out).out bytes script)
      else some { r1 with ret := size_t_to_ssize_t bytes } := by
  rw [out_write]
  simp only [h]
  split_ifs
  · cases out_write (do_output_standby r1.adev r1.out).adev
      (do_output_standby r1.adev r1.out).out bytes script <;> rfl
  · rfl

/-- Termination of `out_write`: when the answers end every pacing loop and some attempt
does not report the underrun status, the call returns. -/
theorem out_write_total (us : List OutAttempt) (a : OutAttempt) (rest : List OutAttempt)
    (adev : omap3_audio_device) (out : omap3_stream_out) (bytes : Nat)
    (hp : ∀ x ∈ us ++ [a], paces out x) (hw : a.write_ret ≠ -EPIPE) :
    ∃ r, out_write adev out bytes (us ++ a :: rest) = some r := by
  induction us generalizing adev out with
  | nil =>
    obtain ⟨r1, hr1, he1⟩ :=
      out_write_pass_of_paces adev out bytes a (hp a (by simp))
    have hne : r1.ret ≠ -EPIPE := fun he => hw (he1 he)
    refine ⟨{ r1 with ret := size_t_to_ssize_t bytes }, ?_⟩
    rw [List.nil_append, out_write_cons adev out bytes a _ r1 hr1, if_neg hne]
  | cons u us ih =>
    obtain ⟨r1, hr1, _⟩ :=
      out_write_pass_of_paces adev out bytes u (hp u (by simp))
    by_cases he : r1.ret = -EPIPE
    · have hp2 : ∀ x ∈ us ++ [a], paces (do_output_standby r1.adev r1.out).out x := by
        intro x hx
        exact paces_after_standby r1.adev out r1.out x (hp x (by
          simp only [List.cons_append, List.mem_cons]
          exact Or.inr hx))
      obtain ⟨r2, hr2⟩ := ih (do_output_standby r1.adev r1.out).adev _ hp2
      rw [List.cons_append, out_write_cons adev out bytes u _ r1 hr1, if_pos he, hr2]
      exact ⟨_, rfl⟩
    · refine ⟨{ r1 with ret := size_t_to_ssize_t bytes }, ?_⟩
      rw [List.cons_append, out_write_cons adev out bytes u _ r1 hr1, if_neg he]

/-- The retry of `out_write` is not bounded: while every attempt opens and reports the
underrun status, no number of attempts lets the call return. -/
theorem out_write_all_underruns (script : List OutAttempt) (adev : omap3_audio_device)
    (out : omap3_stream_out) (bytes : Nat)
    (h : ∀ u ∈ script, u.open_ready = true ∧ u.write_ret = -EPIPE) :
    out_write adev out bytes script = none := by
  induction script generalizing adev out with
  | nil => rfl
  | cons u script ih =>
    have hu := h u (List.mem_cons_self _ _)
    have ho : out.standby = 0 ∨ u.open_ready = true := Or.inr hu.1
    cases hp : out_write_pace (pass_threshold out) u.buffer_size u.polls with
    | none =>
      simp [out_write, out_write_pass_unanswered adev out bytes u ho hp]
    | some ev =>
      obtain ⟨hsome, hprop⟩ := out_write_pass_transfer adev out bytes u ev ho hp
      obtain ⟨r, hr⟩ := Option.isSome_iff_exists.mp hsome
      have hret : r.ret = -EPIPE := by rw [(hprop r hr).1, hu.2]
      have ih2 := ih (do_output_standby r.adev r.out).adev (do_output_standby r.adev r.out).out
        (fun x hx => h x (List.mem_cons_of_mem _ hx))
      rw [out_write_cons adev out bytes u _ r hr, if_pos hret, ih2]
      rfl

/-- C1, as the code has it: whenever `out_write` returns, it returns `bytes` converted
to the 32-bit `ssize_t`, for every device, stream state, byte count and sequence of
transport answers: `bytes` itself when it is below 2^31, and the negative value
`bytes - 2^32` from there on.  The call does return when the open fails from standby,
and whenever some attempt does not report the underrun status and the answers end the
pacing loops before it (transfer succeeds, transfer fails with another error, transfer
underruns and then succeeds on the retry). -/
theorem out_write_returns_bytes (adev : omap3_audio_device) (out : omap3_stream_out)
    (bytes : Nat) (script : List OutAttempt) :
    (∀ r, out_write adev out bytes script = some r →
      r.ret = size_t_to_ssize_t bytes ∧
      (bytes < 2 ^ 31 → r.ret = (bytes : Int)) ∧
      (2 ^ 31 ≤ bytes → bytes < 2 ^ 32 → r.ret = (bytes : Int) - 2 ^ 32)) ∧
    (∀ a rest, script = a :: rest → out.standby ≠ 0 → a.open_ready = false →
      ∃ r, out_write adev out bytes script = some r) ∧
    (∀ us a rest, script = us ++ a :: rest → (∀ x ∈ us ++ [a], paces out x) →
      a.write_ret ≠ -EPIPE → ∃ r, out_write adev out bytes script = some r) := by
  refine ⟨fun r h => ?_, ?_, ?_⟩
  · have hret := out_write_ret script adev out bytes r h
    refine ⟨hret, fun hb => ?_, fun h1 h2 => ?_⟩
    · rw [hret, size_t_to_ssize_t_small bytes hb]
    · rw [hret, size_t_to_ssize_t_large bytes h1 h2]
  · intro a rest hscript hs ho
    subst hscript
    obtain ⟨hsome, hprop⟩ := out_write_pass_open_fails adev out bytes a hs ho
    obtain ⟨r1, hr1⟩ := Option.isSome_iff_exists.mp hsome
    have hne : r1.ret ≠ -EPIPE := by
      rw [(hprop r1 hr1).1]
      decide
    refine ⟨{ r1 with ret := size_t_to_ssize_t bytes }, ?_⟩
    rw [out_write_cons adev out bytes a rest r1 hr1, if_neg hne]
  · intro us a rest hscript hp hw
    subst hscript
    exact out_write_total us a rest adev out bytes hp hw

/-- C1, witness: a write of 4096 bytes to a fresh stream whose first transfer underruns
and whose retry succeeds returns 4096. -/
theorem out_write_returns_bytes_witness :
    ∃ r, out_write sample_adev sample_out 4096 [attempt_underrun, attempt_ok] = some r ∧
      r.ret = 4096 := by
  obtain ⟨r, hr⟩ :=
    (out_write_returns_bytes sample_adev sample_out 4096 [attempt_underrun, attempt_ok]).2.2
      [attempt_underrun] attempt_ok [] rfl (by decide) (by decide)
  exact ⟨r, hr,
    ((out_write_returns_bytes sample_adev sample_out 4096
      [attempt_underrun, attempt_ok]).1 r hr).2.1 (by decide)⟩

/-- C1, counterexample: a write of 2^31 bytes to a fresh stream whose transport opens
and whose transfer succeeds returns -2^31, not the byte count. -/
theorem out_write_returns_negative :
    Option.map (fun r => r.ret)
      (out_write sample_adev sample_out 2147483648 [attempt_ok]) =
      some (-2147483648) := by
  decide

/-- C2, as the code has it: a returned `out_write` returns `bytes` converted to the
32-bit `ssize_t` (`bytes` itself when it is below 2^31) and has made, after the first
underrun, exactly one `pcm_open` call per underrun; a pass whose transfer underruns ran
on an active stream, the stream is then forced to standby (transport closed, handle and
active-output reference null) and the write starts over with the remaining answers; the
retry is not bounded, the call does not return while every attempt opens and
underruns. -/
theorem out_write_underrun_recovery (adev : omap3_audio_device) (out : omap3_stream_out)
    (bytes : Nat) (script : List OutAttempt) :
    (∀ r, out_write adev out bytes script = some r →
      r.ret = size_t_to_ssize_t bytes ∧ (bytes < 2 ^ 31 → r.ret = (bytes : Int)) ∧
      reopens_after_underrun r.events = underruns r.events) ∧
    (∀ a rest r1, script = a :: rest → out_write_pass adev out bytes a = some r1 →
      r1.ret = -EPIPE →
      r1.out.standby = 0 ∧
      (do_output_standby r1.adev r1.out).out.standby = 1 ∧
      (do_output_standby r1.adev r1.out).out.pcm = none ∧
      (do_output_standby r1.adev r1.out).adev.active_output = none ∧
      (do_output_standby r1.adev r1.out).events = [Event.pcm_close r1.out.pcm] ∧
      out_write adev out bytes script =
        Option.map
          (fun r2 => { r2 with
            events := r1.events ++
              ([Event.mutex_lock Mutex.adev, Event.mutex_lock (Mutex.stream_out out.addr)] ++
                (do_output_standby r1.adev r1.out).events ++
                [Event.mutex_unlock (Mutex.stream_out out.addr),
                 Event.mutex_unlock Mutex.adev]) ++
              r2.events })
          (out_write (do_output_standby r1.adev r1.out).adev
            (do_output_standby r1.adev r1.out).out bytes rest)) ∧
    ((∀ u ∈ script, u.open_ready = true ∧ u.write_ret = -EPIPE) →
      out_write adev out bytes script = none) := by
  refine ⟨fun r h => ?_, ?_, out_write_all_underruns script adev out bytes⟩
  · have hret := out_write_ret script adev out bytes r h
    refine ⟨hret, fun hb => ?_, out_write_reopens script adev out bytes r h⟩
    rw [hret, size_t_to_ssize_t_small bytes hb]
  intro a rest r1 hscript hr1 he
  subst hscript
  obtain ⟨_, _, _, hu1⟩ := out_write_pass_spec adev out bytes a r1 hr1
  obtain ⟨hst, _⟩ := hu1 he
  obtain ⟨h1, h2, _, h4, h5⟩ := do_output_standby_active r1.adev r1.out hst
  refine ⟨hst, h1, h2, h4, h5, ?_⟩
  rw [out_write_cons adev out bytes a rest r1 hr1, if_pos he]

/-- C2, witness: on an active stream, one underrun followed by a successful retry gives
one underrun and one reopen, and the call returns the 4096 bytes. -/
theorem out_write_underrun_recovery_witness :
    Option.map (fun r => (r.ret, underruns r.events, opens r.events,
        reopens_after_underrun r.events))
      (out_write sample_adev_active sample_out_active 4096
        [attempt_underrun, attempt_ok]) = some (4096, 1, 1, 1) ∧
    ∃ r, out_write sample_adev_active sample_out_active 4096
        [attempt_underrun, attempt_ok] = some r ∧
      r.ret = 4096 ∧ reopens_after_underrun r.events = underruns r.events := by
  refine ⟨by decide, ?_⟩
  obtain ⟨r, hr⟩ := Option.isSome_iff_exists.mp
    (show (out_write sample_adev_active sample_out_active 4096
      [attempt_underrun, attempt_ok]).isSome = true by decide)
  have h := (out_write_underrun_recovery sample_adev_active sample_out_active 4096
    [attempt_underrun, attempt_ok]).1 r hr
  exact ⟨r, hr, h.2.1 (by decide), h.2.2⟩

/-- C2, counterexample: when the retry underruns again the call reopens the transport a
second time; with two underruns before a successful transfer there are two reopen
attempts after the first underrun, not one. -/
theorem out_write_two_underruns_two_reopens :
    Option.map (fun r => (r.ret, underruns r.events, opens r.events,
        reopens_after_underrun r.events))
      (out_write sample_adev_active sample_out_active 4096
        [attempt_underrun, attempt_underrun, attempt_ok]) = some (4096, 2, 2, 2) := by
  decide

/-- C3, witness: a read of four bytes from a stream in standby whose transport does not
open. -/
theorem in_read_failure_zero_fills_witness :
    ∃ r, in_read sample_adev sample_in [7, 7, 7, 7, 7] 4 ⟨false, 0, []⟩ = some r ∧
      r.ret = 4 ∧ (∀ i, i < 4 → r.buffer[i]? = some 0) ∧ r.buffer.length = 5 ∧
      r.inp.standby = 1 ∧ r.adev.active_input = none := by
  obtain ⟨r, hr, _, hsmall, _, hz, hl, hst⟩ :=
    in_read_failure_zero_fills sample_adev sample_in [7, 7, 7, 7, 7] 4 ⟨false, 0, []⟩
      (by decide) (by decide) (by decide)
  exact ⟨r, hr, hsmall (by decide), hz, hl, (hst ⟨by decide, rfl⟩).1,
    (hst ⟨by decide, rfl⟩).2.2⟩

/-- C3, counterexample: a failed read of 2^31 bytes, into a buffer of that length, from
a stream in standby whose transport does not open returns -2^31, not the byte count. -/
theorem in_read_failure_returns_negative :
    in_read_fails sample_in ⟨false, 0, []⟩ ∧
    (List.replicate 2147483648 0).length = 2147483648 ∧
    Option.map (fun r => r.ret)
      (in_read sample_adev sample_in (List.replicate 2147483648 0) 2147483648
        ⟨false, 0, []⟩) = some (-2147483648) :=
  ⟨by decide, List.length_replicate _ _, by decide⟩

/-! ## Control-plane router -/

theorem mixer_get_ctl_by_name_name (m : mixer) (name : String) (ctl : mixer_ctl)
    (h : mixer_get_ctl_by_name m name = some ctl) : ctl.name = name := by
  have := List.find?_some h
  simpa using this

theorem set_route_by_array_nil (m : mixer) (enable : Int) :
    set_route_by_array m [] enable = (0, []) := rfl

theorem set_route_by_array_cons_none (m : mixer) (r : route_setting)
    (rest : List route_setting) (enable : Int)
    (h : mixer_get_ctl_by_name m r.ctl_name = none) :
    set_route_by_array m (r :: rest) enable = (-EINVAL, []) := by
  rw [set_route_by_array]
  simp only [h]

theorem set_route_by_array_cons_some (m : mixer) (r : route_setting)
    (rest : List route_setting) (enable : Int) (ctl : mixer_ctl)
    (h : mixer_get_ctl_by_name m r.ctl_name = some ctl) :
    set_route_by_array m (r :: rest) enable =
      ((set_route_by_array m rest enable).1,
        entry_writes m (decide (enable ≠ 0)) r ++ (set_route_by_array m rest enable).2) := by
  have hn := mixer_get_ctl_by_name_name m r.ctl_name ctl h
  rw [set_route_by_array]
  simp only [h, entry_writes, set_route_values, hn]
  cases r.strval with
  | none => by_cases he : enable = 0 <;> simp [he]
  | some s => by_cases he : enable = 0 <;> simp [he]

/-- When every control of the preset exists, `set_route_by_array` succeeds and makes
exactly the writes the preset asks for. -/
theorem set_route_by_array_found (m : mixer) (route : List route_setting) (enable : Int)
    (h : ∀ r ∈ route, (mixer_get_ctl_by_name m r.ctl_name).isSome = true) :
    set_route_by_array m route enable = (0, route_writes m route (decide (enable ≠ 0))) := by
  induction route with
  | nil => rfl
  | cons r rest ih =>
    obtain ⟨ctl, hctl⟩ := Option.isSome_iff_exists.mp (h r (List.mem_cons_self _ _))
    rw [set_route_by_array_cons_some m r rest enable ctl hctl,
      ih (fun x hx => h x (List.mem_cons_of_mem _ hx))]
    simp [route_writes]

/-- The status of `set_route_by_array` is 0 or `-EINVAL`, and it is `-EINVAL` exactly
when some entry names a missing control. -/
theorem set_route_by_array_status (m : mixer) (route : List route_setting) (enable : Int) :
    ((set_route_by_array m route enable).1 = 0 ∨
      (set_route_by_array m route enable).1 = -EINVAL) ∧
    ((set_route_by_array m route enable).1 = -EINVAL ↔
      ∃ r ∈ route, mixer_get_ctl_by_name m r.ctl_name = none) := by
  induction route with
  | nil =>
    refine ⟨Or.inl rfl, ?_⟩
    simp [set_route_by_array_nil, EINVAL]
  | cons r rest ih =>
    cases hc : mixer_get_ctl_by_name m r.ctl_name with
    | none =>
      rw [set_route_by_array_cons_none m r rest enable hc]
      exact ⟨Or.inr rfl, ⟨fun _ => ⟨r, List.mem_cons_self _ _, hc⟩, fun _ => rfl⟩⟩
    | some ctl =>
      rw [set_route_by_array_cons_some m r rest enable ctl hc]
      refine ⟨ih.1, ?_⟩
      constructor
      · intro hf
        obtain ⟨x, hx, hxn⟩ := ih.2.mp hf
        exact ⟨x, List.mem_cons_of_mem _ hx, hxn⟩
      · rintro ⟨x, hx, hxn⟩
        rcases List.mem_cons.mp hx with rfl | hx
        · rw [hc] at hxn
          exact absurd hxn (by simp)
        · exact ih.2.mpr ⟨x, hx, hxn⟩

/-- A preset that fails at the entry after `pre` has made the writes of `pre` and no
other. -/
theorem set_route_by_array_fails_at (m : mixer) (pre : List route_setting)
    (r : route_setting) (post : List route_setting) (enable : Int)
    (hpre : ∀ x ∈ pre, (mixer_get_ctl_by_name m x.ctl_name).isSome = true)
    (hr : mixer_get_ctl_by_name m r.ctl_name = none) :
    set_route_by_array m (pre ++ r :: post) enable =
      (-EINVAL, route_writes m pre (decide (enable ≠ 0))) := by
  induction pre with
  | nil =>
    rw [List.nil_append, set_route_by_array_cons_none m r post enable hr]
    rfl
  | cons x pre ih =>
    obtain ⟨ctl, hctl⟩ := Option.isSome_iff_exists.mp (hpre x (List.mem_cons_self _ _))
    rw [List.cons_append, set_route_by_array_cons_some m x _ enable ctl hctl,
      ih (fun y hy => hpre y (List.mem_cons_of_mem _ hy))]
    simp [route_writes]

theorem mem_route_writes (m : mixer) (route : List route_setting) (enable : Bool)
    (e : Event) :
    e ∈ route_writes m route enable ↔ ∃ r ∈ route, e ∈ entry_writes m enable r := by
  simp [route_writes, List.mem_flatMap]

theorem entry_writes_numeric (m : mixer) (enable : Bool) (r : route_setting)
    (ctl : mixer_ctl) (hc : mixer_get_ctl_by_name m r.ctl_name = some ctl)
    (hs : r.strval = none) (j : Nat) (hj : j < ctl.num_values) :
    Event.mixer_ctl_set_value r.ctl_name j (if enable = true then r.intval else 0) ∈
      entry_writes m enable r := by
  simp only [entry_writes, hc, hs, List.mem_map, List.mem_range]
  exact ⟨j, hj, rfl⟩

theorem entry_writes_symbolic (m : mixer) (enable : Bool) (r : route_setting)
    (ctl : mixer_ctl) (hc : mixer_get_ctl_by_name m r.ctl_name = some ctl)
    (s : String) (hs : r.strval = some s) :
    entry_writes m enable r =
      [Event.mixer_ctl_set_enum_by_string r.ctl_name (if enable = true then s else "Off")] := by
  simp only [entry_writes, hc, hs]

theorem entry_writes_disable_value (m : mixer) (r : route_setting) (name : String)
    (j : Nat) (v : Int)
    (h : Event.mixer_ctl_set_value name j v ∈ entry_writes m false r) : v = 0 := by
  unfold entry_writes at h
  cases hc : mixer_get_ctl_by_name m r.ctl_name with
  | none => simp [hc] at h
  | some ctl =>
    cases hs : r.strval with
    | none =>
      simp only [hc, hs, List.mem_map, List.mem_range] at h
      obtain ⟨k, _, hk⟩ := h
      simp only [Bool.false_eq_true, if_false] at hk
      cases hk
      rfl
    | some s => simp [hc, hs] at h

/-- C12: for a preset all of whose controls exist, `set_route_by_array` with enable 0
succeeds and makes exactly the writes of the specification for disabling: the value 0
on every sub-channel of every numeric control, whatever the configured `intval`, and
the value "Off" on every string-valued control; with a nonzero enable it succeeds and
writes the `intval` of the entry on every sub-channel (and the symbolic value of a
string-valued entry). -/
theorem set_route_by_array_writes (m : mixer) (route : List route_setting)
    (h : ∀ r ∈ route, (mixer_get_ctl_by_name m r.ctl_name).isSome = true) :
    (set_route_by_array m route 0).1 = 0 ∧
    (set_route_by_array m route 0).2 = route_writes m route false ∧
    (∀ r ∈ route, ∀ ctl, mixer_get_ctl_by_name m r.ctl_name = some ctl → r.strval = none →
      ∀ j, j < ctl.num_values →
        Event.mixer_ctl_set_value r.ctl_name j 0 ∈ (set_route_by_array m route 0).2) ∧
    (∀ r ∈ route, ∀ s, r.strval = some s →
      Event.mixer_ctl_set_enum_by_string r.ctl_name "Off" ∈ (set_route_by_array m route 0).2) ∧
    (∀ name j v, Event.mixer_ctl_set_value name j v ∈ (set_route_by_array m route 0).2 →
      v = 0) ∧
    (∀ enable : Int, enable ≠ 0 →
      (set_route_by_array m route enable).1 = 0 ∧
      (set_route_by_array m route enable).2 = route_writes m route true ∧
      (∀ r ∈ route, ∀ ctl, mixer_get_ctl_by_name m r.ctl_name = some ctl →
        r.strval = none → ∀ j, j < ctl.num_values →
          Event.mixer_ctl_set_value r.ctl_name j r.intval ∈
            (set_route_by_array m route enable).2) ∧
      (∀ r ∈ route, ∀ s, r.strval = some s →
        Event.mixer_ctl_set_enum_by_string r.ctl_name s ∈
          (set_route_by_array m route enable).2)) := by
  have h0 := set_route_by_array_found m route 0 h
  have hd : decide ((0 : Int) ≠ 0) = false := by decide
  rw [hd] at h0
  refine ⟨by rw [h0], by rw [h0], ?_, ?_, ?_, ?_⟩
  · intro r hr ctl hc hs j hj
    rw [h0]
    exact (mem_route_writes m route false _).mpr
      ⟨r, hr, by simpa using entry_writes_numeric m false r ctl hc hs j hj⟩
  · intro r hr s hs
    obtain ⟨ctl, hc⟩ := Option.isSome_iff_exists.mp (h r hr)
    rw [h0]
    refine (mem_route_writes m route false _).mpr ⟨r, hr, ?_⟩
    rw [entry_writes_symbolic m false r ctl hc s hs]
    simp
  · intro name j v hv
    rw [h0] at hv
    obtain ⟨r, _, hr⟩ := (mem_route_writes m route false _).mp hv
    exact entry_writes_disable_value m r name j v hr
  · intro enable hen
    have h1 := set_route_by_array_found m route enable h
    have hd1 : decide (enable ≠ 0) = true := by simpa using hen
    rw [hd1] at h1
    refine ⟨by rw [h1], by rw [h1], ?_, ?_⟩
    · intro r hr ctl hc hs j hj
      rw [h1]
      exact (mem_route_writes m route true _).mpr
        ⟨r, hr, by simpa using entry_writes_numeric m true r ctl hc hs j hj⟩
    · intro r hr s hs
      obtain ⟨ctl, hc⟩ := Option.isSome_iff_exists.mp (h r hr)
      rw [h1]
      refine (mem_route_writes m route true _).mpr ⟨r, hr, ?_⟩
      rw [entry_writes_symbolic m true r ctl hc s hs]
      simp

/-- C12, witness: a preset with a two-channel numeric entry of value 5 and a
string-valued entry, on a mixer that has both controls. -/
theorem set_route_by_array_writes_witness :
    set_route_by_array sample_mixer_enum sample_route 0 =
      (0, [Event.mixer_ctl_set_value MIXER_HEADSET_PLAYBACK_VOLUME 0 0,
           Event.mixer_ctl_set_value MIXER_HEADSET_PLAYBACK_VOLUME 1 0,
           Event.mixer_ctl_set_enum_by_string "Sidetone Mode" "Off"]) ∧
    set_route_by_array sample_mixer_enum sample_route 1 =
      (0, [Event.mixer_ctl_set_value MIXER_HEADSET_PLAYBACK_VOLUME 0 5,
           Event.mixer_ctl_set_value MIXER_HEADSET_PLAYBACK_VOLUME 1 5,
           Event.mixer_ctl_set_enum_by_string "Sidetone Mode" "Loopback"]) ∧
    (set_route_by_array sample_mixer_enum sample_route 0).1 = 0 :=
  ⟨by decide, by decide,
   (set_route_by_array_writes sample_mixer_enum sample_route (by decide)).1⟩

/-- C13: `set_route_by_array` returns `-EINVAL` exactly when some entry of the preset
names a control the surface does not have (and 0 otherwise); when the first such entry
comes after the entries `pre`, the writes made are those of a successful call on `pre`,
in the same order, and nothing else is written. -/
theorem set_route_by_array_unknown_control (m : mixer) (route : List route_setting)
    (enable : Int) :
    ((set_route_by_array m route enable).1 = -EINVAL ↔
      ∃ r ∈ route, mixer_get_ctl_by_name m r.ctl_name = none) ∧
    ((set_route_by_array m route enable).1 = 0 ∨
      (set_route_by_array m route enable).1 = -EINVAL) ∧
    (∀ pre r post, route = pre ++ r :: post →
      (∀ x ∈ pre, (mixer_get_ctl_by_name m x.ctl_name).isSome = true) →
      mixer_get_ctl_by_name m r.ctl_name = none →
      (set_route_by_array m route enable).1 = -EINVAL ∧
      (set_route_by_array m pre enable).1 = 0 ∧
      (set_route_by_array m route enable).2 = (set_route_by_array m pre enable).2 ∧
      (set_route_by_array m route enable).2 = route_writes m pre (decide (enable ≠ 0))) := by
  refine ⟨(set_route_by_array_status m route enable).2,
    (set_route_by_array_status m route enable).1, ?_⟩
  intro pre r post hroute hpre hr
  subst hroute
  rw [set_route_by_array_fails_at m pre r post enable hpre hr,
    set_route_by_array_found m pre enable hpre]
  exact ⟨rfl, rfl, rfl, rfl⟩

/-- C13, witness: a preset whose second entry names a missing control fails after the
two writes of its first entry. -/
theorem set_route_by_array_unknown_control_witness :
    (set_route_by_array sample_mixer sample_route_missing 1).1 = -EINVAL ∧
    (set_route_by_array sample_mixer [⟨MIXER_HEADSET_PLAYBACK_VOLUME, 5, none⟩] 1).1 = 0 ∧
    (set_route_by_array sample_mixer sample_route_missing 1).2 =
      (set_route_by_array sample_mixer [⟨MIXER_HEADSET_PLAYBACK_VOLUME, 5, none⟩] 1).2 ∧
    (set_route_by_array sample_mixer sample_route_missing 1).2 =
      route_writes sample_mixer [⟨MIXER_HEADSET_PLAYBACK_VOLUME, 5, none⟩]
        (decide ((1 : Int) ≠ 0)) :=
  (set_route_by_array_unknown_control sample_mixer sample_route_missing 1).2.2
    [⟨MIXER_HEADSET_PLAYBACK_VOLUME, 5, none⟩] ⟨"No Such Control", 1, none⟩
    [⟨MIXER_HEADSETR_AUDIO_R2, 1, none⟩] rfl (by decide) (by decide)

/-! ## Reading with a successful transport read -/

theorem store_bytes_exact (buffer data : List Nat) (bytes : Nat)
    (hlen : bytes ≤ buffer.length) (hdata : data.length = bytes) :
    store_bytes buffer data bytes = data ++ buffer.drop bytes := by
  have hmin : min bytes buffer.length = bytes := Nat.min_eq_left hlen
  have htake : data.take bytes = data := by
    rw [← hdata]
    exact List.take_length data
  simp only [store_bytes, hmin, htake, hdata]

/-- C15, as the code has it: when the stream is active or its transport opens, and
`pcm_read` returns 0, `in_read` returns and leaves the stream active; with the mic-mute
flag set each of the first `bytes` bytes of the buffer is zero, with the flag clear the
first `bytes` bytes are exactly the bytes the transport delivered (and the rest of the
buffer is untouched).  The value returned is `bytes` converted to the 32-bit `ssize_t`:
`bytes` itself below 2^31, and `bytes - 2^32` from there on. -/
theorem in_read_success (adev : omap3_audio_device) (inp : omap3_stream_in)
    (buffer : List Nat) (bytes : Nat) (a : InAttempt)
    (hlen : bytes ≤ buffer.length) (hdata : a.data.length = bytes)
    (hopen : inp.standby = 0 ∨ a.open_ready = true) (hret : a.read_ret = 0) :
    ∃ r, in_read adev inp buffer bytes a = some r ∧
      r.ret = size_t_to_ssize_t bytes ∧
      (bytes < 2 ^ 31 → r.ret = (bytes : Int)) ∧
      (2 ^ 31 ≤ bytes → bytes < 2 ^ 32 → r.ret = (bytes : Int) - 2 ^ 32) ∧
      r.inp.standby = 0 ∧
      r.buffer.length = buffer.length ∧
      (adev.mic_mute = true → ∀ i, i < bytes → r.buffer[i]? = some 0) ∧
      (adev.mic_mute = false →
        r.buffer = a.data ++ buffer.drop bytes ∧ r.buffer.take bytes = a.data) := by
  have hst := store_bytes_exact buffer a.data bytes hlen hdata
  have hlen2 : bytes ≤ (store_bytes buffer a.data bytes).length := by
    rw [store_bytes_length]; exact hlen
  have htake : (a.data ++ buffer.drop bytes).take bytes = a.data := by
    rw [← hdata]
    exact List.take_left' rfl
  have hnneg : ¬ a.read_ret < 0 := by omega
  have hstandby : (in_read_started adev inp).2.1.standby = 0 := by
    unfold in_read_started
    split_ifs with hs
    · rfl
    · exact not_not.mp hs
  refine ⟨_, in_read_ok_eq adev inp buffer bytes a hopen hnneg, by with_reducible rfl,
    by with_reducible exact size_t_to_ssize_t_small bytes,
      by with_reducible exact size_t_to_ssize_t_large bytes, hstandby, ?_, ?_, ?_⟩
  · show (if a.read_ret = 0 ∧ adev.mic_mute = true then
        memset_zero (store_bytes buffer a.data bytes) bytes
      else store_bytes buffer a.data bytes).length = buffer.length
    split_ifs
    · rw [memset_zero_length, store_bytes_length]
    · rw [store_bytes_length]
  · intro hm i hi
    show (if a.read_ret = 0 ∧ adev.mic_mute = true then
        memset_zero (store_bytes buffer a.data bytes) bytes
      else store_bytes buffer a.data bytes)[i]? = some 0
    rw [if_pos ⟨hret, hm⟩]
    exact memset_zero_getElem? _ _ _ hlen2 hi
  · intro hm
    have hif : (if a.read_ret = 0 ∧ adev.mic_mute = true then
        memset_zero (store_bytes buffer a.data bytes) bytes
      else store_bytes buffer a.data bytes) = a.data ++ buffer.drop bytes := by
      rw [if_neg (by simp [hm]), hst]
    exact ⟨hif, by
      show (if a.read_ret = 0 ∧ adev.mic_mute = true then
        memset_zero (store_bytes buffer a.data bytes) bytes
      else store_bytes buffer a.data bytes).take bytes = a.data
      rw [hif, htake]⟩

/-! ## Explicit form of a pass of `out_write` -/

theorem start_output_stream_ready (adev : omap3_audio_device) (out : omap3_stream_out) :
    (start_output_stream adev out true).ret = 0 ∧
    (start_output_stream adev out true).adev = { adev with active_output := some out.addr } ∧
    (start_output_stream adev out true).out.addr = out.addr ∧
    (start_output_stream adev out true).out.standby = out.standby ∧
    opens (start_output_stream adev out true).events = 1 := by
  refine ⟨rfl, rfl, rfl, rfl, ?_⟩
  simp [start_output_stream, opens_append, opens_cons, opens_nil, Event.is_pcm_open,
    opens_select_output_device]

theorem start_output_stream_not_ready (adev : omap3_audio_device)
    (out : omap3_stream_out) :
    (start_output_stream adev out false).ret = -ENOMEM ∧
    (start_output_stream adev out false).adev = { adev with active_output := none } ∧
    (start_output_stream adev out false).out.addr = out.addr ∧
    (start_output_stream adev out false).out.standby = out.standby ∧
    opens (start_output_stream adev out false).events = 1 := by
  refine ⟨rfl, rfl, rfl, rfl, ?_⟩
  simp [start_output_stream, opens_append, opens_cons, opens_nil, Event.is_pcm_open,
    opens_select_output_device]

/-- A pass on an active stream whose pacing loop ends, in full. -/
theorem out_write_pass_active_eq (adev : omap3_audio_device) (out : omap3_stream_out)
    (bytes : Nat) (a : OutAttempt) (ev : List Event) (hs : out.standby = 0)
    (hp : out_write_pace out.write_threshold a.buffer_size a.polls = some ev) :
    out_write_pass adev out bytes a = some
      { ret := a.write_ret
        adev := adev
        out := out
        events :=
          [Event.mutex_lock Mutex.adev, Event.mutex_lock (Mutex.stream_out out.addr),
           Event.mutex_unlock Mutex.adev] ++ ev ++ out_write_tail out bytes a.write_ret } := by
  simp only [out_write_pass, out_write_body, hs, ne_eq, not_true_eq_false, if_false,
    false_and, hp, out_write_tail, out_write_sleep]
  simp

/-- A pass that starts in standby, opens the transport and whose pacing loop ends, in
full. -/
theorem out_write_pass_started_eq (adev : omap3_audio_device) (out : omap3_stream_out)
    (bytes : Nat) (a : OutAttempt) (ev : List Event) (hs : out.standby ≠ 0)
    (ho : a.open_ready = true)
    (hp : out_write_pace ((PLAYBACK_PERIOD_COUNT * LONG_PERIOD_SIZE : Nat) : Int)
      a.buffer_size a.polls = some ev) :
    out_write_pass adev out bytes a = some
      { ret := a.write_ret
        adev := (start_output_stream adev out true).adev
        out := { (start_output_stream adev out true).out with standby := 0 }
        events :=
          [Event.mutex_lock Mutex.adev, Event.mutex_lock (Mutex.stream_out out.addr)] ++
          (start_output_stream adev out true).events ++
          [Event.mutex_unlock Mutex.adev] ++ ev ++ out_write_tail out bytes a.write_ret } := by
  have hwt : (start_output_stream adev out true).out.write_threshold =
      ((PLAYBACK_PERIOD_COUNT * LONG_PERIOD_SIZE : Nat) : Int) := rfl
  have hret : (start_output_stream adev out true).ret = 0 := rfl
  simp only [out_write_pass, out_write_body, hs, ho, ne_eq, not_false_eq_true, if_true,
    hret, not_true_eq_false, and_false, if_false, hwt, hp, out_write_tail, out_write_sleep]
  simp

/-- A pass that starts in standby and whose open fails, in full. -/
theorem out_write_pass_open_fails_eq (adev : omap3_audio_device) (out : omap3_stream_out)
    (bytes : Nat) (a : OutAttempt) (hs : out.standby ≠ 0) (ho : a.open_ready = false) :
    out_write_pass adev out bytes a = some
      { ret := -ENOMEM
        adev := (start_output_stream adev out false).adev
        out := (start_output_stream adev out false).out
        events :=
          [Event.mutex_lock Mutex.adev, Event.mutex_lock (Mutex.stream_out out.addr)] ++
          (start_output_stream adev out false).events ++
          [Event.mutex_unlock Mutex.adev, Event.mutex_unlock (Mutex.stream_out out.addr)] } := by
  have hret : (start_output_stream adev out false).ret = -ENOMEM := rfl
  have hne : -ENOMEM ≠ (0 : Int) := by decide
  have hgt : ¬ (-ENOMEM > (0 : Int)) := by decide
  simp only [out_write_pass, out_write_body, hs, ho, ne_eq, not_false_eq_true, if_true,
    hret, hne, and_self, hgt, if_false]
  simp

/-! ## Standby to active -/

theorem opens_out_write_tail (out : omap3_stream_out) (bytes : Nat) (ret : Int) :
    opens (out_write_tail out bytes ret) = 0 := by
  unfold out_write_tail
  split_ifs <;> rfl

theorem paces_standby (out : omap3_stream_out) (a : OutAttempt) (hs : out.standby ≠ 0)
    (h : paces out a) :
    ∃ ev, out_write_pace ((PLAYBACK_PERIOD_COUNT * LONG_PERIOD_SIZE : Nat) : Int)
      a.buffer_size a.polls = some ev :=
  Option.isSome_iff_exists.mp h.2

theorem paces_active (out : omap3_stream_out) (a : OutAttempt) (hs : out.standby = 0)
    (h : paces out a) :
    ∃ ev, out_write_pace out.write_threshold a.buffer_size a.polls = some ev := by
  have h1 := h.1
  simp only [pass_threshold, hs, ne_eq, not_true_eq_false, if_false] at h1
  exact Option.isSome_iff_exists.mp h1

/-- C11, as the code has it: from standby, an `out_write` whose open succeeds and whose
transfer does not underrun returns after exactly one `pcm_open`, with the stream active
and the active-output reference on this stream; from standby, an `out_write` whose open
fails returns with the stream still in standby and the reference null; on an active
stream an `out_write` whose transfer does not underrun makes no `pcm_open`.  In
general a returned call has made one `pcm_open` per underrun, and one more when it
started in standby. -/
theorem out_write_standby_to_active (adev : omap3_audio_device) (out : omap3_stream_out)
    (bytes : Nat) (a : OutAttempt) (rest : List OutAttempt) :
    (out.standby ≠ 0 → a.open_ready = true → paces out a → a.write_ret ≠ -EPIPE →
      ∃ r, out_write adev out bytes (a :: rest) = some r ∧ opens r.events = 1 ∧
        r.out.standby = 0 ∧ r.out.addr = out.addr ∧
        r.adev.active_output = some out.addr) ∧
    (out.standby ≠ 0 → a.open_ready = false →
      ∃ r, out_write adev out bytes (a :: rest) = some r ∧ r.out.standby = out.standby ∧
        r.out.addr = out.addr ∧ r.adev.active_output = none ∧ opens r.events = 1) ∧
    (out.standby = 0 → paces out a → a.write_ret ≠ -EPIPE →
      ∃ r, out_write adev out bytes (a :: rest) = some r ∧ opens r.events = 0 ∧
        r.out = out ∧ r.adev = adev) ∧
    (∀ r, out_write adev out bytes (a :: rest) = some r →
      opens r.events = (if out.standby ≠ 0 then 1 else 0) + underruns r.events) := by
  refine ⟨?_, ?_, ?_, fun r h => out_write_opens _ adev out bytes r h⟩
  · intro hs ho hp hw
    obtain ⟨ev, hev⟩ := paces_standby out a hs hp
    have hpass := out_write_pass_started_eq adev out bytes a ev hs ho hev
    refine ⟨_, by rw [out_write_cons adev out bytes a rest _ hpass, if_neg hw], ?_, rfl, rfl,
      rfl⟩
    simp only [opens_append, opens_cons, opens_nil, Event.is_pcm_open,
      (start_output_stream_ready adev out).2.2.2.2, opens_out_write_tail,
      opens_pace _ _ _ _ hev]
    simp
  · intro hs ho
    have hpass := out_write_pass_open_fails_eq adev out bytes a hs ho
    have hne : (-ENOMEM : Int) ≠ -EPIPE := by decide
    refine ⟨_, by rw [out_write_cons adev out bytes a rest _ hpass, if_neg hne], rfl, rfl,
      rfl, ?_⟩
    simp only [opens_append, opens_cons, opens_nil, Event.is_pcm_open,
      (start_output_stream_not_ready adev out).2.2.2.2]
    simp
  · intro hs hp hw
    obtain ⟨ev, hev⟩ := paces_active out a hs hp
    have hpass := out_write_pass_active_eq adev out bytes a ev hs hev
    refine ⟨_, by rw [out_write_cons adev out bytes a rest _ hpass, if_neg hw], ?_, rfl,
      rfl⟩
    simp only [opens_append, opens_cons, opens_nil, Event.is_pcm_open,
      opens_out_write_tail, opens_pace _ _ _ _ hev]
    simp

/-- C11, witness: the first write on a fresh stream opens the transport once and
leaves the stream active and referenced by the device. -/
theorem out_write_standby_to_active_witness :
    ∃ r, out_write sample_adev sample_out 4096 (attempt_ok :: []) = some r ∧
      opens r.events = 1 ∧ r.out.standby = 0 ∧ r.out.addr = sample_out.addr ∧
      r.adev.active_output = some sample_out.addr :=
  (out_write_standby_to_active sample_adev sample_out 4096 attempt_ok []).1
    (by decide) rfl (by decide) (by decide)

/-- C11, counterexample: a write on an active stream whose transfer underruns and whose
retry succeeds has made one `pcm_open`. -/
theorem out_write_active_underrun_opens :
    sample_out_active.standby = 0 ∧
    Option.map (fun r => (opens r.events, underruns r.events))
      (out_write sample_adev_active sample_out_active 4096
        [attempt_underrun, attempt_ok]) = some (1, 1) := by
  decide

/-! ## Route failures and the write path -/

theorem mem_out_write_tail (out : omap3_stream_out) (bytes : Nat) (ret : Int) :
    Event.pcm_mmap_write (u32 (bytes / out_frame_size * out_frame_size)) ret ∈
      out_write_tail out bytes ret := by
  simp [out_write_tail]

/-- C17, as the code has it: `select_output_device` and `select_input_device` keep the
writes of `set_route_by_array` and drop its status, which is `-EINVAL` exactly when the
preset names a missing control; an `out_write` from standby whose route selection
fails this way goes on as with a successful one: it opens the transport once, makes
the transfer and returns `bytes` converted to the 32-bit `ssize_t` (`bytes` itself when
it is below 2^31), with the stream active, its transport open, and referenced by the
device. -/
theorem out_write_ignores_route_status (adev : omap3_audio_device)
    (out : omap3_stream_out) (bytes : Nat) (a : OutAttempt) (rest : List OutAttempt) :
    select_output_device adev =
      (set_route_by_array adev.mixer speaker
        ((adev.devices &&& AUDIO_DEVICE_OUT_SPEAKER : Nat) : Int)).2 ∧
    select_input_device adev =
      (set_route_by_array adev.mixer builtin_mic
        ((adev.devices &&& AUDIO_DEVICE_IN_BUILTIN_MIC : Nat) : Int)).2 ∧
    ((set_route_by_array adev.mixer speaker
        ((adev.devices &&& AUDIO_DEVICE_OUT_SPEAKER : Nat) : Int)).1 = -EINVAL ↔
      ∃ r ∈ speaker, mixer_get_ctl_by_name adev.mixer r.ctl_name = none) ∧
    (out.standby ≠ 0 →
      (set_route_by_array adev.mixer speaker
        ((adev.devices &&& AUDIO_DEVICE_OUT_SPEAKER : Nat) : Int)).1 = -EINVAL →
      a.open_ready = true → paces out a → a.write_ret ≠ -EPIPE →
      ∃ r, out_write adev out bytes (a :: rest) = some r ∧
        r.ret = size_t_to_ssize_t bytes ∧ (bytes < 2 ^ 31 → r.ret = (bytes : Int)) ∧
        r.out.standby = 0 ∧ out_transport_open r.out = true ∧
        r.adev.active_output = some out.addr ∧ opens r.events = 1 ∧
        Event.pcm_mmap_write (u32 (bytes / out_frame_size * out_frame_size)) a.write_ret ∈
          r.events) := by
  refine ⟨rfl, rfl, (set_route_by_array_status _ _ _).2, ?_⟩
  intro hs _ ho hp hw
  obtain ⟨ev, hev⟩ := paces_standby out a hs hp
  have hpass := out_write_pass_started_eq adev out bytes a ev hs ho hev
  have hout := out_write_cons adev out bytes a rest _ hpass
  rw [if_neg hw] at hout
  refine ⟨_, hout, by with_reducible rfl,
    by with_reducible exact size_t_to_ssize_t_small bytes, rfl, rfl, rfl, ?_, ?_⟩
  · simp only [opens_append, opens_cons, opens_nil, Event.is_pcm_open,
      (start_output_stream_ready adev out).2.2.2.2, opens_out_write_tail,
      opens_pace _ _ _ _ hev]
    simp
  · exact List.mem_append_right _ (mem_out_write_tail out bytes a.write_ret)

/-- C17, witness: on a control surface without any control the speaker route fails and
the first write on a fresh stream still opens the transport and transfers. -/
theorem out_write_ignores_route_status_witness :
    (set_route_by_array [] speaker
      ((sample_adev.devices &&& AUDIO_DEVICE_OUT_SPEAKER : Nat) : Int)).1 = -EINVAL ∧
    ∃ r, out_write { sample_adev with mixer := [] } sample_out 4096 (attempt_ok :: []) =
        some r ∧ r.ret = 4096 ∧
      r.out.standby = 0 ∧ out_transport_open r.out = true ∧
      r.adev.active_output = some 4096 ∧ opens r.events = 1 ∧
      Event.pcm_mmap_write 4096 0 ∈ r.events := by
  refine ⟨by decide, ?_⟩
  obtain ⟨r, hr, _, hsmall, hst, hopen, hact, hopens, hmem⟩ :=
    (out_write_ignores_route_status { sample_adev with mixer := [] } sample_out 4096
      attempt_ok []).2.2.2 (by decide) (by decide) rfl (by decide) (by decide)
  have h4 : u32 (4096 / out_frame_size * out_frame_size) = 4096 := by decide
  rw [h4] at hmem
  exact ⟨r, hr, hsmall (by decide), hst, hopen, hact, hopens, hmem⟩

/-- C17, counterexample: with no control on the surface `set_route_by_array` fails on
the speaker preset, `select_output_device` yields nothing, and the write ends in the
same stream state, with the same status, as on a surface that has every control. -/
theorem out_write_route_failure_goes_on :
    (set_route_by_array [] speaker 2).1 = -EINVAL ∧
    select_output_device { sample_adev with mixer := [] } = [] ∧
    Option.map (fun r => (r.ret, r.out, r.adev.active_output, opens r.events))
      (out_write { sample_adev with mixer := [] } sample_out 4096 [attempt_ok]) =
      some (4096, sample_out_active, some 4096, 1) ∧
    Option.map (fun r => (r.ret, r.out, r.adev.active_output, opens r.events))
      (out_write sample_adev sample_out 4096 [attempt_ok]) =
      some (4096, sample_out_active, some 4096, 1) := by
  decide

/-! ## Thresholds and pacing -/

/-- What a completed pass of `out_write` does to the identity of the stream and to the
references of the device. -/
theorem out_write_pass_refs (adev : omap3_audio_device) (out : omap3_stream_out)
    (bytes : Nat) (a : OutAttempt) (r : OutResult)
    (h : out_write_pass adev out bytes a = some r) :
    r.out.addr = out.addr ∧ r.adev.active_input = adev.active_input ∧
    ((r.ret ≠ -EPIPE ∧ r.adev.active_output = none) ∨
      (r.out.standby = 0 ∧ r.adev.active_output = some out.addr) ∨
      (r.out.standby = 0 ∧ r.adev.active_output = adev.active_output)) := by
  by_cases hf : out.standby ≠ 0 ∧ a.open_ready = false
  · rw [out_write_pass_open_fails_eq adev out bytes a hf.1 hf.2] at h
    cases h
    have hne : (-ENOMEM : Int) ≠ -EPIPE := by decide
    exact ⟨rfl, rfl, Or.inl ⟨hne, rfl⟩⟩
  · have ho : out.standby = 0 ∨ a.open_ready = true := by
      by_cases hs : out.standby = 0
      · exact Or.inl hs
      · right
        cases hb : a.open_ready
        · exact absurd ⟨hs, hb⟩ hf
        · rfl
    cases hp : out_write_pace (pass_threshold out) a.buffer_size a.polls with
    | none =>
      rw [out_write_pass_unanswered adev out bytes a ho hp] at h
      exact absurd h (by simp)
    | some ev =>
      by_cases hs : out.standby = 0
      · simp only [pass_threshold, hs, ne_eq, not_true_eq_false, if_false] at hp
        rw [out_write_pass_active_eq adev out bytes a ev hs hp] at h
        cases h
        exact ⟨rfl, rfl, Or.inr (Or.inr ⟨hs, rfl⟩)⟩
      · have hor : a.open_ready = true := by
          rcases ho with h1 | h1
          · exact absurd h1 hs
          · exact h1
        simp only [pass_threshold, hs, ne_eq, not_false_eq_true, if_true] at hp
        rw [out_write_pass_started_eq adev out bytes a ev hs hor hp] at h
        cases h
        exact ⟨rfl, rfl, Or.inr (Or.inl ⟨rfl, rfl⟩)⟩

/-- What a returned `out_write` does to the identity of the stream and to the
references of the device: the stream keeps its address, the active-input reference is
untouched, and the active-output reference is null, or names this stream, which is
active, or is unchanged with this stream active. -/
theorem out_write_refs (script : List OutAttempt) (adev : omap3_audio_device)
    (out : omap3_stream_out) (bytes : Nat) (r : OutResult)
    (h : out_write adev out bytes script = some r) :
    r.out.addr = out.addr ∧ r.adev.active_input = adev.active_input ∧
    (r.adev.active_output = none ∨
      (r.out.standby = 0 ∧ r.adev.active_output = some out.addr) ∨
      (r.out.standby = 0 ∧ r.adev.active_output = adev.active_output)) := by
  induction script generalizing adev out r with
  | nil => simp [out_write] at h
  | cons a script ih =>
    cases hp : out_write_pass adev out bytes a with
    | none => simp [out_write, hp] at h
    | some r1 =>
      obtain ⟨haddr, hin, hcases⟩ := out_write_pass_refs adev out bytes a r1 hp
      rw [out_write_cons adev out bytes a script r1 hp] at h
      by_cases he : r1.ret = -EPIPE
      · rw [if_pos he] at h
        cases h2 : out_write (do_output_standby r1.adev r1.out).adev
            (do_output_standby r1.adev r1.out).out bytes script with
        | none => simp [h2] at h
        | some r2 =>
          rw [h2] at h
          simp only [Option.map_some', Option.some.injEq] at h
          subst h
          obtain ⟨haddr2, hin2, hcases2⟩ := ih _ _ r2 h2
          have hst : r1.out.standby = 0 := by
            rcases hcases with hc | hc | hc
            · exact absurd he hc.1
            · exact hc.1
            · exact hc.1
          obtain ⟨_, _, hsaddr, hsout, _⟩ := do_output_standby_active r1.adev r1.out hst
          have hsin : (do_output_standby r1.adev r1.out).adev.active_input =
              r1.adev.active_input := by
            simp [do_output_standby, hst]
          refine ⟨?_, ?_, ?_⟩
          · show r2.out.addr = out.addr
            rw [haddr2, hsaddr, haddr]
          · show r2.adev.active_input = adev.active_input
            rw [hin2, hsin, hin]
          · show r2.adev.active_output = none ∨
              (r2.out.standby = 0 ∧ r2.adev.active_output = some out.addr) ∨
              (r2.out.standby = 0 ∧ r2.adev.active_output = adev.active_output)
            rcases hcases2 with hc | hc | hc
            · exact Or.inl hc
            · right; left
              rw [hsaddr, haddr] at hc
              exact hc
            · left
              rw [hc.2, hsout]
      · rw [if_neg he] at h
        simp only [Option.some.injEq] at h
        subst h
        refine ⟨haddr, hin, ?_⟩
        rcases hcases with hc | hc | hc
        · exact Or.inl hc.2
        · exact Or.inr (Or.inl hc)
        · exact Or.inr (Or.inr hc)

/-- The capture fails or it does not: the cases of `in_read`. -/
theorem in_read_cases (inp : omap3_stream_in) (a : InAttempt) :
    (inp.standby ≠ 0 ∧ a.open_ready = false) ∨
    ((inp.standby = 0 ∨ a.open_ready = true) ∧ a.read_ret < 0) ∨
    ((inp.standby = 0 ∨ a.open_ready = true) ∧ ¬ a.read_ret < 0) := by
  by_cases hs : inp.standby = 0
  · by_cases hr : a.read_ret < 0
    · exact Or.inr (Or.inl ⟨Or.inl hs, hr⟩)
    · exact Or.inr (Or.inr ⟨Or.inl hs, hr⟩)
  · cases ho : a.open_ready
    · exact Or.inl ⟨hs, rfl⟩
    · by_cases hr : a.read_ret < 0
      · exact Or.inr (Or.inl ⟨Or.inr rfl, hr⟩)
      · exact Or.inr (Or.inr ⟨Or.inr rfl, hr⟩)

/-- The sleep of the failure path divides by the requested rate: with a rate of zero a
failed capture has no defined result. -/
theorem in_read_rate_zero (adev : omap3_audio_device) (inp : omap3_stream_in)
    (buffer : List Nat) (bytes : Nat) (a : InAttempt) (hfail : in_read_fails inp a)
    (hrate : inp.requested_rate = 0) : in_read adev inp buffer bytes a = none := by
  rcases hfail with ⟨hs, ho⟩ | ⟨ho, hr⟩
  · have hne : -ENOMEM ≠ (0 : Int) := by decide
    have hlt : -ENOMEM < (0 : Int) := by decide
    simp [in_read, start_input_stream, hs, ho, hne, hlt, in_get_sample_rate, hrate]
  · have hr0 : a.read_ret ≠ 0 := by omega
    by_cases hs : inp.standby = 0
    · simp [in_read, hs, hr, hr0, in_get_sample_rate, hrate]
    · have hor : a.open_ready = true := by
        rcases ho with h | h
        · exact absurd h hs
        · exact h
      simp [in_read, start_input_stream, hs, hor, hr, hr0, in_get_sample_rate, hrate]

/-- A returned `in_read` is one of three explicit results: the open failed, the
transport read failed, or the transport read was made without a failure. -/
theorem in_read_some (adev : omap3_audio_device) (inp : omap3_stream_in)
    (buffer : List Nat) (bytes : Nat) (a : InAttempt) (r : InResult)
    (h : in_read adev inp buffer bytes a = some r) :
    (inp.standby ≠ 0 ∧ a.open_ready = false ∧ inp.requested_rate ≠ 0 ∧
      r.adev = { adev with active_input := none } ∧
      r.inp = { inp with pcm := some ⟨PCM_IN, inp.config, false⟩ } ∧
      r.events =
        [Event.mutex_lock Mutex.adev, Event.mutex_lock (Mutex.stream_in inp.addr),
         Event.pcm_open CARD_OMAP3_DEFAULT PORT_OMAP3 PCM_IN inp.config,
         Event.pcm_close (some ⟨PCM_IN, inp.config, false⟩),
         Event.mutex_unlock Mutex.adev,
         Event.usleep (u32 (bytes * 1000000) / in_frame_size inp / inp.requested_rate),
         Event.mutex_unlock (Mutex.stream_in inp.addr)]) ∨
    ((inp.standby = 0 ∨ a.open_ready = true) ∧ a.read_ret < 0 ∧ inp.requested_rate ≠ 0 ∧
      r.adev = (in_read_started adev inp).1 ∧ r.inp = (in_read_started adev inp).2.1 ∧
      r.events =
        [Event.mutex_lock Mutex.adev, Event.mutex_lock (Mutex.stream_in inp.addr)] ++
        (in_read_started adev inp).2.2 ++
        [Event.mutex_unlock Mutex.adev, Event.pcm_read bytes a.read_ret,
         Event.usleep (u32 (bytes * 1000000) / in_frame_size inp / inp.requested_rate),
         Event.mutex_unlock (Mutex.stream_in inp.addr)]) ∨
    ((inp.standby = 0 ∨ a.open_ready = true) ∧ ¬ a.read_ret < 0 ∧
      r.adev = (in_read_started adev inp).1 ∧ r.inp = (in_read_started adev inp).2.1 ∧
      r.events =
        [Event.mutex_lock Mutex.adev, Event.mutex_lock (Mutex.stream_in inp.addr)] ++
        (in_read_started adev inp).2.2 ++
        [Event.mutex_unlock Mutex.adev, Event.pcm_read bytes a.read_ret,
         Event.mutex_unlock (Mutex.stream_in inp.addr)]) := by
  rcases in_read_cases inp a with ⟨hs, ho⟩ | ⟨ho, hr⟩ | ⟨ho, hr⟩
  · by_cases hrate : inp.requested_rate = 0
    · rw [in_read_rate_zero adev inp buffer bytes a (Or.inl ⟨hs, ho⟩) hrate] at h
      exact absurd h (by simp)
    · rw [in_read_open_fails_eq adev inp buffer bytes a hs ho hrate] at h
      simp only [Option.some.injEq] at h
      subst h
      exact Or.inl ⟨hs, ho, hrate, rfl, rfl, rfl⟩
  · by_cases hrate : inp.requested_rate = 0
    · rw [in_read_rate_zero adev inp buffer bytes a (Or.inr ⟨ho, hr⟩) hrate] at h
      exact absurd h (by simp)
    · rw [in_read_read_fails_eq adev inp buffer bytes a ho hr hrate] at h
      simp only [Option.some.injEq] at h
      subst h
      exact Or.inr (Or.inl ⟨ho, hr, hrate, rfl, rfl, rfl⟩)
  · rw [in_read_ok_eq adev inp buffer bytes a ho hr] at h
    simp only [Option.some.injEq] at h
    subst h
    exact Or.inr (Or.inr ⟨ho, hr, rfl, rfl, rfl⟩)

/-- What a returned `in_read` does to the identity of the stream and to the references
of the device. -/
theorem in_read_refs (adev : omap3_audio_device) (inp : omap3_stream_in)
    (buffer : List Nat) (bytes : Nat) (a : InAttempt) (r : InResult)
    (h : in_read adev inp buffer bytes a = some r) :
    r.inp.addr = inp.addr ∧
    r.adev.active_output = adev.active_output ∧
    (r.adev.active_input = none ∨
      (r.inp.standby = 0 ∧ r.adev.active_input = some inp.addr) ∨
      (r.inp.standby = 0 ∧ r.adev.active_input = adev.active_input)) := by
  have hstarted : (in_read_started adev inp).2.1.addr = inp.addr ∧
      (in_read_started adev inp).1.active_output = adev.active_output ∧
      (((in_read_started adev inp).2.1.standby = 0 ∧
        (in_read_started adev inp).1.active_input = some inp.addr) ∨
      ((in_read_started adev inp).2.1.standby = 0 ∧
        (in_read_started adev inp).1.active_input = adev.active_input)) := by
    unfold in_read_started
    split_ifs with hs
    · exact ⟨rfl, rfl, Or.inl ⟨rfl, rfl⟩⟩
    · exact ⟨rfl, rfl, Or.inr ⟨not_not.mp hs, rfl⟩⟩
  rcases in_read_some adev inp buffer bytes a r h with
    ⟨_, _, _, hadev, hinp, _⟩ | ⟨_, _, _, hadev, hinp, _⟩ | ⟨_, _, hadev, hinp, _⟩
  · rw [hadev, hinp]
    exact ⟨rfl, rfl, Or.inl rfl⟩
  · rw [hadev, hinp]
    exact ⟨hstarted.1, hstarted.2.1, Or.inr hstarted.2.2⟩
  · rw [hadev, hinp]
    exact ⟨hstarted.1, hstarted.2.1, Or.inr hstarted.2.2⟩

theorem out_standby_refs (adev : omap3_audio_device) (out : omap3_stream_out) :
    (out_standby adev out).out.addr = out.addr ∧
    (out_standby adev out).adev.active_input = adev.active_input ∧
    (out_standby adev out).out.standby ≠ 0 ∧
    ((out_standby adev out).adev.active_output = none ∨
      (out.standby ≠ 0 ∧ (out_standby adev out).adev.active_output = adev.active_output)) := by
  by_cases hs : out.standby = 0
  · refine ⟨?_, ?_, ?_, Or.inl ?_⟩ <;> simp [out_standby, do_output_standby, hs]
  · refine ⟨?_, ?_, ?_, Or.inr ⟨hs, ?_⟩⟩ <;> simp [out_standby, do_output_standby, hs]

theorem in_standby_refs (adev : omap3_audio_device) (inp : omap3_stream_in) :
    (in_standby adev inp).2.2.1.addr = inp.addr ∧
    (in_standby adev inp).2.1.active_output = adev.active_output ∧
    (in_standby adev inp).2.2.1.standby ≠ 0 ∧
    ((in_standby adev inp).2.1.active_input = none ∨
      (inp.standby ≠ 0 ∧ (in_standby adev inp).2.1.active_input = adev.active_input)) := by
  by_cases hs : inp.standby = 0
  · refine ⟨?_, ?_, ?_, Or.inl ?_⟩ <;> simp [in_standby, do_input_standby, hs]
  · refine ⟨?_, ?_, ?_, Or.inr ⟨hs, ?_⟩⟩ <;> simp [in_standby, do_input_standby, hs]

theorem store_at_same {α : Type} (h : Nat → Option α) (k : Nat) (v : Option α) :
    store_at h k v k = v := by
  simp [store_at]

theorem store_at_other {α : Type} (h : Nat → Option α) (k : Nat) (v : Option α) (a : Nat)
    (hne : a ≠ k) : store_at h k v a = h a := by
  simp [store_at, hne]

/-- The references stay good when an output stream is replaced by a state of the same
address and the active-output reference is reset, moved to this stream with the stream
active, or kept with the stream active or with the stream in standby before. -/
theorem references_active_update_out (w : World) (hinv : references_active w)
    (stream : Nat) (out out1 : omap3_stream_out) (adev1 : omap3_audio_device)
    (hout : w.outs stream = some out) (haddr : out1.addr = out.addr)
    (hin : adev1.active_input = w.adev.active_input)
    (hcases : adev1.active_output = none ∨
      (out1.standby = 0 ∧ adev1.active_output = some out.addr) ∨
      (out1.standby = 0 ∧ adev1.active_output = w.adev.active_output) ∨
      (out.standby ≠ 0 ∧ adev1.active_output = w.adev.active_output)) :
    references_active
      { w with adev := adev1, outs := store_at w.outs stream (some out1) } := by
  obtain ⟨h1, h2, h3, h4⟩ := hinv
  have hstream : out.addr = stream := h3 stream out hout
  refine ⟨?_, ?_, ?_, h4⟩
  · intro a ha
    show ∃ s, store_at w.outs stream (some out1) a = some s ∧ s.standby = 0
    have ha1 : adev1.active_output = some a := ha
    rcases hcases with hc | hc | hc | hc
    · rw [hc] at ha1
      exact absurd ha1 (by simp)
    · rw [hc.2, hstream] at ha1
      cases ha1
      exact ⟨out1, store_at_same _ _ _, hc.1⟩
    · rw [hc.2] at ha1
      by_cases hk : a = stream
      · subst hk
        exact ⟨out1, store_at_same _ _ _, hc.1⟩
      · obtain ⟨s, hs, hst⟩ := h1 a ha1
        exact ⟨s, by rw [store_at_other _ _ _ _ hk]; exact hs, hst⟩
    · rw [hc.2] at ha1
      obtain ⟨s, hs, hst⟩ := h1 a ha1
      have hk : a ≠ stream := by
        intro hk
        subst hk
        rw [hout] at hs
        cases hs
        exact hc.1 hst
      exact ⟨s, by rw [store_at_other _ _ _ _ hk]; exact hs, hst⟩
  · intro a ha
    have ha1 : adev1.active_input = some a := ha
    rw [hin] at ha1
    exact h2 a ha1
  · intro a s hs
    have hs1 : store_at w.outs stream (some out1) a = some s := hs
    by_cases hk : a = stream
    · subst hk
      rw [store_at_same] at hs1
      cases hs1
      rw [haddr, hstream]
    · rw [store_at_other _ _ _ _ hk] at hs1
      exact h3 a s hs1

/-- The references stay good when an output stream is removed after its standby. -/
theorem references_active_remove_out (w : World) (hinv : references_active w)
    (stream : Nat) (out : omap3_stream_out) (adev1 : omap3_audio_device)
    (hout : w.outs stream = some out)
    (hin : adev1.active_input = w.adev.active_input)
    (hcases : adev1.active_output = none ∨
      (out.standby ≠ 0 ∧ adev1.active_output = w.adev.active_output)) :
    references_active
      { w with adev := adev1, outs := store_at w.outs stream none } := by
  obtain ⟨h1, h2, h3, h4⟩ := hinv
  refine ⟨?_, ?_, ?_, h4⟩
  · intro a ha
    show ∃ s, store_at w.outs stream none a = some s ∧ s.standby = 0
    have ha1 : adev1.active_output = some a := ha
    rcases hcases with hc | hc
    · rw [hc] at ha1
      exact absurd ha1 (by simp)
    · rw [hc.2] at ha1
      obtain ⟨s, hs, hst⟩ := h1 a ha1
      have hk : a ≠ stream := by
        intro hk
        subst hk
        rw [hout] at hs
        cases hs
        exact hc.1 hst
      exact ⟨s, by rw [store_at_other _ _ _ _ hk]; exact hs, hst⟩
  · intro a ha
    have ha1 : adev1.active_input = some a := ha
    rw [hin] at ha1
    exact h2 a ha1
  · intro a s hs
    have hs1 : store_at w.outs stream none a = some s := hs
    by_cases hk : a = stream
    · subst hk
      rw [store_at_same] at hs1
      exact absurd hs1 (by simp)
    · rw [store_at_other _ _ _ _ hk] at hs1
      exact h3 a s hs1

/-- The references stay good when an input stream is replaced by a state of the same
address and the active-input reference is reset, moved to this stream with the stream
active, or kept with the stream active or with the stream in standby before. -/
theorem references_active_update_in (w : World) (hinv : references_active w)
    (stream : Nat) (inp inp1 : omap3_stream_in) (adev1 : omap3_audio_device)
    (hinp : w.ins stream = some inp) (haddr : inp1.addr = inp.addr)
    (hout : adev1.active_output = w.adev.active_output)
    (hcases : adev1.active_input = none ∨
      (inp1.standby = 0 ∧ adev1.active_input = some inp.addr) ∨
      (inp1.standby = 0 ∧ adev1.active_input = w.adev.active_input) ∨
      (inp.standby ≠ 0 ∧ adev1.active_input = w.adev.active_input)) :
    references_active
      { w with adev := adev1, ins := store_at w.ins stream (some inp1) } := by
  obtain ⟨h1, h2, h3, h4⟩ := hinv
  have hstream : inp.addr = stream := h4 stream inp hinp
  refine ⟨?_, ?_, h3, ?_⟩
  · intro a ha
    have ha1 : adev1.active_output = some a := ha
    rw [hout] at ha1
    exact h1 a ha1
  · intro a ha
    show ∃ s, store_at w.ins stream (some inp1) a = some s ∧ s.standby = 0
    have ha1 : adev1.active_input = some a := ha
    rcases hcases with hc | hc | hc | hc
    · rw [hc] at ha1
      exact absurd ha1 (by simp)
    · rw [hc.2, hstream] at ha1
      cases ha1
      exact ⟨inp1, store_at_same _ _ _, hc.1⟩
    · rw [hc.2] at ha1
      by_cases hk : a = stream
      · subst hk
        exact ⟨inp1, store_at_same _ _ _, hc.1⟩
      · obtain ⟨s, hs, hst⟩ := h2 a ha1
        exact ⟨s, by rw [store_at_other _ _ _ _ hk]; exact hs, hst⟩
    · rw [hc.2] at ha1
      obtain ⟨s, hs, hst⟩ := h2 a ha1
      have hk : a ≠ stream := by
        intro hk
        subst hk
        rw [hinp] at hs
        cases hs
        exact hc.1 hst
      exact ⟨s, by rw [store_at_other _ _ _ _ hk]; exact hs, hst⟩
  · intro a s hs
    have hs1 : store_at w.ins stream (some inp1) a = some s := hs
    by_cases hk : a = stream
    · subst hk
      rw [store_at_same] at hs1
      cases hs1
      rw [haddr, hstream]
    · rw [store_at_other _ _ _ _ hk] at hs1
      exact h4 a s hs1

/-- The references stay good when an input stream is removed after its standby. -/
theorem references_active_remove_in (w : World) (hinv : references_active w)
    (stream : Nat) (inp : omap3_stream_in) (adev1 : omap3_audio_device)
    (hinp : w.ins stream = some inp)
    (hout : adev1.active_output = w.adev.active_output)
    (hcases : adev1.active_input = none ∨
      (inp.standby ≠ 0 ∧ adev1.active_input = w.adev.active_input)) :
    references_active
      { w with adev := adev1, ins := store_at w.ins stream none } := by
  obtain ⟨h1, h2, h3, h4⟩ := hinv
  refine ⟨?_, ?_, h3, ?_⟩
  · intro a ha
    have ha1 : adev1.active_output = some a := ha
    rw [hout] at ha1
    exact h1 a ha1
  · intro a ha
    show ∃ s, store_at w.ins stream none a = some s ∧ s.standby = 0
    have ha1 : adev1.active_input = some a := ha
    rcases hcases with hc | hc
    · rw [hc] at ha1
      exact absurd ha1 (by simp)
    · rw [hc.2] at ha1
      obtain ⟨s, hs, hst⟩ := h2 a ha1
      have hk : a ≠ stream := by
        intro hk
        subst hk
        rw [hinp] at hs
        cases hs
        exact hc.1 hst
      exact ⟨s, by rw [store_at_other _ _ _ _ hk]; exact hs, hst⟩
  · intro a s hs
    have hs1 : store_at w.ins stream none a = some s := hs
    by_cases hk : a = stream
    · subst hk
      rw [store_at_same] at hs1
      exact absurd hs1 (by simp)
    · rw [store_at_other _ _ _ _ hk] at hs1
      exact h4 a s hs1

theorem references_active_add_out (w : World) (hinv : references_active w)
    (s : omap3_stream_out) (hfree : w.outs s.addr = none) :
    references_active { w with outs := store_at w.outs s.addr (some s) } := by
  obtain ⟨h1, h2, h3, h4⟩ := hinv
  refine ⟨?_, h2, ?_, h4⟩
  · intro a ha
    obtain ⟨s0, hs0, hst⟩ := h1 a ha
    have hk : a ≠ s.addr := by
      intro hk
      rw [hk, hfree] at hs0
      exact absurd hs0 (by simp)
    have hs1 : store_at w.outs s.addr (some s) a = some s0 := by
      rw [store_at_other _ _ _ _ hk]
      exact hs0
    exact ⟨s0, hs1, hst⟩
  · intro a s1 hs
    have hs1 : store_at w.outs s.addr (some s) a = some s1 := hs
    by_cases hk : a = s.addr
    · rw [hk, store_at_same] at hs1
      cases hs1
      exact hk.symm
    · rw [store_at_other _ _ _ _ hk] at hs1
      exact h3 a s1 hs1

theorem references_active_add_in (w : World) (hinv : references_active w)
    (s : omap3_stream_in) (hfree : w.ins s.addr = none) :
    references_active { w with ins := store_at w.ins s.addr (some s) } := by
  obtain ⟨h1, h2, h3, h4⟩ := hinv
  refine ⟨h1, ?_, h3, ?_⟩
  · intro a ha
    obtain ⟨s0, hs0, hst⟩ := h2 a ha
    have hk : a ≠ s.addr := by
      intro hk
      rw [hk, hfree] at hs0
      exact absurd hs0 (by simp)
    have hs1 : store_at w.ins s.addr (some s) a = some s0 := by
      rw [store_at_other _ _ _ _ hk]
      exact hs0
    exact ⟨s0, hs1, hst⟩
  · intro a s1 hs
    have hs1 : store_at w.ins s.addr (some s) a = some s1 := hs
    by_cases hk : a = s.addr
    · rw [hk, store_at_same] at hs1
      cases hs1
      exact hk.symm
    · rw [store_at_other _ _ _ _ hk] at hs1
      exact h4 a s1 hs1

theorem references_active_fresh (m : mixer) : references_active (fresh_world m) := by
  refine ⟨?_, ?_, ?_, ?_⟩
  · intro a ha
    exact absurd ha (by simp [fresh_world])
  · intro a ha
    exact absurd ha (by simp [fresh_world])
  · intro a s hs
    exact absurd hs (by simp [fresh_world])
  · intro a s hs
    exact absurd hs (by simp [fresh_world])

/-- Every call that returns keeps the references of the device good. -/
theorem step_references_active (w w1 : World) (c : Call) (hinv : references_active w)
    (h : step w c = some w1) : references_active w1 := by
  cases c with
  | open_output_stream devices calloc_res =>
    simp only [step] at h
    cases hs : (adev_open_output_stream devices calloc_res).stream_out with
    | none =>
      simp only [hs, Option.some.injEq] at h
      subst h
      exact hinv
    | some s =>
      simp only [hs] at h
      split_ifs at h with hfree
      simp only [Option.some.injEq] at h
      subst h
      exact references_active_add_out w hinv s (Option.isNone_iff_eq_none.mp hfree.1)
  | open_input_stream devices format channel_mask sample_rate calloc_res malloc_res =>
    simp only [step] at h
    cases hs : (adev_open_input_stream devices format channel_mask sample_rate calloc_res
        malloc_res).stream_in with
    | none =>
      simp only [hs, Option.some.injEq] at h
      subst h
      exact hinv
    | some s =>
      simp only [hs] at h
      split_ifs at h with hfree
      simp only [Option.some.injEq] at h
      subst h
      exact references_active_add_in w hinv s (Option.isNone_iff_eq_none.mp hfree.2)
  | out_write stream bytes script =>
    simp only [step] at h
    cases hout : w.outs stream with
    | none => simp [hout] at h
    | some out =>
      simp only [hout] at h
      cases hr : out_write w.adev out bytes script with
      | none => simp [hr] at h
      | some r =>
        simp only [hr, Option.some.injEq] at h
        subst h
        obtain ⟨haddr, hin, hcases⟩ := out_write_refs script w.adev out bytes r hr
        refine references_active_update_out w hinv stream out r.out r.adev hout haddr hin ?_
        rcases hcases with hc | hc | hc
        · exact Or.inl hc
        · exact Or.inr (Or.inl hc)
        · exact Or.inr (Or.inr (Or.inl hc))
  | in_read stream buffer bytes a =>
    simp only [step] at h
    cases hinp : w.ins stream with
    | none => simp [hinp] at h
    | some inp =>
      simp only [hinp] at h
      cases hr : in_read w.adev inp buffer bytes a with
      | none => simp [hr] at h
      | some r =>
      simp only [hr, Option.some.injEq] at h
      subst h
      obtain ⟨haddr, hout, hcases⟩ := in_read_refs w.adev inp buffer bytes a r hr
      refine references_active_update_in w hinv stream inp _ _ hinp haddr hout ?_
      rcases hcases with hc | hc | hc
      · exact Or.inl hc
      · exact Or.inr (Or.inl hc)
      · exact Or.inr (Or.inr (Or.inl hc))
  | out_standby stream =>
    simp only [step] at h
    cases hout : w.outs stream with
    | none => simp [hout] at h
    | some out =>
      simp only [hout, Option.some.injEq] at h
      subst h
      obtain ⟨haddr, hin, _, hcases⟩ := out_standby_refs w.adev out
      refine references_active_update_out w hinv stream out _ _ hout haddr hin ?_
      rcases hcases with hc | hc
      · exact Or.inl hc
      · exact Or.inr (Or.inr (Or.inr hc))
  | in_standby stream =>
    simp only [step] at h
    cases hinp : w.ins stream with
    | none => simp [hinp] at h
    | some inp =>
      simp only [hinp, Option.some.injEq] at h
      subst h
      obtain ⟨haddr, hout, _, hcases⟩ := in_standby_refs w.adev inp
      refine references_active_update_in w hinv stream inp _ _ hinp haddr hout ?_
      rcases hcases with hc | hc
      · exact Or.inl hc
      · exact Or.inr (Or.inr (Or.inr hc))
  | close_output_stream stream =>
    simp only [step] at h
    cases hout : w.outs stream with
    | none => simp [hout] at h
    | some out =>
      simp only [hout, Option.some.injEq] at h
      subst h
      obtain ⟨_, hin, _, hcases⟩ := out_standby_refs w.adev out
      exact references_active_remove_out w hinv stream out _ hout hin hcases
  | close_input_stream stream =>
    simp only [step] at h
    cases hinp : w.ins stream with
    | none => simp [hinp] at h
    | some inp =>
      simp only [hinp, Option.some.injEq] at h
      subst h
      obtain ⟨_, hout, _, hcases⟩ := in_standby_refs w.adev inp
      exact references_active_remove_in w hinv stream inp _ hinp hout hcases

/-- Every sequence of calls that returns keeps the references of the device good. -/
theorem run_references_active (calls : List Call) (w w1 : World)
    (hinv : references_active w) (h : run w calls = some w1) : references_active w1 := by
  induction calls generalizing w with
  | nil =>
    simp only [run, Option.some.injEq] at h
    subst h
    exact hinv
  | cons c cs ih =>
    simp only [run] at h
    cases hs : step w c with
    | none => simp [hs] at h
    | some w2 =>
      simp only [hs] at h
      exact ih w2 (step_references_active w w2 c hinv hs) h

/-! ## Active streams and open transports -/

/-- A pass of `out_write` keeps a stream active exactly when its transport is open. -/
theorem out_write_pass_open (adev : omap3_audio_device) (out : omap3_stream_out)
    (bytes : Nat) (a : OutAttempt) (r : OutResult)
    (h : out_write_pass adev out bytes a = some r)
    (hinv : out.standby = 0 ↔ out_transport_open out = true) :
    r.out.standby = 0 ↔ out_transport_open r.out = true := by
  by_cases hf : out.standby ≠ 0 ∧ a.open_ready = false
  · rw [out_write_pass_open_fails_eq adev out bytes a hf.1 hf.2] at h
    simp only [Option.some.injEq] at h
    subst h
    show out.standby = 0 ↔ false = true
    simp [hf.1]
  · have ho : out.standby = 0 ∨ a.open_ready = true := by
      by_cases hs : out.standby = 0
      · exact Or.inl hs
      · right
        cases hb : a.open_ready
        · exact absurd ⟨hs, hb⟩ hf
        · rfl
    cases hp : out_write_pace (pass_threshold out) a.buffer_size a.polls with
    | none =>
      rw [out_write_pass_unanswered adev out bytes a ho hp] at h
      exact absurd h (by simp)
    | some ev =>
      by_cases hs : out.standby = 0
      · simp only [pass_threshold, hs, ne_eq, not_true_eq_false, if_false] at hp
        rw [out_write_pass_active_eq adev out bytes a ev hs hp] at h
        simp only [Option.some.injEq] at h
        subst h
        exact hinv
      · have hor : a.open_ready = true := by
          rcases ho with h1 | h1
          · exact absurd h1 hs
          · exact h1
        simp only [pass_threshold, hs, ne_eq, not_false_eq_true, if_true] at hp
        rw [out_write_pass_started_eq adev out bytes a ev hs hor hp] at h
        simp only [Option.some.injEq] at h
        subst h
        exact ⟨fun _ => rfl, fun _ => rfl⟩

theorem do_output_standby_open (adev : omap3_audio_device) (out : omap3_stream_out)
    (hinv : out.standby = 0 ↔ out_transport_open out = true) :
    (do_output_standby adev out).out.standby = 0 ↔
      out_transport_open (do_output_standby adev out).out = true := by
  by_cases hs : out.standby = 0
  · simp [do_output_standby, hs, out_transport_open]
  · have hno : ¬ out_transport_open out = true := fun h => hs (hinv.mpr h)
    have : out_transport_open { out with standby := 1 } = out_transport_open out := rfl
    simp [do_output_standby, hs, this, hno]

/-- A returned `out_write` keeps a stream active exactly when its transport is open. -/
theorem out_write_open (script : List OutAttempt) (adev : omap3_audio_device)
    (out : omap3_stream_out) (bytes : Nat) (r : OutResult)
    (h : out_write adev out bytes script = some r)
    (hinv : out.standby = 0 ↔ out_transport_open out = true) :
    r.out.standby = 0 ↔ out_transport_open r.out = true := by
  induction script generalizing adev out r with
  | nil => simp [out_write] at h
  | cons a script ih =>
    cases hp : out_write_pass adev out bytes a with
    | none => simp [out_write, hp] at h
    | some r1 =>
      have h1 := out_write_pass_open adev out bytes a r1 hp hinv
      rw [out_write_cons adev out bytes a script r1 hp] at h
      by_cases he : r1.ret = -EPIPE
      · rw [if_pos he] at h
        cases h2 : out_write (do_output_standby r1.adev r1.out).adev
            (do_output_standby r1.adev r1.out).out bytes script with
        | none => simp [h2] at h
        | some r2 =>
          rw [h2] at h
          simp only [Option.map_some', Option.some.injEq] at h
          subst h
          exact ih _ _ r2 h2 (do_output_standby_open r1.adev r1.out h1)
      · rw [if_neg he] at h
        simp only [Option.some.injEq] at h
        subst h
        exact h1

/-- A returned `in_read` keeps a stream active exactly when its transport is open. -/
theorem in_read_open (adev : omap3_audio_device) (inp : omap3_stream_in)
    (buffer : List Nat) (bytes : Nat) (a : InAttempt) (r : InResult)
    (h : in_read adev inp buffer bytes a = some r)
    (hinv : inp.standby = 0 ↔ in_transport_open inp = true) :
    r.inp.standby = 0 ↔ in_transport_open r.inp = true := by
  have hstarted : (in_read_started adev inp).2.1.standby = 0 ↔
      in_transport_open (in_read_started adev inp).2.1 = true := by
    unfold in_read_started
    split_ifs with hs
    · exact ⟨fun _ => rfl, fun _ => rfl⟩
    · exact hinv
  rcases in_read_some adev inp buffer bytes a r h with
    ⟨hs, _, _, _, hinp, _⟩ | ⟨_, _, _, _, hinp, _⟩ | ⟨_, _, _, hinp, _⟩
  · rw [hinp]
    show inp.standby = 0 ↔ false = true
    simp [hs]
  · rw [hinp]
    exact hstarted
  · rw [hinp]
    exact hstarted

theorem out_standby_open (adev : omap3_audio_device) (out : omap3_stream_out)
    (hinv : out.standby = 0 ↔ out_transport_open out = true) :
    (out_standby adev out).out.standby = 0 ↔
      out_transport_open (out_standby adev out).out = true :=
  do_output_standby_open adev out hinv

theorem in_standby_open (adev : omap3_audio_device) (inp : omap3_stream_in)
    (hinv : inp.standby = 0 ↔ in_transport_open inp = true) :
    (in_standby adev inp).2.2.1.standby = 0 ↔
      in_transport_open (in_standby adev inp).2.2.1 = true := by
  by_cases hs : inp.standby = 0
  · simp [in_standby, do_input_standby, hs, in_transport_open]
  · have hsame : (in_standby adev inp).2.2.1 = inp := by
      simp [in_standby, do_input_standby, hs]
    rw [hsame]
    exact hinv

theorem adev_open_output_stream_open (devices : Nat) (calloc_res : Option Nat)
    (s : omap3_stream_out)
    (h : (adev_open_output_stream devices calloc_res).stream_out = some s) :
    s.standby = 0 ↔ out_transport_open s = true := by
  cases calloc_res with
  | none => simp [adev_open_output_stream] at h
  | some addr =>
    simp only [adev_open_output_stream, Option.some.injEq] at h
    subst h
    simp [out_transport_open]

theorem adev_open_input_stream_open (devices : Nat) (format : Int)
    (channel_mask sample_rate : Nat) (calloc_res malloc_res : Option Nat)
    (s : omap3_stream_in)
    (h : (adev_open_input_stream devices format channel_mask sample_rate calloc_res
      malloc_res).stream_in = some s) :
    s.standby = 0 ↔ in_transport_open s = true := by
  by_cases hc : check_input_parameters sample_rate format 2 ≠ 0
  · simp [adev_open_input_stream, hc] at h
  · cases calloc_res with
    | none => simp [adev_open_input_stream, hc] at h
    | some addr =>
      cases malloc_res with
      | none => simp [adev_open_input_stream, hc] at h
      | some b =>
        simp only [adev_open_input_stream, hc, if_false, Option.some.injEq] at h
        subst h
        simp [in_transport_open]

theorem active_iff_open_update_out (w : World) (hinv : active_iff_open w) (stream : Nat)
    (out1 : Option omap3_stream_out) (adev1 : omap3_audio_device)
    (h1 : ∀ s, out1 = some s → (s.standby = 0 ↔ out_transport_open s = true)) :
    active_iff_open { w with adev := adev1, outs := store_at w.outs stream out1 } := by
  refine ⟨?_, hinv.2⟩
  intro a s hs
  by_cases ha : a = stream
  · subst ha
    have hs1 : store_at w.outs a out1 a = some s := hs
    rw [store_at_same] at hs1
    exact h1 s hs1
  · have hs1 : store_at w.outs stream out1 a = some s := hs
    rw [store_at_other _ _ _ _ ha] at hs1
    exact hinv.1 a s hs1

theorem active_iff_open_update_in (w : World) (hinv : active_iff_open w) (stream : Nat)
    (in1 : Option omap3_stream_in) (adev1 : omap3_audio_device)
    (h1 : ∀ s, in1 = some s → (s.standby = 0 ↔ in_transport_open s = true)) :
    active_iff_open { w with adev := adev1, ins := store_at w.ins stream in1 } := by
  refine ⟨hinv.1, ?_⟩
  intro a s hs
  by_cases ha : a = stream
  · subst ha
    have hs1 : store_at w.ins a in1 a = some s := hs
    rw [store_at_same] at hs1
    exact h1 s hs1
  · have hs1 : store_at w.ins stream in1 a = some s := hs
    rw [store_at_other _ _ _ _ ha] at hs1
    exact hinv.2 a s hs1

theorem active_iff_open_fresh (m : mixer) : active_iff_open (fresh_world m) :=
  ⟨fun a s h => absurd h (by simp [fresh_world]),
   fun a s h => absurd h (by simp [fresh_world])⟩

/-- Every call that returns keeps each stream active exactly when its transport is
open. -/
theorem step_active_iff_open (w w1 : World) (c : Call) (hinv : active_iff_open w)
    (h : step w c = some w1) : active_iff_open w1 := by
  cases c with
  | open_output_stream devices calloc_res =>
    simp only [step] at h
    cases hs : (adev_open_output_stream devices calloc_res).stream_out with
    | none =>
      simp only [hs, Option.some.injEq] at h
      subst h
      exact hinv
    | some s =>
      simp only [hs] at h
      split_ifs at h with hfree
      simp only [Option.some.injEq] at h
      subst h
      exact active_iff_open_update_out w hinv s.addr (some s) w.adev (fun s1 h1 => by
        simp only [Option.some.injEq] at h1
        subst h1
        exact adev_open_output_stream_open devices calloc_res s hs)
  | open_input_stream devices format channel_mask sample_rate calloc_res malloc_res =>
    simp only [step] at h
    cases hs : (adev_open_input_stream devices format channel_mask sample_rate calloc_res
        malloc_res).stream_in with
    | none =>
      simp only [hs, Option.some.injEq] at h
      subst h
      exact hinv
    | some s =>
      simp only [hs] at h
      split_ifs at h with hfree
      simp only [Option.some.injEq] at h
      subst h
      exact active_iff_open_update_in w hinv s.addr (some s) w.adev (fun s1 h1 => by
        simp only [Option.some.injEq] at h1
        subst h1
        exact adev_open_input_stream_open _ _ _ _ _ _ s hs)
  | out_write stream bytes script =>
    simp only [step] at h
    cases hout : w.outs stream with
    | none => simp [hout] at h
    | some out =>
      simp only [hout] at h
      cases hr : out_write w.adev out bytes script with
      | none => simp [hr] at h
      | some r =>
        simp only [hr, Option.some.injEq] at h
        subst h
        exact active_iff_open_update_out w hinv stream (some r.out) r.adev (fun s1 h1 => by
          simp only [Option.some.injEq] at h1
          subst h1
          exact out_write_open script w.adev out bytes r hr (hinv.1 stream out hout))
  | in_read stream buffer bytes a =>
    simp only [step] at h
    cases hinp : w.ins stream with
    | none => simp [hinp] at h
    | some inp =>
      simp only [hinp] at h
      cases hr : in_read w.adev inp buffer bytes a with
      | none => simp [hr] at h
      | some r =>
        simp only [hr, Option.some.injEq] at h
        subst h
        exact active_iff_open_update_in w hinv stream (some r.inp) r.adev (fun s1 h1 => by
          simp only [Option.some.injEq] at h1
          subst h1
          exact in_read_open w.adev inp buffer bytes a r hr (hinv.2 stream inp hinp))
  | out_standby stream =>
    simp only [step] at h
    cases hout : w.outs stream with
    | none => simp [hout] at h
    | some out =>
      simp only [hout, Option.some.injEq] at h
      subst h
      exact active_iff_open_update_out w hinv stream _ _ (fun s1 h1 => by
        simp only [Option.some.injEq] at h1
        subst h1
        exact out_standby_open w.adev out (hinv.1 stream out hout))
  | in_standby stream =>
    simp only [step] at h
    cases hinp : w.ins stream with
    | none => simp [hinp] at h
    | some inp =>
      simp only [hinp, Option.some.injEq] at h
      subst h
      exact active_iff_open_update_in w hinv stream _ _ (fun s1 h1 => by
        simp only [Option.some.injEq] at h1
        subst h1
        exact in_standby_open w.adev inp (hinv.2 stream inp hinp))
  | close_output_stream stream =>
    simp only [step] at h
    cases hout : w.outs stream with
    | none => simp [hout] at h
    | some out =>
      simp only [hout, Option.some.injEq] at h
      subst h
      exact active_iff_open_update_out w hinv stream none _ (fun s1 h1 => by simp at h1)
  | close_input_stream stream =>
    simp only [step] at h
    cases hinp : w.ins stream with
    | none => simp [hinp] at h
    | some inp =>
      simp only [hinp, Option.some.injEq] at h
      subst h
      exact active_iff_open_update_in w hinv stream none _ (fun s1 h1 => by simp at h1)

theorem run_active_iff_open (calls : List Call) (w w1 : World) (hinv : active_iff_open w)
    (h : run w calls = some w1) : active_iff_open w1 := by
  induction calls generalizing w with
  | nil =>
    simp only [run, Option.some.injEq] at h
    subst h
    exact hinv
  | cons c cs ih =>
    simp only [run] at h
    cases hs : step w c with
    | none => simp [hs] at h
    | some w2 =>
      simp only [hs] at h
      exact ih w2 (step_active_iff_open w w2 c hinv hs) h

/-- A write changes no stream but the one written to, and a read no stream but the one
read from. -/
theorem step_other_streams (w w1 : World) :
    (∀ stream bytes script, step w (Call.out_write stream bytes script) = some w1 →
      (∀ a, a ≠ stream → w1.outs a = w.outs a) ∧ w1.ins = w.ins) ∧
    (∀ stream buffer bytes a, step w (Call.in_read stream buffer bytes a) = some w1 →
      (∀ b, b ≠ stream → w1.ins b = w.ins b) ∧ w1.outs = w.outs) := by
  constructor
  · intro stream bytes script h
    simp only [step] at h
    cases hout : w.outs stream with
    | none => simp [hout] at h
    | some out =>
      simp only [hout] at h
      cases hr : out_write w.adev out bytes script with
      | none => simp [hr] at h
      | some r =>
        simp only [hr, Option.some.injEq] at h
        subst h
        exact ⟨fun a ha => store_at_other _ _ _ a ha, rfl⟩
  · intro stream buffer bytes a h
    simp only [step] at h
    cases hinp : w.ins stream with
    | none => simp [hinp] at h
    | some inp =>
      simp only [hinp] at h
      cases hr : in_read w.adev inp buffer bytes a with
      | none => simp [hr] at h
      | some r =>
        simp only [hr, Option.some.injEq] at h
        subst h
        exact ⟨fun b hb => store_at_other _ _ _ b hb, rfl⟩

/-- C14, as the code has it: in every state reached from a freshly opened device by
calls that return, the active-output reference of the device is null or names an
output stream that exists, is active and has its transport open (it holds a ready
handle); the active-input reference is null or names an input stream that exists, is
active and has its transport open; every stream is stored under its own address; and
every stream, referred to or not, is active exactly when its transport is open.  The
streams the device does not refer to are not limited: a write changes no stream but
the one written to and a read no stream but the one read from, so a stream that is
active stays active when another one starts. -/
theorem reachable_references_active (m : mixer) (calls : List Call) (w : World)
    (h : run (fresh_world m) calls = some w) :
    references_active w ∧ active_iff_open w ∧
    (∀ a, w.adev.active_output = some a →
      ∃ s p, w.outs a = some s ∧ s.addr = a ∧ s.standby = 0 ∧ s.pcm = some p ∧
        p.ready = true) ∧
    (∀ a, w.adev.active_input = some a →
      ∃ s p, w.ins a = some s ∧ s.addr = a ∧ s.standby = 0 ∧ s.pcm = some p ∧
        p.ready = true) ∧
    (∀ w1 stream bytes script, step w (Call.out_write stream bytes script) = some w1 →
      (∀ a, a ≠ stream → w1.outs a = w.outs a) ∧ w1.ins = w.ins) ∧
    (∀ w1 stream buffer bytes a, step w (Call.in_read stream buffer bytes a) = some w1 →
      (∀ b, b ≠ stream → w1.ins b = w.ins b) ∧ w1.outs = w.outs) := by
  have href := run_references_active calls (fresh_world m) w (references_active_fresh m) h
  have hopen := run_active_iff_open calls (fresh_world m) w (active_iff_open_fresh m) h
  refine ⟨href, hopen, ?_, ?_, fun w1 => (step_other_streams w w1).1,
    fun w1 => (step_other_streams w w1).2⟩
  · intro a ha
    obtain ⟨s, hs, hst⟩ := href.1 a ha
    have ho := (hopen.1 a s hs).mp hst
    unfold out_transport_open at ho
    cases hp : s.pcm with
    | none => simp [hp] at ho
    | some p =>
      simp only [hp] at ho
      exact ⟨s, p, hs, href.2.2.1 a s hs, hst, hp, ho⟩
  · intro a ha
    obtain ⟨s, hs, hst⟩ := href.2.1 a ha
    have ho := (hopen.2 a s hs).mp hst
    unfold in_transport_open at ho
    cases hp : s.pcm with
    | none => simp [hp] at ho
    | some p =>
      simp only [hp] at ho
      exact ⟨s, p, hs, href.2.2.2 a s hs, hst, hp, ho⟩

/-- C14, witness: the state after two output streams were opened and written to; the
device refers to the second, which is active with its transport open. -/
theorem reachable_references_active_witness :
    ∃ w, run (fresh_world sample_mixer) calls_two_outputs = some w ∧
      references_active w ∧ active_iff_open w ∧
      w.adev.active_output = some 8192 ∧
      ∃ s p, w.outs 8192 = some s ∧ s.addr = 8192 ∧ s.standby = 0 ∧ s.pcm = some p ∧
        p.ready = true := by
  obtain ⟨w, hw⟩ := Option.isSome_iff_exists.mp
    (show (run (fresh_world sample_mixer) calls_two_outputs).isSome = true by decide)
  have hact : w.adev.active_output = some 8192 := by
    have hd : Option.map (fun w => w.adev.active_output)
        (run (fresh_world sample_mixer) calls_two_outputs) = some (some 8192) := by
      decide
    rw [hw] at hd
    simpa using hd
  have hthm := reachable_references_active sample_mixer calls_two_outputs w hw
  exact ⟨w, hw, hthm.1, hthm.2.1, hact, hthm.2.2.1 8192 hact⟩

/-- C14, counterexample: after two output streams were opened and each written to once,
both are active with their transports open, and the device refers to the second; the
same holds for two input streams that were each read from once. -/
theorem two_streams_active :
    Option.map
      (fun w => ((w.outs 4096).map (fun s => (s.standby, out_transport_open s)),
        (w.outs 8192).map (fun s => (s.standby, out_transport_open s)),
        w.adev.active_output))
      (run (fresh_world sample_mixer) calls_two_outputs) =
      some (some (0, true), some (0, true), some 8192) ∧
    Option.map
      (fun w => ((w.ins 12288).map (fun s => (s.standby, in_transport_open s)),
        (w.ins 16384).map (fun s => (s.standby, in_transport_open s)),
        w.adev.active_input))
      (run (fresh_world sample_mixer) calls_two_inputs) =
      some (some (0, true), some (0, true), some 16384) := by
  decide

/-! ## Sleep after a transfer and the handle after a failed open -/

theorem out_write_sleep_eq_spec (bytes : Nat) (h : bytes * 1000000 < 2 ^ 32) :
    out_write_sleep bytes = out_write_sleep_spec bytes := by
  unfold out_write_sleep out_write_sleep_spec u32
  rw [Nat.mod_eq_of_lt h]

/-- C19: evaluation at the failing input.  A write of 7680 bytes, the buffer size the
stream reports, whose transfer returns a positive status, ends with a sleep of 19189
microseconds: the product 7680 * 1000000 is reduced modulo 2^32 before the divisions.
The exact value of the formula is 43537.  A failed read of 8192 bytes at 8000 Hz
sleeps 121782 microseconds where the exact value is 256000. -/
theorem out_write_sleep_wraps :
    out_get_buffer_size sample_out = 7680 ∧
    Option.map (fun r => r.events.getLast?)
      (out_write sample_adev sample_out 7680 [attempt_written]) =
      some (some (Event.usleep 19189)) ∧
    out_write_sleep 7680 = 19189 ∧
    out_write_sleep_spec 7680 = 43537 ∧
    Option.map
      (fun r => r.events.filter
        (fun e => match e with
          | Event.usleep _ => true
          | _ => false))
      (in_read sample_adev sample_in (List.replicate 8192 0) 8192 ⟨false, 0, []⟩) =
      some [Event.usleep 121782] ∧
    8192 * 1000000 / in_frame_size sample_in / in_get_sample_rate sample_in = 256000 := by
  decide

/-- C20: evaluation at the failing input.  After the first write on a fresh output
stream whose transport does not open, the stream is in standby and still holds the
handle `pcm_open` returned, which `pcm_close` has closed; `do_output_standby`, the
other place that closes a handle, sets it to null. -/
theorem failed_open_keeps_handle :
    Option.map (fun w => (w.outs 4096).map (fun s => (s.standby, s.pcm)))
      (run (fresh_world sample_mixer) calls_failed_open) =
      some (some (1, some
        { flags := PCM_OUT ||| PCM_MMAP
          config := { pcm_config_mm with start_threshold := 3840, avail_min := 1920 }
          ready := false })) ∧
    Option.map (fun r => r.events.filter Event.is_pcm_close)
      (out_write sample_adev sample_out 4096 [attempt_no_open]) =
      some [Event.pcm_close (some
        { flags := PCM_OUT ||| PCM_MMAP
          config := { pcm_config_mm with start_threshold := 3840, avail_min := 1920 }
          ready := false })] ∧
    (do_output_standby sample_adev_active sample_out_active).out.pcm = none := by
  decide

/-! ## Locking discipline -/

/-- C15, witness: a first read of four bytes that opens the transport, once with the
mic-mute flag clear and once with it set. -/
theorem in_read_success_witness :
    (∃ r, in_read sample_adev sample_in [7, 7, 7, 7, 7] 4 read_ok = some r ∧
      r.ret = 4 ∧ r.inp.standby = 0 ∧ r.buffer = [1, 2, 3, 4, 7]) ∧
    (∃ r, in_read { sample_adev with mic_mute := true } sample_in [7, 7, 7, 7, 7] 4
        read_ok = some r ∧
      r.ret = 4 ∧ r.inp.standby = 0 ∧ ∀ i, i < 4 → r.buffer[i]? = some 0) := by
  obtain ⟨r, hr, _, hsmall, _, hstandby, _, _, hclear⟩ :=
    in_read_success sample_adev sample_in [7, 7, 7, 7, 7] 4 read_ok (by decide) rfl
      (Or.inr rfl) rfl
  obtain ⟨q, hq, _, hqsmall, _, hqstandby, _, hmute, _⟩ :=
    in_read_success { sample_adev with mic_mute := true } sample_in [7, 7, 7, 7, 7] 4
      read_ok (by decide) rfl (Or.inr rfl) rfl
  exact ⟨⟨r, hr, hsmall (by decide), hstandby, (hclear rfl).1⟩,
    ⟨q, hq, hqsmall (by decide), hqstandby, hmute rfl⟩⟩

/-- C15, counterexample: a read of 2^31 bytes, into a buffer of that length, whose
transport opens and delivers 2^31 bytes with status 0 leaves the stream active and
returns -2^31, not the byte count. -/
theorem in_read_success_returns_negative :
    (List.replicate 2147483648 0).length = 2147483648 ∧
    (List.replicate 2147483648 1).length = 2147483648 ∧
    Option.map (fun r => (r.ret, r.inp.standby))
      (in_read sample_adev sample_in (List.replicate 2147483648 0) 2147483648
        ⟨true, 0, List.replicate 2147483648 1⟩) = some (-2147483648, 0) :=
  ⟨List.length_replicate _ _, List.length_replicate _ _, by decide⟩

end AudioHw
